import Mathlib

/-!
# shurcooL/home: the mounting layer and the dual-backend service facades

A shallow embedding of `issues.go`, `changes.go` and `blog.go`.

* A Go `string` is a finite sequence of bytes.  It is represented by the list of
  its bytes, each byte written as the character with the same code, so that the
  ASCII literals of the source read the same; `len` is the length of the list.
* Collaborators that are not part of the repository (the local and the remote
  backends, the identity resolver, the sub-applications, the connection behind
  the real `http.ResponseWriter`) are arbitrary functions over an abstract state
  `σ`.  Every call that crosses into a collaborator is written to a log, so that
  "is called", "is called once" and "is never called" are statements about it.
* `*url.URL` is a pointer: URLs live in a small heap (`World.urls`) and a request
  holds an address, so that mutation through an alias is visible.
* A Go run-time panic (slice out of range, failed type assertion, nil
  dereference) is an explicit outcome.
-/

set_option autoImplicit false

namespace Home

/-! ## Go values -/

/-- A Go string: its bytes in order. -/
abbrev GoString := List Char

/-- A Go slice, by its elements (`nil` is the empty list). -/
abbrev Slice (α : Type) := List α

/-- The built-in `len`. -/
abbrev len {α : Type} (s : List α) : Nat := s.length

/-- The `error` values the three files create, compare against or pass on; `other`
stands for every error value that is none of the named ones.  `nil` is `none` of
`Option Error`. -/
inductive Error
  | permission
  | notExist
  | redirect (URL : GoString)
  | badAccessToken
  | other (msg : GoString)
deriving DecidableEq, Repr

/-- Go `os.ErrPermission`. -/
abbrev os.ErrPermission : Error := Error.permission

/-- Go `os.ErrNotExist`. -/
abbrev os.ErrNotExist : Error := Error.notExist

/-- Go `httperror.Redirect{URL: u}`. -/
abbrev httperror.Redirect (URL : GoString) : Error := Error.redirect URL

/-- Go `errBadAccessToken`. -/
abbrev errBadAccessToken : Error := Error.badAccessToken

/-- The ways the code of the three files can panic. -/
inductive Panic
  | sliceBounds
  | indexRange
  | typeAssertion
  | nilDereference
deriving DecidableEq, Repr

/-- Go `users.UserSpec`. -/
structure users.UserSpec where
  ID : Nat
  Domain : GoString
deriving DecidableEq, Repr

/-- Go `issues.RepoSpec`. -/
structure issues.RepoSpec where
  URI : GoString
deriving DecidableEq, Repr

/-- Go `url.URL`, the two fields the handlers read and write. -/
structure url.URL where
  Path : GoString
  RawQuery : GoString
deriving DecidableEq, Repr

/-- Go `http.Header`. -/
abbrev http.Header := List (GoString × List GoString)

/-! ## context.Context -/

/-- The context keys used by the three files. -/
inductive ContextKey
  | sessionContextKey
  | userContextKey
  | issuesappRepoSpecContextKey
  | issuesappBaseURIContextKey
  | changesRepoSpecContextKey
  | changesBaseURIContextKey
deriving DecidableEq, Repr

/-- The dynamic values stored under those keys.  `*session` and `*user` are
pointers whose pointees the handlers never read: `none` is the nil pointer. -/
inductive Value
  | session (p : Option Nat)
  | user (p : Option Nat)
  | RepoSpec (r : issues.RepoSpec)
  | string (s : GoString)
deriving DecidableEq, Repr

/-- Go `context.Context`: the chain of key/value pairs, innermost first. -/
abbrev context.Context := List (ContextKey × Value)

/-- Go `context.WithValue(parent, key, val)`. -/
def context.WithValue (parent : context.Context) (key : ContextKey) (val : Value) : context.Context :=
  (key, val) :: parent

/-- Go `ctx.Value(key)`; `none` is the nil interface value. -/
def context.Context.Value (ctx : context.Context) (key : ContextKey) : Option Value :=
  List.lookup key ctx

/-- Go `*http.Request`: `URL` is the address of its `url.URL`. -/
structure http.Request where
  URL : Nat
  RequestURI : GoString
  ctx : context.Context
deriving DecidableEq, Repr

/-- Go `req.Context()`. -/
def http.Request.Context (req : http.Request) : context.Context := req.ctx

/-- Go `req.WithContext(ctx)`: a shallow copy of the request, sharing its URL. -/
def http.Request.WithContext (req : http.Request) (ctx : context.Context) : http.Request :=
  { req with ctx := ctx }

/-- Go `httptest.ResponseRecorder`. -/
structure httptest.ResponseRecorder where
  Code : Nat
  HeaderMap : http.Header
  Body : GoString
deriving DecidableEq, Repr

/-- Go `http.StatusForbidden`. -/
abbrev http.StatusForbidden : Nat := 403

/-- Go `http.StatusMovedPermanently`. -/
abbrev http.StatusMovedPermanently : Nat := 301

/-! ## Effects -/

/-- The two backends behind a facade. -/
inductive Backend
  | Local
  | RemoteMirror
deriving DecidableEq, Repr

/-- One entry of the call log. -/
inductive Action
  | GetAuthenticatedSpec (ctx : context.Context)
  | backend (b : Backend) (op : String) (repo : GoString)
  | getUser (req : http.Request)
  | SetCookie
  | NewRecorder
  | ServeHTTP (recorded : Bool) (req : http.Request) (u : url.URL)
  | WriteHeader (code : Nat)
  | Write (p : GoString)
  | Redirect (url : GoString) (code : Nat)
deriving DecidableEq, Repr

/-- Everything a call can read or change. -/
structure World (σ : Type) where
  /-- state of the collaborators -/
  state : σ
  /-- heap of `url.URL` objects, addressed by position -/
  urls : List url.URL
  /-- header map of the real response, `w.Header()` -/
  header : http.Header
  /-- what the connection answers to a `Write` on the real response: `none` when
  the write succeeds, else the message of its I/O error -/
  connErr : Option GoString
  /-- calls made so far, oldest first -/
  log : List Action

/-- A computation: from a world to a panic or a result and a world. -/
def Eff (σ α : Type) : Type := World σ → Except Panic (α × World σ)

/-- Running a computation. -/
def Eff.run {σ α : Type} (m : Eff σ α) (w : World σ) : Except Panic (α × World σ) := m w

instance {σ : Type} : Monad (Eff σ) where
  pure a := fun w => .ok (a, w)
  bind m f := fun w =>
    match m w with
    | .error p => .error p
    | .ok (a, w1) => f a w1

/-- A logged call into a collaborator. -/
def perform {σ α : Type} (a : Action) (f : σ → α × σ) : Eff σ α := fun w =>
  .ok ((f w.state).1, { w with state := (f w.state).2, log := w.log ++ [a] })

/-- A logged call that returns nothing. -/
def record {σ : Type} (a : Action) : Eff σ Unit := fun w =>
  .ok ((), { w with log := w.log ++ [a] })

/-- A run-time panic. -/
def goPanic {σ α : Type} (p : Panic) : Eff σ α := fun _ => .error p

/-! ## strings -/

/-- Go `strings.HasPrefix(s, pre)`: `len(s) >= len(pre) && s[:len(pre)] == pre`. -/
def strings.HasPrefix (s pre : GoString) : Bool :=
  decide (len pre ≤ len s) && s.take (len pre) == pre

/-- Go `strings.SplitN(s, sep, n)` for a one-byte separator and `n >= 0`: at most `n`
pieces, the last one the unsplit remainder. -/
def strings.SplitN (s : GoString) (sep : Char) : Nat → Slice GoString
  | 0 => []
  | 1 => [s]
  | n + 2 =>
    if sep ∈ s then
      s.takeWhile (· != sep) :: strings.SplitN ((s.dropWhile (· != sep)).drop 1) sep (n + 1)
    else [s]

/-- Go `strings.Cut(s, sep)` for a one-byte separator: what precedes the first
separator, what follows it, and whether there is one. -/
def strings.Cut (s : GoString) (sep : Char) : GoString × GoString × Bool :=
  if sep ∈ s then (s.takeWhile (· != sep), (s.dropWhile (· != sep)).drop 1, true)
  else (s, [], false)

/-- Go `s[:n]`. -/
def sliceTo {σ : Type} (s : GoString) (n : Nat) : Eff σ GoString :=
  if n ≤ len s then pure (s.take n) else goPanic .sliceBounds

/-- Go `s[n:]`. -/
def sliceFrom {σ : Type} (s : GoString) (n : Nat) : Eff σ GoString :=
  if n ≤ len s then pure (s.drop n) else goPanic .sliceBounds

/-- Go `a[i]`. -/
def index {σ α : Type} (a : Slice α) (i : Nat) : Eff σ α :=
  match a[i]? with
  | some x => pure x
  | none => goPanic .indexRange

/-! ## The identity resolver and the issues facade (issues.go) -/

/-- Go `users.Service`, the one method the facades and handlers call. -/
structure users.Service (σ : Type) where
  GetAuthenticatedSpec : context.Context → σ → (users.UserSpec × Option Error) × σ

/-- The types of package `issues` that pass through the facade untouched. -/
structure issues.Types where
  Issue : Type
  Comment : Type
  Event : Type
  IssueListOptions : Type
  ListOptions : Type
  IssueRequest : Type
  CommentRequest : Type
  /-- the zero value `issues.Issue{}` -/
  zeroIssue : Issue
  /-- the zero value `issues.Comment{}` -/
  zeroComment : Comment

/-- Go `issues.Service`. -/
structure issues.Service (T : issues.Types) (σ : Type) where
  List : context.Context → issues.RepoSpec → T.IssueListOptions → σ →
    (Slice T.Issue × Option Error) × σ
  Count : context.Context → issues.RepoSpec → T.IssueListOptions → σ → (Nat × Option Error) × σ
  Get : context.Context → issues.RepoSpec → Nat → σ → (T.Issue × Option Error) × σ
  ListComments : context.Context → issues.RepoSpec → Nat → Option T.ListOptions → σ →
    (Slice T.Comment × Option Error) × σ
  ListEvents : context.Context → issues.RepoSpec → Nat → Option T.ListOptions → σ →
    (Slice T.Event × Option Error) × σ
  Create : context.Context → issues.RepoSpec → T.Issue → σ → (T.Issue × Option Error) × σ
  CreateComment : context.Context → issues.RepoSpec → Nat → T.Comment → σ →
    (T.Comment × Option Error) × σ
  Edit : context.Context → issues.RepoSpec → Nat → T.IssueRequest → σ →
    (T.Issue × Slice T.Event × Option Error) × σ
  EditComment : context.Context → issues.RepoSpec → Nat → T.CommentRequest → σ →
    (T.Comment × Option Error) × σ

/-- Go `shurcoolSeesGitHubIssues`. -/
structure shurcoolSeesGitHubIssues (T : issues.Types) (σ : Type) where
  service : issues.Service T σ
  shurcoolGitHubIssues : issues.Service T σ
  users : users.Service σ


section facades

variable {σ : Type}

/-- The distinguished principal `shurcool` is a package-level variable declared
outside the three files; every definition that reads it takes it as a parameter. -/
abbrev Principal := users.UserSpec

/-- Go `shurcoolSeesGitHubIssues.List`. -/
def shurcoolSeesGitHubIssues.List {T : issues.Types} (shurcool : Principal)
    (s : shurcoolSeesGitHubIssues T σ) (ctx : context.Context) (repo : issues.RepoSpec)
    (opt : T.IssueListOptions) : Eff σ (Slice T.Issue × Option Error) :=
  if strings.HasPrefix repo.URI "github.com/".toList ∧
      repo.URI ≠ "github.com/shurcooL/issuesapp".toList ∧
      repo.URI ≠ "github.com/shurcooL/notificationsapp".toList then do
    let (currentUser, err) ← perform (.GetAuthenticatedSpec ctx) (s.users.GetAuthenticatedSpec ctx)
    if err ≠ none then
      return ([], err)
    else if currentUser ≠ shurcool then
      return ([], some os.ErrPermission)
    else
      perform (.backend .RemoteMirror "List" repo.URI) (s.shurcoolGitHubIssues.List ctx repo opt)
  else
    perform (.backend .Local "List" repo.URI) (s.service.List ctx repo opt)

/-- Go `shurcoolSeesGitHubIssues.Count`. -/
def shurcoolSeesGitHubIssues.Count {T : issues.Types} (shurcool : Principal)
    (s : shurcoolSeesGitHubIssues T σ) (ctx : context.Context) (repo : issues.RepoSpec)
    (opt : T.IssueListOptions) : Eff σ (Nat × Option Error) :=
  if strings.HasPrefix repo.URI "github.com/".toList ∧
      repo.URI ≠ "github.com/shurcooL/issuesapp".toList ∧
      repo.URI ≠ "github.com/shurcooL/notificationsapp".toList then do
    let (currentUser, err) ← perform (.GetAuthenticatedSpec ctx) (s.users.GetAuthenticatedSpec ctx)
    if err ≠ none then
      return (0, err)
    else if currentUser ≠ shurcool then
      return (0, some os.ErrPermission)
    else
      perform (.backend .RemoteMirror "Count" repo.URI) (s.shurcoolGitHubIssues.Count ctx repo opt)
  else
    perform (.backend .Local "Count" repo.URI) (s.service.Count ctx repo opt)

/-- Go `shurcoolSeesGitHubIssues.Get`. -/
def shurcoolSeesGitHubIssues.Get {T : issues.Types} (shurcool : Principal)
    (s : shurcoolSeesGitHubIssues T σ) (ctx : context.Context) (repo : issues.RepoSpec)
    (id : Nat) : Eff σ (T.Issue × Option Error) :=
  if strings.HasPrefix repo.URI "github.com/".toList ∧
      repo.URI ≠ "github.com/shurcooL/issuesapp".toList ∧
      repo.URI ≠ "github.com/shurcooL/notificationsapp".toList then do
    let (currentUser, err) ← perform (.GetAuthenticatedSpec ctx) (s.users.GetAuthenticatedSpec ctx)
    if err ≠ none then
      return (T.zeroIssue, err)
    else if currentUser ≠ shurcool then
      return (T.zeroIssue, some os.ErrPermission)
    else
      perform (.backend .RemoteMirror "Get" repo.URI) (s.shurcoolGitHubIssues.Get ctx repo id)
  else
    perform (.backend .Local "Get" repo.URI) (s.service.Get ctx repo id)

/-- Go `shurcoolSeesGitHubIssues.ListComments`. -/
def shurcoolSeesGitHubIssues.ListComments {T : issues.Types} (shurcool : Principal)
    (s : shurcoolSeesGitHubIssues T σ) (ctx : context.Context) (repo : issues.RepoSpec)
    (id : Nat) (opt : Option T.ListOptions) : Eff σ (Slice T.Comment × Option Error) :=
  if strings.HasPrefix repo.URI "github.com/".toList ∧
      repo.URI ≠ "github.com/shurcooL/issuesapp".toList ∧
      repo.URI ≠ "github.com/shurcooL/notificationsapp".toList then do
    let (currentUser, err) ← perform (.GetAuthenticatedSpec ctx) (s.users.GetAuthenticatedSpec ctx)
    if err ≠ none then
      return ([], err)
    else if currentUser ≠ shurcool then
      return ([], some os.ErrPermission)
    else
      perform (.backend .RemoteMirror "ListComments" repo.URI) (s.shurcoolGitHubIssues.ListComments ctx repo id opt)
  else
    perform (.backend .Local "ListComments" repo.URI) (s.service.ListComments ctx repo id opt)

/-- Go `shurcoolSeesGitHubIssues.ListEvents`. -/
def shurcoolSeesGitHubIssues.ListEvents {T : issues.Types} (shurcool : Principal)
    (s : shurcoolSeesGitHubIssues T σ) (ctx : context.Context) (repo : issues.RepoSpec)
    (id : Nat) (opt : Option T.ListOptions) : Eff σ (Slice T.Event × Option Error) :=
  if strings.HasPrefix repo.URI "github.com/".toList ∧
      repo.URI ≠ "github.com/shurcooL/issuesapp".toList ∧
      repo.URI ≠ "github.com/shurcooL/notificationsapp".toList then do
    let (currentUser, err) ← perform (.GetAuthenticatedSpec ctx) (s.users.GetAuthenticatedSpec ctx)
    if err ≠ none then
      return ([], err)
    else if currentUser ≠ shurcool then
      return ([], some os.ErrPermission)
    else
      perform (.backend .RemoteMirror "ListEvents" repo.URI) (s.shurcoolGitHubIssues.ListEvents ctx repo id opt)
  else
    perform (.backend .Local "ListEvents" repo.URI) (s.service.ListEvents ctx repo id opt)

/-- Go `shurcoolSeesGitHubIssues.Create`. -/
def shurcoolSeesGitHubIssues.Create {T : issues.Types} (shurcool : Principal)
    (s : shurcoolSeesGitHubIssues T σ) (ctx : context.Context) (repo : issues.RepoSpec)
    (issue : T.Issue) : Eff σ (T.Issue × Option Error) :=
  if strings.HasPrefix repo.URI "github.com/".toList ∧
      repo.URI ≠ "github.com/shurcooL/issuesapp".toList ∧
      repo.URI ≠ "github.com/shurcooL/notificationsapp".toList then do
    let (currentUser, err) ← perform (.GetAuthenticatedSpec ctx) (s.users.GetAuthenticatedSpec ctx)
    if err ≠ none then
      return (T.zeroIssue, err)
    else if currentUser ≠ shurcool then
      return (T.zeroIssue, some os.ErrPermission)
    else
      perform (.backend .RemoteMirror "Create" repo.URI) (s.shurcoolGitHubIssues.Create ctx repo issue)
  else
    perform (.backend .Local "Create" repo.URI) (s.service.Create ctx repo issue)

/-- Go `shurcoolSeesGitHubIssues.CreateComment`. -/
def shurcoolSeesGitHubIssues.CreateComment {T : issues.Types} (shurcool : Principal)
    (s : shurcoolSeesGitHubIssues T σ) (ctx : context.Context) (repo : issues.RepoSpec)
    (id : Nat) (comment : T.Comment) : Eff σ (T.Comment × Option Error) :=
  if strings.HasPrefix repo.URI "github.com/".toList ∧
      repo.URI ≠ "github.com/shurcooL/issuesapp".toList ∧
      repo.URI ≠ "github.com/shurcooL/notificationsapp".toList then do
    let (currentUser, err) ← perform (.GetAuthenticatedSpec ctx) (s.users.GetAuthenticatedSpec ctx)
    if err ≠ none then
      return (T.zeroComment, err)
    else if currentUser ≠ shurcool then
      return (T.zeroComment, some os.ErrPermission)
    else
      perform (.backend .RemoteMirror "CreateComment" repo.URI) (s.shurcoolGitHubIssues.CreateComment ctx repo id comment)
  else
    perform (.backend .Local "CreateComment" repo.URI) (s.service.CreateComment ctx repo id comment)

/-- Go `shurcoolSeesGitHubIssues.Edit`. -/
def shurcoolSeesGitHubIssues.Edit {T : issues.Types} (shurcool : Principal)
    (s : shurcoolSeesGitHubIssues T σ) (ctx : context.Context) (repo : issues.RepoSpec)
    (id : Nat) (ir : T.IssueRequest) : Eff σ (T.Issue × Slice T.Event × Option Error) :=
  if strings.HasPrefix repo.URI "github.com/".toList ∧
      repo.URI ≠ "github.com/shurcooL/issuesapp".toList ∧
      repo.URI ≠ "github.com/shurcooL/notificationsapp".toList then do
    let (currentUser, err) ← perform (.GetAuthenticatedSpec ctx) (s.users.GetAuthenticatedSpec ctx)
    if err ≠ none then
      return (T.zeroIssue, [], err)
    else if currentUser ≠ shurcool then
      return (T.zeroIssue, [], some os.ErrPermission)
    else
      perform (.backend .RemoteMirror "Edit" repo.URI) (s.shurcoolGitHubIssues.Edit ctx repo id ir)
  else
    perform (.backend .Local "Edit" repo.URI) (s.service.Edit ctx repo id ir)

/-- Go `shurcoolSeesGitHubIssues.EditComment`. -/
def shurcoolSeesGitHubIssues.EditComment {T : issues.Types} (shurcool : Principal)
    (s : shurcoolSeesGitHubIssues T σ) (ctx : context.Context) (repo : issues.RepoSpec)
    (id : Nat) (cr : T.CommentRequest) : Eff σ (T.Comment × Option Error) :=
  if strings.HasPrefix repo.URI "github.com/".toList ∧
      repo.URI ≠ "github.com/shurcooL/issuesapp".toList ∧
      repo.URI ≠ "github.com/shurcooL/notificationsapp".toList then do
    let (currentUser, err) ← perform (.GetAuthenticatedSpec ctx) (s.users.GetAuthenticatedSpec ctx)
    if err ≠ none then
      return (T.zeroComment, err)
    else if currentUser ≠ shurcool then
      return (T.zeroComment, some os.ErrPermission)
    else
      perform (.backend .RemoteMirror "EditComment" repo.URI) (s.shurcoolGitHubIssues.EditComment ctx repo id cr)
  else
    perform (.backend .Local "EditComment" repo.URI) (s.service.EditComment ctx repo id cr)

/-! ## The changes facade (changes.go) -/

/-- The types of package `change` that pass through the facade untouched. -/
structure change.Types where
  Change : Type
  Commit : Type
  TimelineItem : Type
  ListOptions : Type
  ListTimelineOptions : Type
  GetDiffOptions : Type
  /-- the zero value `change.Change{}` -/
  zeroChange : Change

/-- Go `change.Service`, with the method `ThreadType` that a value of the interface
may or may not have in addition (`none`: its dynamic type lacks the method). -/
structure change.Service (T : change.Types) (σ : Type) where
  List : context.Context → GoString → T.ListOptions → σ → (Slice T.Change × Option Error) × σ
  Count : context.Context → GoString → T.ListOptions → σ → (Nat × Option Error) × σ
  Get : context.Context → GoString → Nat → σ → (T.Change × Option Error) × σ
  ListTimeline : context.Context → GoString → Nat → Option T.ListTimelineOptions → σ →
    (Slice T.TimelineItem × Option Error) × σ
  ListCommits : context.Context → GoString → Nat → σ → (Slice T.Commit × Option Error) × σ
  GetDiff : context.Context → GoString → Nat → Option T.GetDiffOptions → σ →
    (GoString × Option Error) × σ
  ThreadType : Option (GoString → σ → GoString × σ)

/-- Go `shurcoolSeesGitHubChanges`. -/
structure shurcoolSeesGitHubChanges (T : change.Types) (σ : Type) where
  service : change.Service T σ
  shurcoolGitHubChange : change.Service T σ
  users : users.Service σ

/-- Go `shurcoolSeesGitHubChanges.List`. -/
def shurcoolSeesGitHubChanges.List {T : change.Types} (shurcool : Principal)
    (s : shurcoolSeesGitHubChanges T σ) (ctx : context.Context) (repo : GoString)
    (opt : T.ListOptions) : Eff σ (Slice T.Change × Option Error) :=
  if strings.HasPrefix repo "github.com/".toList then do
    let (currentUser, err) ← perform (.GetAuthenticatedSpec ctx) (s.users.GetAuthenticatedSpec ctx)
    if err ≠ none then
      return ([], err)
    else if currentUser ≠ shurcool then
      return ([], some os.ErrPermission)
    else
      perform (.backend .RemoteMirror "List" repo) (s.shurcoolGitHubChange.List ctx repo opt)
  else
    perform (.backend .Local "List" repo) (s.service.List ctx repo opt)

/-- Go `shurcoolSeesGitHubChanges.Count`. -/
def shurcoolSeesGitHubChanges.Count {T : change.Types} (shurcool : Principal)
    (s : shurcoolSeesGitHubChanges T σ) (ctx : context.Context) (repo : GoString)
    (opt : T.ListOptions) : Eff σ (Nat × Option Error) :=
  if strings.HasPrefix repo "github.com/".toList then do
    let (currentUser, err) ← perform (.GetAuthenticatedSpec ctx) (s.users.GetAuthenticatedSpec ctx)
    if err ≠ none then
      return (0, err)
    else if currentUser ≠ shurcool then
      return (0, some os.ErrPermission)
    else
      perform (.backend .RemoteMirror "Count" repo) (s.shurcoolGitHubChange.Count ctx repo opt)
  else
    perform (.backend .Local "Count" repo) (s.service.Count ctx repo opt)

/-- Go `shurcoolSeesGitHubChanges.Get`. -/
def shurcoolSeesGitHubChanges.Get {T : change.Types} (shurcool : Principal)
    (s : shurcoolSeesGitHubChanges T σ) (ctx : context.Context) (repo : GoString)
    (id : Nat) : Eff σ (T.Change × Option Error) :=
  if strings.HasPrefix repo "github.com/".toList then do
    let (currentUser, err) ← perform (.GetAuthenticatedSpec ctx) (s.users.GetAuthenticatedSpec ctx)
    if err ≠ none then
      return (T.zeroChange, err)
    else if currentUser ≠ shurcool then
      return (T.zeroChange, some os.ErrPermission)
    else
      perform (.backend .RemoteMirror "Get" repo) (s.shurcoolGitHubChange.Get ctx repo id)
  else
    perform (.backend .Local "Get" repo) (s.service.Get ctx repo id)

/-- Go `shurcoolSeesGitHubChanges.ListTimeline`. -/
def shurcoolSeesGitHubChanges.ListTimeline {T : change.Types} (shurcool : Principal)
    (s : shurcoolSeesGitHubChanges T σ) (ctx : context.Context) (repo : GoString)
    (id : Nat) (opt : Option T.ListTimelineOptions) : Eff σ (Slice T.TimelineItem × Option Error) :=
  if strings.HasPrefix repo "github.com/".toList then do
    let (currentUser, err) ← perform (.GetAuthenticatedSpec ctx) (s.users.GetAuthenticatedSpec ctx)
    if err ≠ none then
      return ([], err)
    else if currentUser ≠ shurcool then
      return ([], some os.ErrPermission)
    else
      perform (.backend .RemoteMirror "ListTimeline" repo) (s.shurcoolGitHubChange.ListTimeline ctx repo id opt)
  else
    perform (.backend .Local "ListTimeline" repo) (s.service.ListTimeline ctx repo id opt)

/-- Go `shurcoolSeesGitHubChanges.ListCommits`. -/
def shurcoolSeesGitHubChanges.ListCommits {T : change.Types} (shurcool : Principal)
    (s : shurcoolSeesGitHubChanges T σ) (ctx : context.Context) (repo : GoString)
    (id : Nat) : Eff σ (Slice T.Commit × Option Error) :=
  if strings.HasPrefix repo "github.com/".toList then do
    let (currentUser, err) ← perform (.GetAuthenticatedSpec ctx) (s.users.GetAuthenticatedSpec ctx)
    if err ≠ none then
      return ([], err)
    else if currentUser ≠ shurcool then
      return ([], some os.ErrPermission)
    else
      perform (.backend .RemoteMirror "ListCommits" repo) (s.shurcoolGitHubChange.ListCommits ctx repo id)
  else
    perform (.backend .Local "ListCommits" repo) (s.service.ListCommits ctx repo id)

/-- Go `shurcoolSeesGitHubChanges.GetDiff`. -/
def shurcoolSeesGitHubChanges.GetDiff {T : change.Types} (shurcool : Principal)
    (s : shurcoolSeesGitHubChanges T σ) (ctx : context.Context) (repo : GoString)
    (id : Nat) (opt : Option T.GetDiffOptions) : Eff σ (GoString × Option Error) :=
  if strings.HasPrefix repo "github.com/".toList then do
    let (currentUser, err) ← perform (.GetAuthenticatedSpec ctx) (s.users.GetAuthenticatedSpec ctx)
    if err ≠ none then
      return ([], err)
    else if currentUser ≠ shurcool then
      return ([], some os.ErrPermission)
    else
      perform (.backend .RemoteMirror "GetDiff" repo) (s.shurcoolGitHubChange.GetDiff ctx repo id opt)
  else
    perform (.backend .Local "GetDiff" repo) (s.service.GetDiff ctx repo id opt)

/-- Go `shurcoolSeesGitHubChanges.ThreadType`: the type assertion to
`interface{ ThreadType(string) string }` panics when the method is missing. -/
def shurcoolSeesGitHubChanges.ThreadType {T : change.Types}
    (s : shurcoolSeesGitHubChanges T σ) (repo : GoString) : Eff σ GoString :=
  if strings.HasPrefix repo "github.com/".toList then
    match s.shurcoolGitHubChange.ThreadType with
    | some threadType => perform (.backend .RemoteMirror "ThreadType" repo) (threadType repo)
    | none => goPanic .typeAssertion
  else
    match s.service.ThreadType with
    | some threadType => perform (.backend .Local "ThreadType" repo) (threadType repo)
    | none => goPanic .typeAssertion

end facades

/-! ## net/url -/

/-- The two escaping modes of `net/url` that the login redirect goes through. -/
inductive url.encoding
  | encodePath
  | encodeQueryComponent
deriving DecidableEq, Repr

/-- Go `shouldEscape(c, mode)` of `net/url`, for the two modes above. -/
def url.shouldEscape (c : Char) (mode : url.encoding) : Bool :=
  if ('a' ≤ c ∧ c ≤ 'z') ∨ ('A' ≤ c ∧ c ≤ 'Z') ∨ ('0' ≤ c ∧ c ≤ '9') then false
  else if c = '-' ∨ c = '_' ∨ c = '.' ∨ c = '~' then false
  else if c = '$' ∨ c = '&' ∨ c = '+' ∨ c = ',' ∨ c = '/' ∨ c = ':' ∨ c = ';' ∨ c = '=' ∨
      c = '?' ∨ c = '@' then
    match mode with
    | .encodePath => c = '?'
    | .encodeQueryComponent => true
  else true

/-- The table `upperhex` of `net/url`. -/
def url.upperhex : GoString := "0123456789ABCDEF".toList

/-- Go `escape(s, mode)` of `net/url`: a space of a query component becomes `+`, a
byte that must be escaped becomes `%XX`, any other byte stays. -/
def url.escape (s : GoString) (mode : url.encoding) : GoString :=
  s.flatMap fun c =>
    if c = ' ' ∧ mode = .encodeQueryComponent then ['+']
    else if url.shouldEscape c mode then
      ['%', url.upperhex.getD (c.toNat >>> 4) '0', url.upperhex.getD (c.toNat &&& 15) '0']
    else [c]

/-- Go `url.QueryEscape(s)`. -/
def url.QueryEscape (s : GoString) : GoString := url.escape s .encodeQueryComponent

/-- Go `url.Values`, by its entries in increasing key order (the order in which
`Encode` visits them). -/
abbrev url.Values := List (GoString × List GoString)

/-- Go `url.Values.Encode()`. -/
def url.Values.Encode (v : url.Values) : GoString :=
  (v.flatMap fun kv => kv.2.map fun x => (kv.1, x)).foldl
    (fun buf kx =>
      (if buf ≠ [] then buf ++ ['&'] else buf) ++ url.QueryEscape kx.1 ++ ['='] ++
        url.QueryEscape kx.2)
    []

/-- Go `(*url.URL).EscapedPath()` when `RawPath` is empty. -/
def url.URL.EscapedPath (u : url.URL) : GoString :=
  if u.Path = "*".toList then "*".toList else url.escape u.Path .encodePath

/-- Go `(*url.URL).String()` for a URL whose only non-empty fields are `Path` and
`RawQuery`. -/
def url.URL.String (u : url.URL) : GoString :=
  let path := u.EscapedPath
  let buf : GoString := if ':' ∈ path.takeWhile (· != '/') then "./".toList else []
  let buf := buf ++ path
  if u.RawQuery ≠ [] then buf ++ "?".toList ++ u.RawQuery else buf

/-- Go `ishex(c)` of `net/url`. -/
def url.ishex (c : Char) : Bool :=
  ('0' ≤ c ∧ c ≤ '9') ∨ ('a' ≤ c ∧ c ≤ 'f') ∨ ('A' ≤ c ∧ c ≤ 'F')

/-- Go `unhex(c)` of `net/url`. -/
def url.unhex (c : Char) : Nat :=
  if '0' ≤ c ∧ c ≤ '9' then c.toNat - '0'.toNat
  else if 'a' ≤ c ∧ c ≤ 'f' then c.toNat - 'a'.toNat + 10
  else if 'A' ≤ c ∧ c ≤ 'F' then c.toNat - 'A'.toNat + 10
  else 0

/-- Go `unescape(s, mode)` of `net/url`, for the two modes above: `%XX` becomes the
byte `XX`, a `+` of a query component becomes a space, any other byte stays; a `%`
that two hexadecimal digits do not follow is an error (`none`). -/
def url.unescape : GoString → url.encoding → Option GoString
  | [], _ => some []
  | c :: rest, mode =>
    if c = '%' then
      match rest with
      | a :: b :: rest2 =>
        if url.ishex a ∧ url.ishex b then
          (url.unescape rest2 mode).map (Char.ofNat (url.unhex a <<< 4 ||| url.unhex b) :: ·)
        else none
      | _ => none
    else if c = '+' ∧ mode = .encodeQueryComponent then
      (url.unescape rest mode).map (' ' :: ·)
    else (url.unescape rest mode).map (c :: ·)

/-- Go `url.QueryUnescape(s)`. -/
def url.QueryUnescape (s : GoString) : Option GoString := url.unescape s .encodeQueryComponent

/-- Go `m[key] = append(m[key], value)` on a `url.Values`. -/
def url.Values.add : url.Values → GoString → GoString → url.Values
  | [], key, value => [(key, [value])]
  | (k, vs) :: m, key, value =>
    if key = k then (k, vs ++ [value]) :: m
    else if key < k then (key, [value]) :: (k, vs) :: m
    else (k, vs) :: url.Values.add m key value

/-- Go `url.Values.Get(key)`: the first value of the key, or the empty string. -/
def url.Values.Get (v : url.Values) (key : GoString) : GoString :=
  match v.lookup key with
  | some (x :: _) => x
  | _ => []

/-- The loop of Go `parseQuery(m, query)` of `net/url`; each turn shortens `query`,
so `fuel` turns are enough when `fuel` is the length of `query`. The error is the
first one met. -/
def url.parseQuery : Nat → url.Values → GoString → Option Error → url.Values × Option Error
  | 0, m, _, err => (m, err)
  | fuel + 1, m, query, err =>
    if query = [] then (m, err)
    else
      let key := (strings.Cut query '&').1
      let query := (strings.Cut query '&').2.1
      if ';' ∈ key then
        url.parseQuery fuel m query (some (.other "invalid semicolon separator in query".toList))
      else if key = [] then url.parseQuery fuel m query err
      else
        let value := (strings.Cut key '=').2.1
        let key := (strings.Cut key '=').1
        match url.QueryUnescape key with
        | none =>
          url.parseQuery fuel m query
            (if err = none then some (.other "invalid URL escape".toList) else err)
        | some key =>
          match url.QueryUnescape value with
          | none =>
            url.parseQuery fuel m query
              (if err = none then some (.other "invalid URL escape".toList) else err)
          | some value => url.parseQuery fuel (m.add key value) query err

/-- Go `url.ParseQuery(query)`: the values and the first error. -/
def url.ParseQuery (query : GoString) : url.Values × Option Error :=
  url.parseQuery (len query) [] query none

/-- Go `url.Parse(rawURL)` for a raw URL that starts with one slash and holds
neither a `#` nor a control byte, so that it has no scheme, no authority and no
fragment: the query is what follows the first `?`, the path is what precedes it,
unescaped. Every other raw URL, and a path that does not unescape, gives `none`. -/
def url.Parse (rawURL : GoString) : Option url.URL :=
  if '#' ∈ rawURL ∨ (∃ c ∈ rawURL, c.toNat < 32 ∨ c.toNat = 127) ∨
      ¬strings.HasPrefix rawURL "/".toList ∨ strings.HasPrefix rawURL "//".toList then none
  else if rawURL.getLast? = some '?' ∧ rawURL.count '?' = 1 then
    (url.unescape rawURL.dropLast .encodePath).map fun path => { Path := path, RawQuery := [] }
  else
    (url.unescape (strings.Cut rawURL '?').1 .encodePath).map fun path =>
      { Path := path, RawQuery := (strings.Cut rawURL '?').2.1 }

/-- Modelled from the spec: the constant `returnQueryName` is declared outside the
three files; the spec names the parameter of the synthesized login redirect
`return`. -/
def returnQueryName : GoString := "return".toList

/-! ## Requests, recorders and the real response -/

section handlers

variable {σ : Type}

/-- Reading through a `*url.URL`. -/
def loadURL (p : Nat) : Eff σ url.URL := fun w =>
  match w.urls[p]? with
  | some u => .ok (u, w)
  | none => .error .nilDereference

/-- The assignment `req.URL.Path = path` through the pointer `p`. -/
def storePath (p : Nat) (path : GoString) : Eff σ Unit := fun w =>
  match w.urls[p]? with
  | some u => .ok ((), { w with urls := w.urls.set p { u with Path := path } })
  | none => .error .nilDereference

/-- Modelled from the spec: `copyRequestAndURL` is defined outside the three files;
the spec has the derived request be a copy of the original one.  The copy of the
request points to a fresh copy of its URL. -/
def copyRequestAndURL (req : http.Request) : Eff σ http.Request := fun w =>
  match w.urls[req.URL]? with
  | some u => .ok ({ req with URL := len w.urls }, { w with urls := w.urls ++ [u] })
  | none => .error .nilDereference

/-- Go `httptest.NewRecorder()`. -/
def httptest.NewRecorder : Eff σ httptest.ResponseRecorder := fun w =>
  .ok ({ Code := 200, HeaderMap := [], Body := [] }, { w with log := w.log ++ [.NewRecorder] })

/-- Go `w.Header()` of the real response. -/
def wHeader : Eff σ http.Header := fun w => .ok (w.header, w)

/-- Go `w.WriteHeader(code)` on the real response. -/
def wWriteHeader (code : Nat) : Eff σ Unit := record (.WriteHeader code)

/-- Go `io.Copy(w, body)` from the recorder's buffer to the real response: a buffer
that holds bytes does one `Write` of all of them and returns what the connection
answers; an empty buffer writes nothing. -/
def io.Copy (body : GoString) : Eff σ (Option Error) := fun w =>
  if body ≠ [] then .ok (w.connErr.map Error.other, { w with log := w.log ++ [.Write body] })
  else .ok (none, w)

/-- Go `http.Redirect(w, req, url, code)` on the real response. -/
def http.Redirect (url : GoString) (code : Nat) : Eff σ Unit := record (.Redirect url code)

/-- Go `http.SetCookie(w, cookie)` on the real response. -/
def http.SetCookie : Eff σ Unit := record .SetCookie

/-- A sub-application (`issuesApp`, `changesApp`): given the response it writes
to (as a recorder), the request and the URL the request points to, what the
response holds when it returns. -/
structure http.Handler (σ : Type) where
  ServeHTTP : httptest.ResponseRecorder → http.Request → url.URL → σ →
    httptest.ResponseRecorder × σ

/-- Go `app.ServeHTTP(rr, req)` into a recorder whose `HeaderMap` is the header map of
the real response: the headers the sub-application sets are set on both. -/
def serveRecorded (app : http.Handler σ) (rr : httptest.ResponseRecorder) (req : http.Request) :
    Eff σ httptest.ResponseRecorder := fun w =>
  match w.urls[req.URL]? with
  | some u =>
    .ok ((app.ServeHTTP rr req u w.state).1,
      { w with state := (app.ServeHTTP rr req u w.state).2,
               header := (app.ServeHTTP rr req u w.state).1.HeaderMap,
               log := w.log ++ [.ServeHTTP true req u] })
  | none => .error .nilDereference

/-- Go `app.ServeHTTP(w, req)` on the real response: status, headers and body of the
sub-application go to the connection. -/
def serveDirect (app : http.Handler σ) (req : http.Request) : Eff σ Unit := fun w =>
  match w.urls[req.URL]? with
  | some u =>
    let rr := (app.ServeHTTP { Code := 200, HeaderMap := w.header, Body := [] } req u w.state).1
    .ok ((),
      { w with state :=
                 (app.ServeHTTP { Code := 200, HeaderMap := w.header, Body := [] } req u w.state).2,
               header := rr.HeaderMap,
               log := w.log ++ [.ServeHTTP false req u, .WriteHeader rr.Code, .Write rr.Body] })
  | none => .error .nilDereference

/-- The type assertion `v.(*session)`. -/
def assertSession (v : Option Value) : Eff σ (Option Nat) :=
  match v with
  | some (.session p) => pure p
  | _ => goPanic .typeAssertion

/-! ## The issues mounts (issues.go) -/

/-- An element of the mount table of `initIssues`: `struct{ SpecURL, BaseURL string }`. -/
structure Repo where
  SpecURL : GoString
  BaseURL : GoString
deriving DecidableEq, Repr

/-- The four static mounts of `initIssues`. -/
def issuesMounts : List Repo :=
  [ { SpecURL := "github.com/shurcooL/issuesapp".toList,
      BaseURL := "/issues/github.com/shurcooL/issuesapp".toList },
    { SpecURL := "github.com/shurcooL/notificationsapp".toList,
      BaseURL := "/issues/github.com/shurcooL/notificationsapp".toList },
    { SpecURL := "dmitri.shuralyov.com/idiomatic-go".toList,
      BaseURL := "/idiomatic-go/entries".toList },
    { SpecURL := "dmitri.shuralyov.com/kebabcase".toList,
      BaseURL := "/kebabcase/issues".toList } ]

/-- Go `issuesHandler` of `initIssues`, the function under `cookieAuth` and
`httputil.ErrorHandler`, for the mount `repo`.  (The variable the source calls
`prefix` is `pfx` here.) -/
def issuesHandler (repo : Repo) (issuesApp : http.Handler σ) (req : http.Request) :
    Eff σ (Option Error) := do
  let prefixLen := len repo.BaseURL
  let u ← loadURL req.URL
  let pfx ← sliceTo u.Path prefixLen
  if u.Path = pfx ++ "/".toList then
    let baseURL := pfx
    let baseURL := if u.RawQuery ≠ [] then baseURL ++ "?".toList ++ u.RawQuery else baseURL
    return some (httperror.Redirect baseURL)
  else do
    let returnURL := req.RequestURI
    let req ← copyRequestAndURL req
    let u ← loadURL req.URL
    let path ← sliceFrom u.Path prefixLen
    storePath req.URL path
    let u ← loadURL req.URL
    if u.Path = [] then
      storePath req.URL "/".toList
    else
      pure ()
    let rr ← httptest.NewRecorder
    let header ← wHeader
    let rr := { rr with HeaderMap := header }
    let req := req.WithContext (context.WithValue req.Context .issuesappRepoSpecContextKey (.RepoSpec { URI := repo.SpecURL }))
    let req := req.WithContext (context.WithValue req.Context .issuesappBaseURIContextKey (.string repo.BaseURL))
    let rr ← serveRecorded issuesApp rr req
    let s ← assertSession (req.Context.Value .sessionContextKey)
    if rr.Code = http.StatusForbidden ∧ s = none then
      let loginURL := url.URL.String
        { Path := "/login".toList, RawQuery := url.Values.Encode [(returnQueryName, [returnURL])] }
      return some (httperror.Redirect loginURL)
    else do
      wWriteHeader rr.Code
      let err ← io.Copy rr.Body
      return err

/-- Go `githubIssuesHandler` of `initIssues`, mounted at `/issues/github.com/`.  The
operands of `||` are evaluated left to right, the next one only when the ones
before it are false. -/
def githubIssuesHandler (issuesApp : http.Handler σ) (req : http.Request) :
    Eff σ (Option Error) := do
  let u ← loadURL req.URL
  let rest ← sliceFrom u.Path (len "/issues/github.com/".toList)
  let elems := strings.SplitN rest '/' 3
  if len elems < 2 then
    return some os.ErrNotExist
  else do
  let elems0 ← index elems 0
  if elems0 = [] then
    return some os.ErrNotExist
  else do
  let elems1 ← index elems 1
  if elems1 = [] then
    return some os.ErrNotExist
  else do
  let specURL := "github.com/".toList ++ elems0 ++ "/".toList ++ elems1
  let baseURL := "/issues/".toList ++ specURL
  let prefixLen := len baseURL
  let u ← loadURL req.URL
  let pfx ← sliceTo u.Path prefixLen
  if u.Path = pfx ++ "/".toList then
    let baseURL := pfx
    let baseURL := if u.RawQuery ≠ [] then baseURL ++ "?".toList ++ u.RawQuery else baseURL
    return some (httperror.Redirect baseURL)
  else do
    let returnURL := req.RequestURI
    let req ← copyRequestAndURL req
    let u ← loadURL req.URL
    let path ← sliceFrom u.Path prefixLen
    storePath req.URL path
    let u ← loadURL req.URL
    if u.Path = [] then
      storePath req.URL "/".toList
    else
      pure ()
    let rr ← httptest.NewRecorder
    let header ← wHeader
    let rr := { rr with HeaderMap := header }
    let req := req.WithContext (context.WithValue req.Context .issuesappRepoSpecContextKey (.RepoSpec { URI := specURL }))
    let req := req.WithContext (context.WithValue req.Context .issuesappBaseURIContextKey (.string baseURL))
    let rr ← serveRecorded issuesApp rr req
    let s ← assertSession (req.Context.Value .sessionContextKey)
    if rr.Code = http.StatusForbidden ∧ s = none then
      let loginURL := url.URL.String
        { Path := "/login".toList, RawQuery := url.Values.Encode [(returnQueryName, [returnURL])] }
      return some (httperror.Redirect loginURL)
    else do
      wWriteHeader rr.Code
      let err ← io.Copy rr.Body
      return err

/-! ## The changes mounts (changes.go) -/

/-- Go `githubChangesHandler` of `initChanges`, mounted at `/changes/github.com/`. -/
def githubChangesHandler (shurcool : Principal) (users : users.Service σ)
    (changesApp : http.Handler σ) (req : http.Request) : Eff σ (Option Error) := do
  let u ← loadURL req.URL
  let rest ← sliceFrom u.Path (len "/changes/github.com/".toList)
  let elems := strings.SplitN rest '/' 3
  if len elems < 2 then
    return some os.ErrNotExist
  else do
  let elems0 ← index elems 0
  if elems0 = [] then
    return some os.ErrNotExist
  else do
  let elems1 ← index elems 1
  if elems1 = [] then
    return some os.ErrNotExist
  else do
  let (currentUser, err) ←
    perform (.GetAuthenticatedSpec req.Context) (users.GetAuthenticatedSpec req.Context)
  if err ≠ none then
    return err
  else if currentUser ≠ shurcool then
    if len elems = 2 then
      return some (httperror.Redirect
        ("https://github.com/".toList ++ elems0 ++ "/".toList ++ elems1 ++ "/pulls".toList))
    else do
      let elems2 ← index elems 2
      return some (httperror.Redirect
        ("https://github.com/".toList ++ elems0 ++ "/".toList ++ elems1 ++ "/pull/".toList ++
          elems2))
  else do
  let specURL := "github.com/".toList ++ elems0 ++ "/".toList ++ elems1
  let baseURL := "/changes/".toList ++ specURL
  let prefixLen := len baseURL
  let u ← loadURL req.URL
  let pfx ← sliceTo u.Path prefixLen
  if u.Path = pfx ++ "/".toList then
    let baseURL := pfx
    let baseURL := if u.RawQuery ≠ [] then baseURL ++ "?".toList ++ u.RawQuery else baseURL
    return some (httperror.Redirect baseURL)
  else do
    let returnURL := req.RequestURI
    let req ← copyRequestAndURL req
    let u ← loadURL req.URL
    let path ← sliceFrom u.Path prefixLen
    storePath req.URL path
    let u ← loadURL req.URL
    if u.Path = [] then
      storePath req.URL "/".toList
    else
      pure ()
    let rr ← httptest.NewRecorder
    let header ← wHeader
    let rr := { rr with HeaderMap := header }
    let req := req.WithContext (context.WithValue req.Context .changesRepoSpecContextKey (.string specURL))
    let req := req.WithContext (context.WithValue req.Context .changesBaseURIContextKey (.string baseURL))
    let rr ← serveRecorded changesApp rr req
    let s ← assertSession (req.Context.Value .sessionContextKey)
    if rr.Code = http.StatusForbidden ∧ s = none then
      let loginURL := url.URL.String
        { Path := "/login".toList, RawQuery := url.Values.Encode [(returnQueryName, [returnURL])] }
      return some (httperror.Redirect loginURL)
    else do
      wWriteHeader rr.Code
      let err ← io.Copy rr.Body
      return err

/-- Go `changesHandler`. -/
structure changesHandler (σ : Type) where
  SpecURL : GoString
  BaseURL : GoString
  changesApp : http.Handler σ

/-- Go `changesHandler.ServeHTTP`. -/
def changesHandler.ServeHTTP (h : changesHandler σ) (req : http.Request) :
    Eff σ (Option Error) := do
  let prefixLen := len h.BaseURL
  let u ← loadURL req.URL
  let pfx ← sliceTo u.Path prefixLen
  if u.Path = pfx ++ "/".toList then
    let baseURL := pfx
    let baseURL := if u.RawQuery ≠ [] then baseURL ++ "?".toList ++ u.RawQuery else baseURL
    return some (httperror.Redirect baseURL)
  else do
    let returnURL := req.RequestURI
    let req ← copyRequestAndURL req
    let u ← loadURL req.URL
    let path ← sliceFrom u.Path prefixLen
    storePath req.URL path
    let u ← loadURL req.URL
    if u.Path = [] then
      storePath req.URL "/".toList
    else
      pure ()
    let rr ← httptest.NewRecorder
    let header ← wHeader
    let rr := { rr with HeaderMap := header }
    let req := req.WithContext (context.WithValue req.Context .changesRepoSpecContextKey (.string h.SpecURL))
    let req := req.WithContext (context.WithValue req.Context .changesBaseURIContextKey (.string h.BaseURL))
    let rr ← serveRecorded h.changesApp rr req
    let s ← assertSession (req.Context.Value .sessionContextKey)
    if rr.Code = http.StatusForbidden ∧ s = none then
      let loginURL := url.URL.String
        { Path := "/login".toList, RawQuery := url.Values.Encode [(returnQueryName, [returnURL])] }
      return some (httperror.Redirect loginURL)
    else do
      wWriteHeader rr.Code
      let err ← io.Copy rr.Body
      return err

/-! ## The blog mount (blog.go) -/

/-- Go `blogHandler` of `initBlog`, mounted at `/blog` and `/blog/`.  `getUser` is
defined outside the three files and is a parameter. -/
def blogHandler (getUser : http.Request → σ → (Option Nat × Option Error) × σ)
    (issuesApp : http.Handler σ) (req : http.Request) : Eff σ Unit := do
  let (user, err) ← perform (.getUser req) (getUser req)
  if err = some errBadAccessToken then
    http.SetCookie
  else
    pure ()
  let req := req.WithContext (context.WithValue req.Context .userContextKey (.user user))
  let prefixLen := len "/blog".toList
  let u ← loadURL req.URL
  let pfx ← sliceTo u.Path prefixLen
  if u.Path = pfx ++ "/".toList then
    let baseURL := pfx
    let baseURL := if u.RawQuery ≠ [] then baseURL ++ "?".toList ++ u.RawQuery else baseURL
    http.Redirect baseURL http.StatusMovedPermanently
  else do
    let u ← loadURL req.URL
    let path ← sliceFrom u.Path prefixLen
    storePath req.URL path
    let u ← loadURL req.URL
    if u.Path = [] then
      storePath req.URL "/".toList
    else
      pure ()
    serveDirect issuesApp req

/-- Go `onlyShurcoolCreatePosts`. -/
structure onlyShurcoolCreatePosts (T : issues.Types) (σ : Type) where
  Service : issues.Service T σ
  users : users.Service σ

/-- Go `onlyShurcoolCreatePosts.Create`. -/
def onlyShurcoolCreatePosts.Create {T : issues.Types} (shurcool : Principal)
    (s : onlyShurcoolCreatePosts T σ) (ctx : context.Context) (repo : issues.RepoSpec)
    (issue : T.Issue) : Eff σ (T.Issue × Option Error) := do
  let (currentUser, err) ← perform (.GetAuthenticatedSpec ctx) (s.users.GetAuthenticatedSpec ctx)
  if err ≠ none then
    return (T.zeroIssue, err)
  else if currentUser ≠ shurcool then
    return (T.zeroIssue, some os.ErrPermission)
  else
    perform (.backend .Local "Create" repo.URI) (s.Service.Create ctx repo issue)

/-! ## Vocabulary of the statements

The definitions below embed no code: they name the objects the theorems compare
the handlers with. -/

/-- The request a mount hands to its sub-application: a copy of `req` whose URL is
the next free address of the heap and whose context carries, innermost, the base
URI `baseURL` under `bkey` and the repository `rval` under `rkey`. -/
def derivedRequest (w : World σ) (req : http.Request) (rkey : ContextKey) (rval : Value)
    (bkey : ContextKey) (baseURL : GoString) : http.Request :=
  { URL := len w.urls, RequestURI := req.RequestURI,
    ctx := (bkey, .string baseURL) :: (rkey, rval) :: req.ctx }

/-- The request the issues mounts hand to `issuesApp`: the repository is an
`issues.RepoSpec` under `issuesapp.RepoSpecContextKey`, the base URI a string under
`issuesapp.BaseURIContextKey`. -/
abbrev issuesRequest (w : World σ) (req : http.Request) (specURL baseURL : GoString) :
    http.Request :=
  derivedRequest w req .issuesappRepoSpecContextKey (.RepoSpec { URI := specURL })
    .issuesappBaseURIContextKey baseURL

/-- The request the changes mounts hand to `changesApp`: the repository is a string
under `changes.RepoSpecContextKey`, the base URI a string under
`changes.BaseURIContextKey`. -/
abbrev changesRequest (w : World σ) (req : http.Request) (specURL baseURL : GoString) :
    http.Request :=
  derivedRequest w req .changesRepoSpecContextKey (.string specURL)
    .changesBaseURIContextKey baseURL

/-- The URL of that request: the path is what follows the base URL, or `/` when
nothing follows; the query is that of `u`. -/
def derivedURL (u : url.URL) (suffix : GoString) : url.URL :=
  { Path := if suffix = [] then "/".toList else suffix, RawQuery := u.RawQuery }

/-- What the sub-application leaves in a fresh recorder that shares the header map
of the real response. -/
def recordedBy (app : http.Handler σ) (w : World σ) (req1 : http.Request) (u1 : url.URL) :
    httptest.ResponseRecorder :=
  (app.ServeHTTP { Code := 200, HeaderMap := w.header, Body := [] } req1 u1 w.state).1

/-- The world when the sub-application has returned and nothing has been written
to the real response yet: the log has grown by the creation of the recorder and the
one call of the sub-application, the heap by the URL of the derived request. -/
def afterServe (app : http.Handler σ) (w : World σ) (req1 : http.Request) (u1 : url.URL) :
    World σ :=
  { state := (app.ServeHTTP { Code := 200, HeaderMap := w.header, Body := [] } req1 u1 w.state).2,
    urls := w.urls ++ [u1],
    header := (recordedBy app w req1 u1).HeaderMap,
    connErr := w.connErr,
    log := w.log ++ [.NewRecorder, .ServeHTTP true req1 u1] }

/-- The world after the recorded response has been replayed: the recorded status
went to the real response with one `WriteHeader`, the recorded body, when it holds
bytes, with one `Write`. -/
def afterReplay (app : http.Handler σ) (w : World σ) (req1 : http.Request) (u1 : url.URL) :
    World σ :=
  { afterServe app w req1 u1 with
    log := (afterServe app w req1 u1).log ++
      .WriteHeader (recordedBy app w req1 u1).Code ::
        (if (recordedBy app w req1 u1).Body ≠ [] then [.Write (recordedBy app w req1 u1).Body]
         else []) }

/-- What a handler returns after replaying: the answer of the connection to the
`Write`, `nil` when there was nothing to write. -/
def replayError (app : http.Handler σ) (w : World σ) (req1 : http.Request) (u1 : url.URL) :
    Option Error :=
  if (recordedBy app w req1 u1).Body ≠ [] then w.connErr.map Error.other else none

/-- The world after `blogHandler` has served a request that it did not redirect:
`getUser` was called (and the cookie cleared on a bad token), the path of the URL
the request points to was replaced in place, and the sub-application wrote to the
real response. -/
def blogServed (getUser : http.Request → σ → (Option Nat × Option Error) × σ)
    (app : http.Handler σ) (req : http.Request) (w : World σ) (u : url.URL)
    (suffix : GoString) : World σ :=
  { state :=
      (app.ServeHTTP { Code := 200, HeaderMap := w.header, Body := [] }
        { req with ctx := (.userContextKey, .user (getUser req w.state).1.1) :: req.ctx }
        (derivedURL u suffix) (getUser req w.state).2).2,
    urls := w.urls.set req.URL (derivedURL u suffix),
    header :=
      (app.ServeHTTP { Code := 200, HeaderMap := w.header, Body := [] }
        { req with ctx := (.userContextKey, .user (getUser req w.state).1.1) :: req.ctx }
        (derivedURL u suffix) (getUser req w.state).2).1.HeaderMap,
    connErr := w.connErr,
    log := w.log ++ .getUser req ::
      ((if (getUser req w.state).1.2 = some errBadAccessToken then [.SetCookie] else []) ++
        [.ServeHTTP false
            { req with ctx := (.userContextKey, .user (getUser req w.state).1.1) :: req.ctx }
            (derivedURL u suffix),
          .WriteHeader
            (app.ServeHTTP { Code := 200, HeaderMap := w.header, Body := [] }
              { req with ctx := (.userContextKey, .user (getUser req w.state).1.1) :: req.ctx }
              (derivedURL u suffix) (getUser req w.state).2).1.Code,
          .Write
            (app.ServeHTTP { Code := 200, HeaderMap := w.header, Body := [] }
              { req with ctx := (.userContextKey, .user (getUser req w.state).1.1) :: req.ctx }
              (derivedURL u suffix) (getUser req w.state).2).1.Body]) }

/-- The world after the identity resolver has been asked once. -/
def afterResolve (users : users.Service σ) (ctx : context.Context) (w : World σ) : World σ :=
  { w with state := (users.GetAuthenticatedSpec ctx w.state).2,
           log := w.log ++ [.GetAuthenticatedSpec ctx] }

/-- The run of an operation that a facade guards by the identity of the caller: the
resolver is asked once; when it fails the result is `denied` at its error, when it
names an identity other than `shurcool` the result is `denied` at
`os.ErrPermission`, and in both cases nothing else happens; when it names
`shurcool` the computation `remote` runs next. -/
def delegated {α : Type} (shurcool : Principal) (users : users.Service σ)
    (ctx : context.Context) (w : World σ) (denied : Option Error → α) (remote : Eff σ α) :
    Except Panic (α × World σ) :=
  if (users.GetAuthenticatedSpec ctx w.state).1.2 ≠ none then
    .ok (denied (users.GetAuthenticatedSpec ctx w.state).1.2, afterResolve users ctx w)
  else if (users.GetAuthenticatedSpec ctx w.state).1.1 ≠ shurcool then
    .ok (denied (some os.ErrPermission), afterResolve users ctx w)
  else remote.run (afterResolve users ctx w)

/-- The status that a logged call writes to the real response, if it is a
`WriteHeader`. -/
def Action.status : Action → Option Nat
  | .WriteHeader code => some code
  | _ => none

/-- The target and the status that a logged call sends on the real response, if it
is an `http.Redirect`. -/
def Action.redirect : Action → Option (GoString × Nat)
  | .Redirect url code => some (url, code)
  | _ => none

/-- The statuses that a run from `w` to `w1` wrote to the real response, in order:
those of the `WriteHeader` calls that the run added to the log. -/
def writtenStatuses (w w1 : World σ) : List Nat :=
  (w1.log.drop (len w.log)).filterMap Action.status

/-- The redirects that a run from `w` to `w1` sent on the real response, in order:
the target and the status of the `http.Redirect` calls that the run added to the
log. -/
def writtenRedirects (w w1 : World σ) : List (GoString × Nat) :=
  (w1.log.drop (len w.log)).filterMap Action.redirect

/-- The target of the root redirect of a mount at `baseURL`: the base URL, followed
by `?` and the query of the request when that query is not empty. -/
def rootTarget (baseURL : GoString) (u : url.URL) : GoString :=
  if u.RawQuery ≠ [] then baseURL ++ "?".toList ++ u.RawQuery else baseURL

end handlers

/-! ## Sample collaborators -/

section samples

/-- Payload types for the samples: every payload is a number. -/
abbrev sampleIssues : issues.Types :=
  { Issue := Nat, Comment := Nat, Event := Nat, IssueListOptions := Nat, ListOptions := Nat,
    IssueRequest := Nat, CommentRequest := Nat, zeroIssue := 0, zeroComment := 0 }

/-- Payload types for the samples: every payload is a number. -/
abbrev sampleChange : change.Types :=
  { Change := Nat, Commit := Nat, TimelineItem := Nat, ListOptions := Nat,
    ListTimelineOptions := Nat, GetDiffOptions := Nat, zeroChange := 0 }

/-- An issues backend that answers every call with the tag `t` and counts the calls
in the state. -/
def sampleIssuesService (t : Nat) : issues.Service sampleIssues Nat :=
  { List := fun _ _ _ st => (([t], none), st + 1)
    Count := fun _ _ _ st => ((t, none), st + 1)
    Get := fun _ _ _ st => ((t, none), st + 1)
    ListComments := fun _ _ _ _ st => (([t], none), st + 1)
    ListEvents := fun _ _ _ _ st => (([t], none), st + 1)
    Create := fun _ _ _ st => ((t, none), st + 1)
    CreateComment := fun _ _ _ _ st => ((t, none), st + 1)
    Edit := fun _ _ _ _ st => ((t, [t], none), st + 1)
    EditComment := fun _ _ _ _ st => ((t, none), st + 1) }

/-- A change backend that answers every call with the tag `t` and counts the calls
in the state. -/
def sampleChangeService (t : Nat) : change.Service sampleChange Nat :=
  { List := fun _ _ _ st => (([t], none), st + 1)
    Count := fun _ _ _ st => ((t, none), st + 1)
    Get := fun _ _ _ st => ((t, none), st + 1)
    ListTimeline := fun _ _ _ _ st => (([t], none), st + 1)
    ListCommits := fun _ _ _ st => (([t], none), st + 1)
    GetDiff := fun _ _ _ _ st => (("diff".toList, none), st + 1)
    ThreadType := some fun _ st => ("Change".toList, st + 1) }

/-- An identity resolver that answers with the identity `u` and the error `e`. -/
def sampleUsers (u : users.UserSpec) (e : Option Error) : users.Service Nat :=
  { GetAuthenticatedSpec := fun _ st => ((u, e), st) }

/-- A value for the distinguished principal. -/
def sampleShurcool : Principal := { ID := 1924134, Domain := "github.com".toList }

/-- An identity that is not the distinguished principal. -/
def sampleVisitor : users.UserSpec := { ID := 7, Domain := "github.com".toList }

/-- The anonymous caller, `users.UserSpec{}`. -/
def sampleAnonymous : users.UserSpec := { ID := 0, Domain := [] }

/-- The issues facade over two sample backends, tagged 1 (local) and 2 (remote). -/
def sampleIssuesFacade (u : users.UserSpec) (e : Option Error) :
    shurcoolSeesGitHubIssues sampleIssues Nat :=
  { service := sampleIssuesService 1, shurcoolGitHubIssues := sampleIssuesService 2,
    users := sampleUsers u e }

/-- The changes facade over two sample backends, tagged 1 (local) and 2 (remote). -/
def sampleChangesFacade (u : users.UserSpec) (e : Option Error) :
    shurcoolSeesGitHubChanges sampleChange Nat :=
  { service := sampleChangeService 1, shurcoolGitHubChange := sampleChangeService 2,
    users := sampleUsers u e }

/-- A sub-application that answers every request with the status `code` and the
body `body`. -/
def sampleApp (code : Nat) (body : GoString) : http.Handler Nat :=
  { ServeHTTP := fun rr _ _ st => ({ rr with Code := code, Body := body }, st + 1) }

/-- A world whose heap holds one URL, at address 0. -/
def sampleWorld (path query : GoString) : World Nat :=
  { state := 0, urls := [{ Path := path, RawQuery := query }], header := [], connErr := none,
    log := [] }

/-- A request that points to address 0. -/
def sampleRequest (uri : GoString) (ctx : context.Context) : http.Request :=
  { URL := 0, RequestURI := uri, ctx := ctx }

/-- A context as `cookieAuth` leaves it for a caller without a session. -/
def noSession : context.Context := [(.sessionContextKey, .session none)]

/-- A `getUser` that finds no user and reports no error. -/
def sampleGetUser : http.Request → Nat → (Option Nat × Option Error) × Nat :=
  fun _ st => ((none, none), st)

end samples

/-! # Theorems

## The effect of each primitive -/

section run
variable {σ : Type}

@[simp] theorem Eff.run_pure {α : Type} (a : α) (w : World σ) :
    Eff.run (pure a : Eff σ α) w = .ok (a, w) := rfl

@[simp] theorem Eff.run_bind {α β : Type} (m : Eff σ α) (f : α → Eff σ β) (w : World σ) :
    Eff.run (m >>= f) w = match Eff.run m w with
      | .error p => .error p
      | .ok (a, w1) => Eff.run (f a) w1 := rfl

@[simp] theorem Eff.run_perform {α : Type} (a : Action) (f : σ → α × σ) (w : World σ) :
    Eff.run (perform a f) w =
      .ok ((f w.state).1, { w with state := (f w.state).2, log := w.log ++ [a] }) := rfl

@[simp] theorem Eff.run_record (a : Action) (w : World σ) :
    Eff.run (record a) w = .ok ((), { w with log := w.log ++ [a] }) := rfl

@[simp] theorem Eff.run_goPanic {α : Type} (p : Panic) (w : World σ) :
    Eff.run (goPanic p : Eff σ α) w = .error p := rfl

@[simp] theorem Eff.run_ite {α : Type} (c : Prop) [Decidable c] (m n : Eff σ α) (w : World σ) :
    Eff.run (if c then m else n) w = if c then Eff.run m w else Eff.run n w := by
  split <;> rfl

@[simp] theorem Eff.run_sliceTo (s : GoString) (n : Nat) (w : World σ) :
    Eff.run (sliceTo s n) w = if n ≤ len s then .ok (s.take n, w) else .error .sliceBounds := by
  unfold sliceTo; split <;> rfl

@[simp] theorem Eff.run_sliceFrom (s : GoString) (n : Nat) (w : World σ) :
    Eff.run (sliceFrom s n) w = if n ≤ len s then .ok (s.drop n, w) else .error .sliceBounds := by
  unfold sliceFrom; split <;> rfl

@[simp] theorem Eff.run_index {α : Type} (a : Slice α) (i : Nat) (w : World σ) :
    Eff.run (index a i) w =
      match a[i]? with
      | some x => .ok (x, w)
      | none => .error .indexRange := by
  unfold index; split <;> rfl

@[simp] theorem Eff.run_loadURL (p : Nat) (w : World σ) :
    Eff.run (loadURL p) w =
      match w.urls[p]? with
      | some u => .ok (u, w)
      | none => .error .nilDereference := rfl

@[simp] theorem Eff.run_storePath (p : Nat) (path : GoString) (w : World σ) :
    Eff.run (storePath p path) w =
      match w.urls[p]? with
      | some u => .ok ((), { w with urls := w.urls.set p { u with Path := path } })
      | none => .error .nilDereference := rfl

@[simp] theorem Eff.run_copyRequestAndURL (req : http.Request) (w : World σ) :
    Eff.run (copyRequestAndURL req) w =
      match w.urls[req.URL]? with
      | some u => .ok ({ req with URL := len w.urls }, { w with urls := w.urls ++ [u] })
      | none => .error .nilDereference := rfl

@[simp] theorem Eff.run_NewRecorder (w : World σ) :
    Eff.run httptest.NewRecorder w =
      .ok ({ Code := 200, HeaderMap := [], Body := [] }, { w with log := w.log ++ [.NewRecorder] }) :=
  rfl

@[simp] theorem Eff.run_wHeader (w : World σ) : Eff.run wHeader w = .ok (w.header, w) := rfl

@[simp] theorem Eff.run_wWriteHeader (code : Nat) (w : World σ) :
    Eff.run (wWriteHeader code) w = .ok ((), { w with log := w.log ++ [.WriteHeader code] }) := rfl

@[simp] theorem Eff.run_Copy (body : GoString) (w : World σ) :
    Eff.run (io.Copy body) w =
      if body ≠ [] then .ok (w.connErr.map Error.other, { w with log := w.log ++ [.Write body] })
      else .ok (none, w) := rfl

@[simp] theorem Eff.run_Redirect (url : GoString) (code : Nat) (w : World σ) :
    Eff.run (http.Redirect url code) w = .ok ((), { w with log := w.log ++ [.Redirect url code] }) :=
  rfl

@[simp] theorem Eff.run_SetCookie (w : World σ) :
    Eff.run http.SetCookie w = .ok ((), { w with log := w.log ++ [.SetCookie] }) := rfl

@[simp] theorem Eff.run_serveRecorded (app : http.Handler σ) (rr : httptest.ResponseRecorder)
    (req : http.Request) (w : World σ) :
    Eff.run (serveRecorded app rr req) w =
      match w.urls[req.URL]? with
      | some u =>
        .ok ((app.ServeHTTP rr req u w.state).1,
          { w with state := (app.ServeHTTP rr req u w.state).2,
                   header := (app.ServeHTTP rr req u w.state).1.HeaderMap,
                   log := w.log ++ [.ServeHTTP true req u] })
      | none => .error .nilDereference := rfl

@[simp] theorem Eff.run_assertSession (v : Option Value) (w : World σ) :
    Eff.run (assertSession v) w =
      match v with
      | some (.session p) => .ok (p, w)
      | _ => .error .typeAssertion := by
  unfold assertSession; split <;> rfl

theorem set_length_concat {α : Type} (l : List α) (a b : α) :
    (l ++ [a]).set l.length b = l ++ [b] := by
  induction l with
  | nil => rfl
  | cons x xs ih => simp [ih]

end run

/-! ## Strings -/

section splitn

theorem takeWhile_sep (a t : GoString) (c : Char) (h : c ∉ a) :
    (a ++ c :: t).takeWhile (· != c) = a := by
  induction a with
  | nil => simp
  | cons x xs ih =>
    have hx : (x != c) = true := by
      simp only [bne_iff_ne, ne_eq]
      exact fun e => h (by simp [e])
    have hxs : c ∉ xs := fun e => h (by simp [e])
    rw [List.cons_append, List.takeWhile_cons, hx]
    simp only [if_true, ih hxs]

theorem dropWhile_sep (a t : GoString) (c : Char) (h : c ∉ a) :
    (a ++ c :: t).dropWhile (· != c) = c :: t := by
  induction a with
  | nil => simp
  | cons x xs ih =>
    have hx : (x != c) = true := by
      simp only [bne_iff_ne, ne_eq]
      exact fun e => h (by simp [e])
    have hxs : c ∉ xs := fun e => h (by simp [e])
    rw [List.cons_append, List.dropWhile_cons, hx]
    simp only [if_true, ih hxs]

theorem exists_sep (s : GoString) (c : Char) (h : c ∈ s) :
    ∃ a t, s = a ++ c :: t ∧ c ∉ a := by
  induction s with
  | nil => simp at h
  | cons x xs ih =>
    by_cases hx : x = c
    · exact ⟨[], xs, by simp [hx], by simp⟩
    · have hxs : c ∈ xs := by
        rcases List.mem_cons.mp h with e | e
        · exact absurd e.symm hx
        · exact e
      obtain ⟨a, t, hs, ha⟩ := ih hxs
      refine ⟨x :: a, t, by simp [hs], ?_⟩
      intro hm
      rcases List.mem_cons.mp hm with e | e
      · exact hx e.symm
      · exact ha e

theorem SplitN_nosep (s : GoString) (c : Char) (n : Nat) (h : c ∉ s) :
    strings.SplitN s c (n + 1) = [s] := by
  cases n with
  | zero => rfl
  | succ n => simp [strings.SplitN, h]

theorem SplitN_sep (a t : GoString) (c : Char) (n : Nat) (h : c ∉ a) :
    strings.SplitN (a ++ c :: t) c (n + 2) = a :: strings.SplitN t c (n + 1) := by
  have hm : c ∈ a ++ c :: t := by simp
  rw [strings.SplitN, if_pos hm, takeWhile_sep a t c h, dropWhile_sep a t c h]
  rfl

theorem SplitN_two (owner name : GoString) (ho : '/' ∉ owner) (hn : '/' ∉ name) :
    strings.SplitN (owner ++ '/' :: name) '/' 3 = [owner, name] := by
  rw [SplitN_sep owner name '/' 1 ho, SplitN_nosep name '/' 1 hn]

theorem SplitN_three (owner name rest : GoString) (ho : '/' ∉ owner) (hn : '/' ∉ name) :
    strings.SplitN (owner ++ '/' :: (name ++ '/' :: rest)) '/' 3 = [owner, name, rest] := by
  rw [SplitN_sep owner _ '/' 1 ho, SplitN_sep name rest '/' 0 hn]
  rfl

/-- Every outcome of the split into at most three pieces. -/
theorem SplitN_cases (s : GoString) :
    ('/' ∉ s ∧ strings.SplitN s '/' 3 = [s]) ∨
    (∃ owner name, s = owner ++ '/' :: name ∧ '/' ∉ owner ∧ '/' ∉ name ∧
      strings.SplitN s '/' 3 = [owner, name]) ∨
    (∃ owner name rest, s = owner ++ '/' :: (name ++ '/' :: rest) ∧ '/' ∉ owner ∧ '/' ∉ name ∧
      strings.SplitN s '/' 3 = [owner, name, rest]) := by
  by_cases h : '/' ∈ s
  · obtain ⟨a, t, hs, ha⟩ := exists_sep s '/' h
    by_cases h2 : '/' ∈ t
    · obtain ⟨b, r, ht, hb⟩ := exists_sep t '/' h2
      right; right
      exact ⟨a, b, r, by rw [hs, ht], ha, hb, by rw [hs, ht]; exact SplitN_three a b r ha hb⟩
    · right; left
      exact ⟨a, t, hs, ha, h2, by rw [hs]; exact SplitN_two a t ha h2⟩
  · left
    exact ⟨h, SplitN_nosep s '/' 2 h⟩

theorem HasPrefix_iff (s pre : GoString) :
    strings.HasPrefix s pre = true ↔ ∃ t, s = pre ++ t := by
  constructor
  · intro h
    simp only [strings.HasPrefix, Bool.and_eq_true, decide_eq_true_eq, beq_iff_eq] at h
    refine ⟨s.drop (len pre), ?_⟩
    have := List.take_append_drop (len pre) s
    rw [h.2] at this
    exact this.symm
  · rintro ⟨t, rfl⟩
    simp [strings.HasPrefix]

end splitn

/-! ## Contexts and the login URL -/

theorem Value_cons_ne (parent : context.Context) (k key : ContextKey) (v : Value)
    (h : key ≠ k) : context.Context.Value ((k, v) :: parent) key = parent.Value key := by
  have hk : (key == k) = false := by simpa using h
  simp [context.Context.Value, List.lookup, hk]

theorem loginURL_eq (returnURL : GoString) :
    url.URL.String
        { Path := "/login".toList,
          RawQuery := url.Values.Encode [(returnQueryName, [returnURL])] } =
      "/login?return=".toList ++ url.QueryEscape returnURL := by
  have h1 : url.QueryEscape returnQueryName = "return".toList := by decide
  have h2 : ∀ q, url.URL.EscapedPath { Path := "/login".toList, RawQuery := q } =
      "/login".toList := by
    intro q; rfl
  simp only [url.URL.String, h2, url.Values.Encode]
  simp
  rw [h1]
  rfl

/-! ## The static mounts -/

section mounts

variable {σ : Type}

/-- Handler `issuesHandler` on `BaseURL/`: the root redirect, nothing else happens. -/
theorem issuesHandler_root (repo : Repo) (app : http.Handler σ) (req : http.Request)
    (w : World σ) (u : url.URL)
    (hu : w.urls[req.URL]? = some u) (hp : u.Path = repo.BaseURL ++ "/".toList) :
    (issuesHandler repo app req).run w =
      .ok (some (httperror.Redirect
        (if u.RawQuery ≠ [] then repo.BaseURL ++ "?".toList ++ u.RawQuery else repo.BaseURL)),
        w) := by
  unfold issuesHandler
  simp [hu, hp]

/-- Handler `issuesHandler` on `BaseURL ++ suffix`, `suffix` other than `/`: the whole run. -/
theorem issuesHandler_served (repo : Repo) (app : http.Handler σ) (req : http.Request)
    (w : World σ) (u : url.URL) (suffix : GoString) (s : Option Nat)
    (hu : w.urls[req.URL]? = some u) (hp : u.Path = repo.BaseURL ++ suffix)
    (hs : suffix ≠ "/".toList)
    (hsess : req.ctx.Value .sessionContextKey = some (.session s)) :
    (issuesHandler repo app req).run w =
      if (recordedBy app w
            (derivedRequest w req .issuesappRepoSpecContextKey
              (.RepoSpec { URI := repo.SpecURL }) .issuesappBaseURIContextKey repo.BaseURL)
            (derivedURL u suffix)).Code = http.StatusForbidden ∧ s = none then
        .ok (some (httperror.Redirect
            ("/login?return=".toList ++ url.QueryEscape req.RequestURI)),
          afterServe app w
            (derivedRequest w req .issuesappRepoSpecContextKey
              (.RepoSpec { URI := repo.SpecURL }) .issuesappBaseURIContextKey repo.BaseURL)
            (derivedURL u suffix))
      else
        .ok (replayError app w
            (derivedRequest w req .issuesappRepoSpecContextKey
              (.RepoSpec { URI := repo.SpecURL }) .issuesappBaseURIContextKey repo.BaseURL)
            (derivedURL u suffix),
          afterReplay app w
            (derivedRequest w req .issuesappRepoSpecContextKey
              (.RepoSpec { URI := repo.SpecURL }) .issuesappBaseURIContextKey repo.BaseURL)
            (derivedURL u suffix)) := by
  have hs1 : suffix ≠ ['/'] := hs
  have hl := loginURL_eq req.RequestURI
  simp only [String.toList] at hl
  unfold issuesHandler
  by_cases h0 : suffix = []
  all_goals
    simp [derivedRequest, derivedURL, recordedBy, afterServe, afterReplay, replayError]
    simp [hu, hp, hs1, h0, set_length_concat, http.Request.WithContext, http.Request.Context,
      context.WithValue, Value_cons_ne, hsess, hl]
    split_ifs <;> simp_all

/-- Handler `changesHandler.ServeHTTP` on `BaseURL/`: the root redirect, nothing else happens. -/
theorem changesHandler_root (h : changesHandler σ) (req : http.Request)
    (w : World σ) (u : url.URL)
    (hu : w.urls[req.URL]? = some u) (hp : u.Path = h.BaseURL ++ "/".toList) :
    (h.ServeHTTP req).run w =
      .ok (some (httperror.Redirect
        (if u.RawQuery ≠ [] then h.BaseURL ++ "?".toList ++ u.RawQuery else h.BaseURL)),
        w) := by
  unfold changesHandler.ServeHTTP
  simp [hu, hp]

/-- Handler `changesHandler.ServeHTTP` on `BaseURL ++ suffix`, `suffix` other than `/`: the
whole run. -/
theorem changesHandler_served (h : changesHandler σ) (req : http.Request)
    (w : World σ) (u : url.URL) (suffix : GoString) (s : Option Nat)
    (hu : w.urls[req.URL]? = some u) (hp : u.Path = h.BaseURL ++ suffix)
    (hs : suffix ≠ "/".toList)
    (hsess : req.ctx.Value .sessionContextKey = some (.session s)) :
    (h.ServeHTTP req).run w =
      if (recordedBy h.changesApp w
            (derivedRequest w req .changesRepoSpecContextKey (.string h.SpecURL)
              .changesBaseURIContextKey h.BaseURL)
            (derivedURL u suffix)).Code = http.StatusForbidden ∧ s = none then
        .ok (some (httperror.Redirect
            ("/login?return=".toList ++ url.QueryEscape req.RequestURI)),
          afterServe h.changesApp w
            (derivedRequest w req .changesRepoSpecContextKey (.string h.SpecURL)
              .changesBaseURIContextKey h.BaseURL)
            (derivedURL u suffix))
      else
        .ok (replayError h.changesApp w
            (derivedRequest w req .changesRepoSpecContextKey (.string h.SpecURL)
              .changesBaseURIContextKey h.BaseURL)
            (derivedURL u suffix),
          afterReplay h.changesApp w
            (derivedRequest w req .changesRepoSpecContextKey (.string h.SpecURL)
              .changesBaseURIContextKey h.BaseURL)
            (derivedURL u suffix)) := by
  have hs1 : suffix ≠ ['/'] := hs
  have hl := loginURL_eq req.RequestURI
  simp only [String.toList] at hl
  unfold changesHandler.ServeHTTP
  by_cases h0 : suffix = []
  all_goals
    simp [derivedRequest, derivedURL, recordedBy, afterServe, afterReplay, replayError]
    simp [hu, hp, hs1, h0, set_length_concat, http.Request.WithContext, http.Request.Context,
      context.WithValue, Value_cons_ne, hsess, hl]
    split_ifs <;> simp_all

end mounts

/-! ## The wildcard mounts -/

section wildcard

variable {σ : Type}

/-- The owner/name check of the two wildcard handlers, on the pieces of the path
after the mount point. -/
theorem malformed_cases (rest : GoString)
    (h : len (strings.SplitN rest '/' 3) < 2 ∨ (strings.SplitN rest '/' 3)[0]? = some [] ∨
      (strings.SplitN rest '/' 3)[1]? = some []) :
    len (strings.SplitN rest '/' 3) < 2 ∨
      (∃ tl, strings.SplitN rest '/' 3 = [] :: tl) ∨
      (∃ e0 tl, e0 ≠ [] ∧ strings.SplitN rest '/' 3 = e0 :: [] :: tl) := by
  rcases h with h | h | h
  · exact Or.inl h
  · match hs : strings.SplitN rest '/' 3, h with
    | e0 :: tl, h =>
      simp only [List.getElem?_cons_zero, Option.some.injEq] at h
      exact Or.inr (Or.inl ⟨tl, by rw [h]⟩)
  · match hs : strings.SplitN rest '/' 3, h with
    | [e0], h => simp at h
    | e0 :: e1 :: tl, h =>
      simp only [List.getElem?_cons_succ, List.getElem?_cons_zero, Option.some.injEq] at h
      by_cases h0 : e0 = []
      · exact Or.inr (Or.inl ⟨e1 :: tl, by rw [h0]⟩)
      · exact Or.inr (Or.inr ⟨e0, tl, h0, by rw [h]⟩)

/-- Handler `githubIssuesHandler` on a path that fails the owner/name check. -/
theorem githubIssuesHandler_notExist (app : http.Handler σ) (req : http.Request)
    (w : World σ) (u : url.URL) (rest : GoString)
    (hu : w.urls[req.URL]? = some u) (hp : u.Path = "/issues/github.com/".toList ++ rest)
    (h : len (strings.SplitN rest '/' 3) < 2 ∨ (strings.SplitN rest '/' 3)[0]? = some [] ∨
      (strings.SplitN rest '/' 3)[1]? = some []) :
    (githubIssuesHandler app req).run w = .ok (some os.ErrNotExist, w) := by
  have hlen : len "/issues/github.com/".toList ≤ len u.Path := by
    rw [hp]; simp
  have hdrop : u.Path.drop (len "/issues/github.com/".toList) = rest := by
    rw [hp]; exact List.drop_left _ _
  unfold githubIssuesHandler
  simp only [Eff.run_bind, Eff.run_loadURL, hu, Eff.run_sliceFrom, if_pos hlen, hdrop]
  rcases malformed_cases rest h with h | ⟨tl, h⟩ | ⟨e0, tl, h0, h⟩
  · simp only [Eff.run_ite, if_pos h, Eff.run_pure]
  · rw [h]
    by_cases hl : len (([] : GoString) :: tl) < 2
    · simp only [Eff.run_ite, if_pos hl, Eff.run_pure]
    · simp [hl]
  · rw [h]
    simp [h0]

/-- Handler `githubIssuesHandler` on a path that passes the owner/name check does what
`issuesHandler` does for the mount of that repository. -/
theorem githubIssuesHandler_eq (app : http.Handler σ) (req : http.Request) (w : World σ)
    (u : url.URL) (owner name suffix : GoString)
    (hu : w.urls[req.URL]? = some u)
    (hp : u.Path = "/issues/github.com/".toList ++ (owner ++ '/' :: (name ++ suffix)))
    (ho : owner ≠ []) (hn : name ≠ []) (hos : '/' ∉ owner) (hns : '/' ∉ name)
    (hsuf : suffix = [] ∨ ∃ rest, suffix = '/' :: rest) :
    (githubIssuesHandler app req).run w =
      (issuesHandler
        { SpecURL := "github.com/".toList ++ owner ++ "/".toList ++ name,
          BaseURL := "/issues/".toList ++ ("github.com/".toList ++ owner ++ "/".toList ++ name) }
        app req).run w := by
  have hlen : len "/issues/github.com/".toList ≤ len u.Path := by
    rw [hp]; simp
  have hdrop : u.Path.drop (len "/issues/github.com/".toList) =
      owner ++ '/' :: (name ++ suffix) := by
    rw [hp]; exact List.drop_left _ _
  have hsplit : ∃ tl, strings.SplitN (owner ++ '/' :: (name ++ suffix)) '/' 3 =
      owner :: name :: tl := by
    rcases hsuf with h | ⟨rest, h⟩
    · subst h; exact ⟨[], by rw [List.append_nil]; exact SplitN_two owner name hos hns⟩
    · subst h; exact ⟨[rest], SplitN_three owner name rest hos hns⟩
  obtain ⟨tl, hsplit⟩ := hsplit
  have hl2 : ¬ len (owner :: name :: tl) < 2 := by simp
  have h0 : (owner :: name :: tl)[0]? = some owner := by simp
  have h1 : (owner :: name :: tl)[1]? = some name := by simp
  unfold githubIssuesHandler issuesHandler
  simp only [Eff.run_bind, Eff.run_loadURL, hu, Eff.run_sliceFrom, if_pos hlen, hdrop, hsplit,
    Eff.run_ite, Eff.run_index, Eff.run_pure, if_neg hl2, h0, h1, if_neg ho, if_neg hn]

/-- Handler `githubChangesHandler` on a path that fails the owner/name check. -/
theorem githubChangesHandler_notExist (shurcool : Principal) (users : users.Service σ)
    (app : http.Handler σ) (req : http.Request)
    (w : World σ) (u : url.URL) (rest : GoString)
    (hu : w.urls[req.URL]? = some u) (hp : u.Path = "/changes/github.com/".toList ++ rest)
    (h : len (strings.SplitN rest '/' 3) < 2 ∨ (strings.SplitN rest '/' 3)[0]? = some [] ∨
      (strings.SplitN rest '/' 3)[1]? = some []) :
    (githubChangesHandler shurcool users app req).run w = .ok (some os.ErrNotExist, w) := by
  have hlen : len "/changes/github.com/".toList ≤ len u.Path := by
    rw [hp]; simp
  have hdrop : u.Path.drop (len "/changes/github.com/".toList) = rest := by
    rw [hp]; exact List.drop_left _ _
  unfold githubChangesHandler
  simp only [Eff.run_bind, Eff.run_loadURL, hu, Eff.run_sliceFrom, if_pos hlen, hdrop]
  rcases malformed_cases rest h with h | ⟨tl, h⟩ | ⟨e0, tl, h0, h⟩
  · simp only [Eff.run_ite, if_pos h, Eff.run_pure]
  · rw [h]
    by_cases hl : len (([] : GoString) :: tl) < 2
    · simp only [Eff.run_ite, if_pos hl, Eff.run_pure]
    · simp [hl]
  · rw [h]
    simp [h0]

/-- Handler `githubChangesHandler` on a path that passes the owner/name check: what it
does after the identity resolver has answered. -/
theorem githubChangesHandler_resolved (shurcool : Principal) (users : users.Service σ)
    (app : http.Handler σ) (req : http.Request) (w : World σ)
    (u : url.URL) (owner name suffix : GoString)
    (hu : w.urls[req.URL]? = some u)
    (hp : u.Path = "/changes/github.com/".toList ++ (owner ++ '/' :: (name ++ suffix)))
    (ho : owner ≠ []) (hn : name ≠ []) (hos : '/' ∉ owner) (hns : '/' ∉ name)
    (hsuf : suffix = [] ∨ ∃ rest, suffix = '/' :: rest) :
    (githubChangesHandler shurcool users app req).run w =
      if (users.GetAuthenticatedSpec req.ctx w.state).1.2 ≠ none then
        .ok ((users.GetAuthenticatedSpec req.ctx w.state).1.2, afterResolve users req.ctx w)
      else if (users.GetAuthenticatedSpec req.ctx w.state).1.1 ≠ shurcool then
        .ok (some (httperror.Redirect
          ("https://github.com/".toList ++ owner ++ "/".toList ++ name ++
            (if suffix = [] then "/pulls".toList else "/pull/".toList ++ suffix.drop 1))),
          afterResolve users req.ctx w)
      else
        (changesHandler.ServeHTTP
          { SpecURL := "github.com/".toList ++ owner ++ "/".toList ++ name,
            BaseURL := "/changes/".toList ++ ("github.com/".toList ++ owner ++ "/".toList ++ name),
            changesApp := app }
          req).run (afterResolve users req.ctx w) := by
  have hlen : len "/changes/github.com/".toList ≤ len u.Path := by
    rw [hp]; simp
  have hdrop : u.Path.drop (len "/changes/github.com/".toList) =
      owner ++ '/' :: (name ++ suffix) := by
    rw [hp]; exact List.drop_left _ _
  have hl2 : ∀ tl : List GoString, ¬ len (owner :: name :: tl) < 2 := by intro tl; simp
  have h0 : ∀ tl : List GoString, (owner :: name :: tl)[0]? = some owner := by intro tl; simp
  have h1 : ∀ tl : List GoString, (owner :: name :: tl)[1]? = some name := by intro tl; simp
  rcases hres : users.GetAuthenticatedSpec req.ctx w.state with ⟨⟨cu, err⟩, st1⟩
  unfold githubChangesHandler changesHandler.ServeHTTP
  rcases hsuf with h | ⟨rest, h⟩
  · subst h
    have hsplit := SplitN_two owner name hos hns
    rw [List.append_nil] at hdrop
    simp only [Eff.run_bind, Eff.run_loadURL, hu, Eff.run_sliceFrom, if_pos hlen, hdrop, hsplit,
      Eff.run_ite, Eff.run_index, Eff.run_pure, if_neg (hl2 _), h0, h1, if_neg ho, if_neg hn,
      Eff.run_perform, http.Request.Context, hres, afterResolve]
    by_cases he : err ≠ none
    · simp only [if_pos he]
    · by_cases hc : cu ≠ shurcool
      · simp [he, hc]
      · simp only [if_neg he, if_neg hc, hu]
  · subst h
    have hsplit := SplitN_three owner name rest hos hns
    have h2 : [owner, name, rest][2]? = some rest := by simp
    have hl3 : ¬ len [owner, name, rest] = 2 := by simp
    simp only [Eff.run_bind, Eff.run_loadURL, hu, Eff.run_sliceFrom, if_pos hlen, hdrop, hsplit,
      Eff.run_ite, Eff.run_index, Eff.run_pure, if_neg (hl2 _), h0, h1, h2, if_neg hl3,
      if_neg ho, if_neg hn, Eff.run_perform, http.Request.Context, hres, afterResolve]
    by_cases he : err ≠ none
    · simp only [if_pos he]
    · by_cases hc : cu ≠ shurcool
      · simp [he, hc]
      · simp only [if_neg he, if_neg hc, hu]

end wildcard

/-! ## The blog mount -/

section blog

variable {σ : Type}

theorem Eff.run_serveDirect (app : http.Handler σ) (req : http.Request) (w : World σ) :
    Eff.run (serveDirect app req) w =
      match w.urls[req.URL]? with
      | some u =>
        .ok ((),
          { w with
            state :=
              (app.ServeHTTP { Code := 200, HeaderMap := w.header, Body := [] } req u w.state).2,
            header :=
              (app.ServeHTTP { Code := 200, HeaderMap := w.header, Body := [] } req u
                w.state).1.HeaderMap,
            log := w.log ++
              [.ServeHTTP false req u,
                .WriteHeader
                  (app.ServeHTTP { Code := 200, HeaderMap := w.header, Body := [] } req u
                    w.state).1.Code,
                .Write
                  (app.ServeHTTP { Code := 200, HeaderMap := w.header, Body := [] } req u
                    w.state).1.Body] })
      | none => .error .nilDereference := rfl

/-- Handler `blogHandler` on `/blog/`: after `getUser` (and the clearing of the cookie on a
bad token) the root redirect with status 301, and nothing else. -/
theorem blogHandler_root (getUser : http.Request → σ → (Option Nat × Option Error) × σ)
    (app : http.Handler σ) (req : http.Request) (w : World σ) (u : url.URL)
    (hu : w.urls[req.URL]? = some u) (hp : u.Path = "/blog".toList ++ "/".toList) :
    (blogHandler getUser app req).run w =
      .ok ((), { w with
        state := (getUser req w.state).2,
        log := w.log ++ .getUser req ::
          ((if (getUser req w.state).1.2 = some errBadAccessToken then [.SetCookie] else []) ++
            [.Redirect
              (if u.RawQuery ≠ [] then "/blog".toList ++ "?".toList ++ u.RawQuery
               else "/blog".toList)
              http.StatusMovedPermanently]) }) := by
  rcases hres : getUser req w.state with ⟨⟨user, err⟩, st1⟩
  have hp1 : u.Path = ['/', 'b', 'l', 'o', 'g', '/'] := hp
  unfold blogHandler
  by_cases he : err = some errBadAccessToken
  all_goals by_cases hq : u.RawQuery = []
  all_goals simp [hres, he, hq, hu, hp1, http.Request.WithContext]

/-- Handler `blogHandler` on `/blog ++ suffix`, `suffix` other than `/`: the path of the
request itself is cut down and the sub-application writes to the real response. -/
theorem blogHandler_served (getUser : http.Request → σ → (Option Nat × Option Error) × σ)
    (app : http.Handler σ) (req : http.Request) (w : World σ) (u : url.URL)
    (suffix : GoString)
    (hu : w.urls[req.URL]? = some u) (hp : u.Path = "/blog".toList ++ suffix)
    (hs : suffix ≠ "/".toList) :
    (blogHandler getUser app req).run w =
      .ok ((), blogServed getUser app req w u suffix) := by
  rcases hres : getUser req w.state with ⟨⟨user, err⟩, st1⟩
  have hs1 : suffix ≠ ['/'] := hs
  have hp1 : u.Path = '/' :: 'b' :: 'l' :: 'o' :: 'g' :: suffix := hp
  have hlt : req.URL < w.urls.length := by
    by_contra hc
    rw [List.getElem?_eq_none (Nat.le_of_not_lt hc)] at hu
    exact Option.noConfusion hu
  unfold blogHandler blogServed
  by_cases he : err = some errBadAccessToken
  all_goals by_cases h0 : suffix = []
  all_goals
    simp [hres, he, h0, hu, hp1, hs1, hlt, http.Request.WithContext, http.Request.Context,
      context.WithValue, derivedURL, Eff.run_serveDirect]
end blog

/-! ## The wildcard mounts, by owner and name -/

section served

variable {σ : Type}

theorem githubBase_eq (service owner name : GoString) :
    service ++ ("github.com/".toList ++ owner ++ "/".toList ++ name) =
      service ++ "github.com/".toList ++ owner ++ "/".toList ++ name := by
  simp only [List.append_assoc]

theorem issuesBase_eq (owner name : GoString) :
    "/issues/".toList ++ ("github.com/".toList ++ owner ++ "/".toList ++ name) =
      "/issues/github.com/".toList ++ owner ++ "/".toList ++ name := by
  have h : "/issues/github.com/".toList = "/issues/".toList ++ "github.com/".toList := by decide
  rw [h, githubBase_eq]

theorem changesBase_eq (owner name : GoString) :
    "/changes/".toList ++ ("github.com/".toList ++ owner ++ "/".toList ++ name) =
      "/changes/github.com/".toList ++ owner ++ "/".toList ++ name := by
  have h : "/changes/github.com/".toList = "/changes/".toList ++ "github.com/".toList := by
    decide
  rw [h, githubBase_eq]

theorem path_assoc (mount owner name suffix : GoString) :
    mount ++ owner ++ "/".toList ++ name ++ suffix = mount ++ (owner ++ '/' :: (name ++ suffix)) := by
  have h : "/".toList = ['/'] := rfl
  simp [h]

/-- Handler `githubIssuesHandler` on `/issues/github.com/<owner>/<name><suffix>`, `suffix`
empty or a slash followed by something: the whole run. -/
theorem githubIssuesHandler_served (app : http.Handler σ) (req : http.Request)
    (w : World σ) (u : url.URL) (owner name suffix : GoString) (s : Option Nat)
    (hu : w.urls[req.URL]? = some u)
    (hp : u.Path = "/issues/github.com/".toList ++ owner ++ "/".toList ++ name ++ suffix)
    (ho : owner ≠ []) (hn : name ≠ []) (hos : '/' ∉ owner) (hns : '/' ∉ name)
    (hsuf : suffix = [] ∨ ∃ rest, suffix = '/' :: rest) (hs : suffix ≠ "/".toList)
    (hsess : req.ctx.Value .sessionContextKey = some (.session s)) :
    (githubIssuesHandler app req).run w =
      if (recordedBy app w
            (issuesRequest w req ("github.com/".toList ++ owner ++ "/".toList ++ name)
              ("/issues/github.com/".toList ++ owner ++ "/".toList ++ name))
            (derivedURL u suffix)).Code = http.StatusForbidden ∧ s = none then
        .ok (some (httperror.Redirect
            ("/login?return=".toList ++ url.QueryEscape req.RequestURI)),
          afterServe app w
            (issuesRequest w req ("github.com/".toList ++ owner ++ "/".toList ++ name)
              ("/issues/github.com/".toList ++ owner ++ "/".toList ++ name))
            (derivedURL u suffix))
      else
        .ok (replayError app w
            (issuesRequest w req ("github.com/".toList ++ owner ++ "/".toList ++ name)
              ("/issues/github.com/".toList ++ owner ++ "/".toList ++ name))
            (derivedURL u suffix),
          afterReplay app w
            (issuesRequest w req ("github.com/".toList ++ owner ++ "/".toList ++ name)
              ("/issues/github.com/".toList ++ owner ++ "/".toList ++ name))
            (derivedURL u suffix)) := by
  rw [githubIssuesHandler_eq app req w u owner name suffix hu (by rw [hp, path_assoc]) ho hn hos
    hns hsuf]
  rw [issuesHandler_served _ app req w u suffix s hu
    (by simp only [issuesBase_eq]; exact hp) hs hsess]
  simp only [issuesBase_eq]

/-- Handler `githubIssuesHandler` on `/issues/github.com/<owner>/<name>/`: the root
redirect, nothing else happens. -/
theorem githubIssuesHandler_root (app : http.Handler σ) (req : http.Request)
    (w : World σ) (u : url.URL) (owner name : GoString)
    (hu : w.urls[req.URL]? = some u)
    (hp : u.Path = "/issues/github.com/".toList ++ owner ++ "/".toList ++ name ++ "/".toList)
    (ho : owner ≠ []) (hn : name ≠ []) (hos : '/' ∉ owner) (hns : '/' ∉ name) :
    (githubIssuesHandler app req).run w =
      .ok (some (httperror.Redirect
        (if u.RawQuery ≠ [] then
          "/issues/github.com/".toList ++ owner ++ "/".toList ++ name ++ "?".toList ++ u.RawQuery
         else "/issues/github.com/".toList ++ owner ++ "/".toList ++ name)), w) := by
  rw [githubIssuesHandler_eq app req w u owner name "/".toList hu (by rw [hp, path_assoc]) ho hn
    hos hns (Or.inr ⟨[], rfl⟩)]
  rw [issuesHandler_root _ app req w u hu (by simp only [issuesBase_eq]; exact hp)]
  simp only [issuesBase_eq]

/-- Handler `githubChangesHandler` for `shurcool` on
`/changes/github.com/<owner>/<name><suffix>`, `suffix` empty or a slash followed by
something: the whole run. -/
theorem githubChangesHandler_served (shurcool : Principal) (users : users.Service σ)
    (app : http.Handler σ) (req : http.Request)
    (w : World σ) (u : url.URL) (owner name suffix : GoString) (s : Option Nat)
    (hu : w.urls[req.URL]? = some u)
    (hp : u.Path = "/changes/github.com/".toList ++ owner ++ "/".toList ++ name ++ suffix)
    (ho : owner ≠ []) (hn : name ≠ []) (hos : '/' ∉ owner) (hns : '/' ∉ name)
    (hsuf : suffix = [] ∨ ∃ rest, suffix = '/' :: rest) (hs : suffix ≠ "/".toList)
    (hsess : req.ctx.Value .sessionContextKey = some (.session s))
    (he : (users.GetAuthenticatedSpec req.ctx w.state).1.2 = none)
    (hc : (users.GetAuthenticatedSpec req.ctx w.state).1.1 = shurcool) :
    (githubChangesHandler shurcool users app req).run w =
      if (recordedBy app (afterResolve users req.ctx w)
            (changesRequest w req ("github.com/".toList ++ owner ++ "/".toList ++ name)
              ("/changes/github.com/".toList ++ owner ++ "/".toList ++ name))
            (derivedURL u suffix)).Code = http.StatusForbidden ∧ s = none then
        .ok (some (httperror.Redirect
            ("/login?return=".toList ++ url.QueryEscape req.RequestURI)),
          afterServe app (afterResolve users req.ctx w)
            (changesRequest w req ("github.com/".toList ++ owner ++ "/".toList ++ name)
              ("/changes/github.com/".toList ++ owner ++ "/".toList ++ name))
            (derivedURL u suffix))
      else
        .ok (replayError app (afterResolve users req.ctx w)
            (changesRequest w req ("github.com/".toList ++ owner ++ "/".toList ++ name)
              ("/changes/github.com/".toList ++ owner ++ "/".toList ++ name))
            (derivedURL u suffix),
          afterReplay app (afterResolve users req.ctx w)
            (changesRequest w req ("github.com/".toList ++ owner ++ "/".toList ++ name)
              ("/changes/github.com/".toList ++ owner ++ "/".toList ++ name))
            (derivedURL u suffix)) := by
  rw [githubChangesHandler_resolved shurcool users app req w u owner name suffix hu
    (by rw [hp, path_assoc]) ho hn hos hns hsuf]
  have he1 : ¬ ((users.GetAuthenticatedSpec req.ctx w.state).1.2 ≠ none) := fun h => h he
  have hc1 : ¬ ((users.GetAuthenticatedSpec req.ctx w.state).1.1 ≠ shurcool) := fun h => h hc
  rw [if_neg he1, if_neg hc1]
  rw [changesHandler_served _ req (afterResolve users req.ctx w) u suffix s hu
    (by simp only [changesBase_eq]; exact hp) hs hsess]
  simp only [changesBase_eq]
  rfl

end served

/-! ## The facades -/

section facades

variable {σ : Type}

/-- Claim C1. For every repository whose URI starts with `github.com/` (and, for the
issues facade, is neither of the two exempted URIs) and every call in which the
identity resolver succeeds with an identity other than `shurcool`, each of the nine
operations of `shurcoolSeesGitHubIssues` and each of the six operations of
`shurcoolSeesGitHubChanges` returns the zero value of its result type together with
`os.ErrPermission`, and the world it leaves is the one in which the resolver has
been asked once and nothing else has happened: the log has grown by that one call,
so neither the remote nor the local backend was called. -/
theorem C1_facades_deny_other_identities {T : issues.Types} {U : change.Types}
    (shurcool : Principal) (si : shurcoolSeesGitHubIssues T σ)
    (sc : shurcoolSeesGitHubChanges U σ) (ctx : context.Context) (uri : GoString)
    (w : World σ) (hremote : strings.HasPrefix uri "github.com/".toList = true) :
    (uri ≠ "github.com/shurcooL/issuesapp".toList →
      uri ≠ "github.com/shurcooL/notificationsapp".toList →
      (si.users.GetAuthenticatedSpec ctx w.state).1.2 = none →
      (si.users.GetAuthenticatedSpec ctx w.state).1.1 ≠ shurcool →
        (∀ opt, (si.List shurcool ctx { URI := uri } opt).run w =
          .ok (([], some os.ErrPermission), afterResolve si.users ctx w)) ∧
        (∀ opt, (si.Count shurcool ctx { URI := uri } opt).run w =
          .ok ((0, some os.ErrPermission), afterResolve si.users ctx w)) ∧
        (∀ id, (si.Get shurcool ctx { URI := uri } id).run w =
          .ok ((T.zeroIssue, some os.ErrPermission), afterResolve si.users ctx w)) ∧
        (∀ id opt, (si.ListComments shurcool ctx { URI := uri } id opt).run w =
          .ok (([], some os.ErrPermission), afterResolve si.users ctx w)) ∧
        (∀ id opt, (si.ListEvents shurcool ctx { URI := uri } id opt).run w =
          .ok (([], some os.ErrPermission), afterResolve si.users ctx w)) ∧
        (∀ issue, (si.Create shurcool ctx { URI := uri } issue).run w =
          .ok ((T.zeroIssue, some os.ErrPermission), afterResolve si.users ctx w)) ∧
        (∀ id comment, (si.CreateComment shurcool ctx { URI := uri } id comment).run w =
          .ok ((T.zeroComment, some os.ErrPermission), afterResolve si.users ctx w)) ∧
        (∀ id ir, (si.Edit shurcool ctx { URI := uri } id ir).run w =
          .ok ((T.zeroIssue, [], some os.ErrPermission), afterResolve si.users ctx w)) ∧
        (∀ id cr, (si.EditComment shurcool ctx { URI := uri } id cr).run w =
          .ok ((T.zeroComment, some os.ErrPermission), afterResolve si.users ctx w))) ∧
    ((sc.users.GetAuthenticatedSpec ctx w.state).1.2 = none →
      (sc.users.GetAuthenticatedSpec ctx w.state).1.1 ≠ shurcool →
        (∀ opt, (sc.List shurcool ctx uri opt).run w =
          .ok (([], some os.ErrPermission), afterResolve sc.users ctx w)) ∧
        (∀ opt, (sc.Count shurcool ctx uri opt).run w =
          .ok ((0, some os.ErrPermission), afterResolve sc.users ctx w)) ∧
        (∀ id, (sc.Get shurcool ctx uri id).run w =
          .ok ((U.zeroChange, some os.ErrPermission), afterResolve sc.users ctx w)) ∧
        (∀ id opt, (sc.ListTimeline shurcool ctx uri id opt).run w =
          .ok (([], some os.ErrPermission), afterResolve sc.users ctx w)) ∧
        (∀ id, (sc.ListCommits shurcool ctx uri id).run w =
          .ok (([], some os.ErrPermission), afterResolve sc.users ctx w)) ∧
        (∀ id opt, (sc.GetDiff shurcool ctx uri id opt).run w =
          .ok (([], some os.ErrPermission), afterResolve sc.users ctx w))) := by
  constructor
  · intro h1 h2 he hu
    have hc : strings.HasPrefix ({ URI := uri } : issues.RepoSpec).URI "github.com/".toList ∧
        ({ URI := uri } : issues.RepoSpec).URI ≠ "github.com/shurcooL/issuesapp".toList ∧
        ({ URI := uri } : issues.RepoSpec).URI ≠ "github.com/shurcooL/notificationsapp".toList :=
      ⟨hremote, h1, h2⟩
    refine ⟨?_, ?_, ?_, ?_, ?_, ?_, ?_, ?_, ?_⟩ <;> intros
    all_goals
      simp only [shurcoolSeesGitHubIssues.List, shurcoolSeesGitHubIssues.Count,
        shurcoolSeesGitHubIssues.Get, shurcoolSeesGitHubIssues.ListComments,
        shurcoolSeesGitHubIssues.ListEvents, shurcoolSeesGitHubIssues.Create,
        shurcoolSeesGitHubIssues.CreateComment, shurcoolSeesGitHubIssues.Edit,
        shurcoolSeesGitHubIssues.EditComment, if_pos hc]
      simp [he, hu, afterResolve]
  · intro he hu
    have hc : strings.HasPrefix uri "github.com/".toList = true := hremote
    refine ⟨?_, ?_, ?_, ?_, ?_, ?_⟩ <;> intros
    all_goals
      simp only [shurcoolSeesGitHubChanges.List, shurcoolSeesGitHubChanges.Count,
        shurcoolSeesGitHubChanges.Get, shurcoolSeesGitHubChanges.ListTimeline,
        shurcoolSeesGitHubChanges.ListCommits, shurcoolSeesGitHubChanges.GetDiff, if_pos hc]
      simp [he, hu, afterResolve]

/-- An instance of C1: a visitor who is not `shurcool` lists the issues and the
changes of `github.com/foo/bar`. -/
theorem C1_facades_deny_other_identities_witness :
    ((sampleIssuesFacade sampleVisitor none).List sampleShurcool []
        { URI := "github.com/foo/bar".toList } (0 : Nat)).run (sampleWorld [] []) =
      .ok (([], some os.ErrPermission),
        afterResolve (sampleIssuesFacade sampleVisitor none).users [] (sampleWorld [] [])) ∧
    ((sampleChangesFacade sampleVisitor none).List sampleShurcool []
        "github.com/foo/bar".toList (0 : Nat)).run (sampleWorld [] []) =
      .ok (([], some os.ErrPermission),
        afterResolve (sampleChangesFacade sampleVisitor none).users [] (sampleWorld [] [])) :=
  ⟨((C1_facades_deny_other_identities sampleShurcool (sampleIssuesFacade sampleVisitor none)
      (sampleChangesFacade sampleVisitor none) [] "github.com/foo/bar".toList (sampleWorld [] [])
      (by decide)).1 (by decide) (by decide) (by decide) (by decide)).1 (0 : Nat),
   ((C1_facades_deny_other_identities sampleShurcool (sampleIssuesFacade sampleVisitor none)
      (sampleChangesFacade sampleVisitor none) [] "github.com/foo/bar".toList (sampleWorld [] [])
      (by decide)).2 (by decide) (by decide)).1 (0 : Nat)⟩

/-- Claim C2. For every repository whose URI starts with `github.com/` (and, for the
issues facade, is neither of the two exempted URIs) and every call in which the
identity resolver succeeds with the identity `shurcool`, each operation of the two
facades runs as: the resolver is asked once, then the same-named operation of the
remote backend is called once (one logged call) with the same context, repository
and arguments, and its result, its error and the state it leaves are those of the
facade.  The log grows by exactly these two calls, so the local backend is not
called. -/
theorem C2_facades_forward_to_remote {T : issues.Types} {U : change.Types}
    (shurcool : Principal) (si : shurcoolSeesGitHubIssues T σ)
    (sc : shurcoolSeesGitHubChanges U σ) (ctx : context.Context) (uri : GoString)
    (w : World σ) (hremote : strings.HasPrefix uri "github.com/".toList = true) :
    (uri ≠ "github.com/shurcooL/issuesapp".toList →
      uri ≠ "github.com/shurcooL/notificationsapp".toList →
      (si.users.GetAuthenticatedSpec ctx w.state).1.2 = none →
      (si.users.GetAuthenticatedSpec ctx w.state).1.1 = shurcool →
        (∀ opt, (si.List shurcool ctx { URI := uri } opt).run w =
          (perform (.backend .RemoteMirror "List" uri)
            (si.shurcoolGitHubIssues.List ctx { URI := uri } opt)).run
            (afterResolve si.users ctx w)) ∧
        (∀ opt, (si.Count shurcool ctx { URI := uri } opt).run w =
          (perform (.backend .RemoteMirror "Count" uri)
            (si.shurcoolGitHubIssues.Count ctx { URI := uri } opt)).run
            (afterResolve si.users ctx w)) ∧
        (∀ id, (si.Get shurcool ctx { URI := uri } id).run w =
          (perform (.backend .RemoteMirror "Get" uri)
            (si.shurcoolGitHubIssues.Get ctx { URI := uri } id)).run
            (afterResolve si.users ctx w)) ∧
        (∀ id opt, (si.ListComments shurcool ctx { URI := uri } id opt).run w =
          (perform (.backend .RemoteMirror "ListComments" uri)
            (si.shurcoolGitHubIssues.ListComments ctx { URI := uri } id opt)).run
            (afterResolve si.users ctx w)) ∧
        (∀ id opt, (si.ListEvents shurcool ctx { URI := uri } id opt).run w =
          (perform (.backend .RemoteMirror "ListEvents" uri)
            (si.shurcoolGitHubIssues.ListEvents ctx { URI := uri } id opt)).run
            (afterResolve si.users ctx w)) ∧
        (∀ issue, (si.Create shurcool ctx { URI := uri } issue).run w =
          (perform (.backend .RemoteMirror "Create" uri)
            (si.shurcoolGitHubIssues.Create ctx { URI := uri } issue)).run
            (afterResolve si.users ctx w)) ∧
        (∀ id comment, (si.CreateComment shurcool ctx { URI := uri } id comment).run w =
          (perform (.backend .RemoteMirror "CreateComment" uri)
            (si.shurcoolGitHubIssues.CreateComment ctx { URI := uri } id comment)).run
            (afterResolve si.users ctx w)) ∧
        (∀ id ir, (si.Edit shurcool ctx { URI := uri } id ir).run w =
          (perform (.backend .RemoteMirror "Edit" uri)
            (si.shurcoolGitHubIssues.Edit ctx { URI := uri } id ir)).run
            (afterResolve si.users ctx w)) ∧
        (∀ id cr, (si.EditComment shurcool ctx { URI := uri } id cr).run w =
          (perform (.backend .RemoteMirror "EditComment" uri)
            (si.shurcoolGitHubIssues.EditComment ctx { URI := uri } id cr)).run
            (afterResolve si.users ctx w))) ∧
    ((sc.users.GetAuthenticatedSpec ctx w.state).1.2 = none →
      (sc.users.GetAuthenticatedSpec ctx w.state).1.1 = shurcool →
        (∀ opt, (sc.List shurcool ctx uri opt).run w =
          (perform (.backend .RemoteMirror "List" uri)
            (sc.shurcoolGitHubChange.List ctx uri opt)).run (afterResolve sc.users ctx w)) ∧
        (∀ opt, (sc.Count shurcool ctx uri opt).run w =
          (perform (.backend .RemoteMirror "Count" uri)
            (sc.shurcoolGitHubChange.Count ctx uri opt)).run (afterResolve sc.users ctx w)) ∧
        (∀ id, (sc.Get shurcool ctx uri id).run w =
          (perform (.backend .RemoteMirror "Get" uri)
            (sc.shurcoolGitHubChange.Get ctx uri id)).run (afterResolve sc.users ctx w)) ∧
        (∀ id opt, (sc.ListTimeline shurcool ctx uri id opt).run w =
          (perform (.backend .RemoteMirror "ListTimeline" uri)
            (sc.shurcoolGitHubChange.ListTimeline ctx uri id opt)).run (afterResolve sc.users ctx w)) ∧
        (∀ id, (sc.ListCommits shurcool ctx uri id).run w =
          (perform (.backend .RemoteMirror "ListCommits" uri)
            (sc.shurcoolGitHubChange.ListCommits ctx uri id)).run (afterResolve sc.users ctx w)) ∧
        (∀ id opt, (sc.GetDiff shurcool ctx uri id opt).run w =
          (perform (.backend .RemoteMirror "GetDiff" uri)
            (sc.shurcoolGitHubChange.GetDiff ctx uri id opt)).run (afterResolve sc.users ctx w))) := by
  constructor
  · intro h1 h2 he hu
    have hc : strings.HasPrefix ({ URI := uri } : issues.RepoSpec).URI "github.com/".toList ∧
        ({ URI := uri } : issues.RepoSpec).URI ≠ "github.com/shurcooL/issuesapp".toList ∧
        ({ URI := uri } : issues.RepoSpec).URI ≠ "github.com/shurcooL/notificationsapp".toList :=
      ⟨hremote, h1, h2⟩
    refine ⟨?_, ?_, ?_, ?_, ?_, ?_, ?_, ?_, ?_⟩ <;> intros
    all_goals
      simp only [shurcoolSeesGitHubIssues.List, shurcoolSeesGitHubIssues.Count,
        shurcoolSeesGitHubIssues.Get, shurcoolSeesGitHubIssues.ListComments,
        shurcoolSeesGitHubIssues.ListEvents, shurcoolSeesGitHubIssues.Create,
        shurcoolSeesGitHubIssues.CreateComment, shurcoolSeesGitHubIssues.Edit,
        shurcoolSeesGitHubIssues.EditComment, if_pos hc]
      simp [he, hu, afterResolve]
  · intro he hu
    have hc : strings.HasPrefix uri "github.com/".toList = true := hremote
    refine ⟨?_, ?_, ?_, ?_, ?_, ?_⟩ <;> intros
    all_goals
      simp only [shurcoolSeesGitHubChanges.List, shurcoolSeesGitHubChanges.Count,
        shurcoolSeesGitHubChanges.Get, shurcoolSeesGitHubChanges.ListTimeline,
        shurcoolSeesGitHubChanges.ListCommits, shurcoolSeesGitHubChanges.GetDiff, if_pos hc]
      simp [he, hu, afterResolve]

/-- An instance of C2: `shurcool` gets issue 42 and change 42 of
`github.com/foo/bar`. -/
theorem C2_facades_forward_to_remote_witness :
    ((sampleIssuesFacade sampleShurcool none).Get sampleShurcool []
        { URI := "github.com/foo/bar".toList } 42).run (sampleWorld [] []) =
      (perform (.backend .RemoteMirror "Get" "github.com/foo/bar".toList)
        ((sampleIssuesFacade sampleShurcool none).shurcoolGitHubIssues.Get []
          { URI := "github.com/foo/bar".toList } 42)).run
        (afterResolve (sampleIssuesFacade sampleShurcool none).users [] (sampleWorld [] [])) ∧
    ((sampleChangesFacade sampleShurcool none).Get sampleShurcool []
        "github.com/foo/bar".toList 42).run (sampleWorld [] []) =
      (perform (.backend .RemoteMirror "Get" "github.com/foo/bar".toList)
        ((sampleChangesFacade sampleShurcool none).shurcoolGitHubChange.Get []
          "github.com/foo/bar".toList 42)).run
        (afterResolve (sampleChangesFacade sampleShurcool none).users [] (sampleWorld [] [])) :=
  ⟨((C2_facades_forward_to_remote sampleShurcool (sampleIssuesFacade sampleShurcool none)
      (sampleChangesFacade sampleShurcool none) [] "github.com/foo/bar".toList
      (sampleWorld [] []) (by decide)).1 (by decide) (by decide) (by decide)
      (by decide)).2.2.1 42,
   ((C2_facades_forward_to_remote sampleShurcool (sampleIssuesFacade sampleShurcool none)
      (sampleChangesFacade sampleShurcool none) [] "github.com/foo/bar".toList
      (sampleWorld [] []) (by decide)).2 (by decide) (by decide)).2.2.1 42⟩

/-- Claim C3. For every repository whose URI does not start with `github.com/` and
every caller, each operation of the two facades runs as one logged call of the
same-named operation of the local backend with the same context, repository and
arguments; its result, its error and the state it leaves are those of the facade.
The log grows by exactly this call: the identity resolver is not consulted (so its
answer, identity or error, plays no part) and the remote backend is not called. -/
theorem C3_facades_forward_to_local {T : issues.Types} {U : change.Types}
    (shurcool : Principal) (si : shurcoolSeesGitHubIssues T σ)
    (sc : shurcoolSeesGitHubChanges U σ) (ctx : context.Context) (uri : GoString)
    (w : World σ) (hlocal : strings.HasPrefix uri "github.com/".toList = false) :
    ((∀ opt, (si.List shurcool ctx { URI := uri } opt).run w =
        (perform (.backend .Local "List" uri) (si.service.List ctx { URI := uri } opt)).run w) ∧
      (∀ opt, (si.Count shurcool ctx { URI := uri } opt).run w =
        (perform (.backend .Local "Count" uri) (si.service.Count ctx { URI := uri } opt)).run w) ∧
      (∀ id, (si.Get shurcool ctx { URI := uri } id).run w =
        (perform (.backend .Local "Get" uri) (si.service.Get ctx { URI := uri } id)).run w) ∧
      (∀ id opt, (si.ListComments shurcool ctx { URI := uri } id opt).run w =
        (perform (.backend .Local "ListComments" uri) (si.service.ListComments ctx { URI := uri } id opt)).run w) ∧
      (∀ id opt, (si.ListEvents shurcool ctx { URI := uri } id opt).run w =
        (perform (.backend .Local "ListEvents" uri) (si.service.ListEvents ctx { URI := uri } id opt)).run w) ∧
      (∀ issue, (si.Create shurcool ctx { URI := uri } issue).run w =
        (perform (.backend .Local "Create" uri) (si.service.Create ctx { URI := uri } issue)).run w) ∧
      (∀ id comment, (si.CreateComment shurcool ctx { URI := uri } id comment).run w =
        (perform (.backend .Local "CreateComment" uri) (si.service.CreateComment ctx { URI := uri } id comment)).run w) ∧
      (∀ id ir, (si.Edit shurcool ctx { URI := uri } id ir).run w =
        (perform (.backend .Local "Edit" uri) (si.service.Edit ctx { URI := uri } id ir)).run w) ∧
      (∀ id cr, (si.EditComment shurcool ctx { URI := uri } id cr).run w =
        (perform (.backend .Local "EditComment" uri) (si.service.EditComment ctx { URI := uri } id cr)).run w)) ∧
    ((∀ opt, (sc.List shurcool ctx uri opt).run w =
        (perform (.backend .Local "List" uri) (sc.service.List ctx uri opt)).run w) ∧
      (∀ opt, (sc.Count shurcool ctx uri opt).run w =
        (perform (.backend .Local "Count" uri) (sc.service.Count ctx uri opt)).run w) ∧
      (∀ id, (sc.Get shurcool ctx uri id).run w =
        (perform (.backend .Local "Get" uri) (sc.service.Get ctx uri id)).run w) ∧
      (∀ id opt, (sc.ListTimeline shurcool ctx uri id opt).run w =
        (perform (.backend .Local "ListTimeline" uri) (sc.service.ListTimeline ctx uri id opt)).run w) ∧
      (∀ id, (sc.ListCommits shurcool ctx uri id).run w =
        (perform (.backend .Local "ListCommits" uri) (sc.service.ListCommits ctx uri id)).run w) ∧
      (∀ id opt, (sc.GetDiff shurcool ctx uri id opt).run w =
        (perform (.backend .Local "GetDiff" uri) (sc.service.GetDiff ctx uri id opt)).run w)) := by
  have hi : ¬ (strings.HasPrefix ({ URI := uri } : issues.RepoSpec).URI "github.com/".toList ∧
      ({ URI := uri } : issues.RepoSpec).URI ≠ "github.com/shurcooL/issuesapp".toList ∧
      ({ URI := uri } : issues.RepoSpec).URI ≠ "github.com/shurcooL/notificationsapp".toList) := by
    intro h
    have h1 : strings.HasPrefix uri "github.com/".toList = true := h.1
    rw [hlocal] at h1
    exact Bool.noConfusion h1
  have hc : ¬ (strings.HasPrefix uri "github.com/".toList = true) := by
    rw [hlocal]; exact Bool.noConfusion
  constructor
  · refine ⟨?_, ?_, ?_, ?_, ?_, ?_, ?_, ?_, ?_⟩ <;> intros
    all_goals
      simp only [shurcoolSeesGitHubIssues.List, shurcoolSeesGitHubIssues.Count,
        shurcoolSeesGitHubIssues.Get, shurcoolSeesGitHubIssues.ListComments,
        shurcoolSeesGitHubIssues.ListEvents, shurcoolSeesGitHubIssues.Create,
        shurcoolSeesGitHubIssues.CreateComment, shurcoolSeesGitHubIssues.Edit,
        shurcoolSeesGitHubIssues.EditComment, if_neg hi]
  · refine ⟨?_, ?_, ?_, ?_, ?_, ?_⟩ <;> intros
    all_goals
      simp only [shurcoolSeesGitHubChanges.List, shurcoolSeesGitHubChanges.Count,
        shurcoolSeesGitHubChanges.Get, shurcoolSeesGitHubChanges.ListTimeline,
        shurcoolSeesGitHubChanges.ListCommits, shurcoolSeesGitHubChanges.GetDiff, if_neg hc]

/-- An instance of C3: a caller whose identity cannot be resolved counts the issues
and the changes of `dmitri.shuralyov.com/kebabcase`. -/
theorem C3_facades_forward_to_local_witness :
    ((sampleIssuesFacade sampleAnonymous (some (Error.other "no user".toList))).Count
        sampleShurcool [] { URI := "dmitri.shuralyov.com/kebabcase".toList } 0).run
        (sampleWorld [] []) =
      (perform (.backend .Local "Count" "dmitri.shuralyov.com/kebabcase".toList)
        ((sampleIssuesFacade sampleAnonymous (some (Error.other "no user".toList))).service.Count
          [] { URI := "dmitri.shuralyov.com/kebabcase".toList } 0)).run (sampleWorld [] []) ∧
    ((sampleChangesFacade sampleAnonymous (some (Error.other "no user".toList))).Count
        sampleShurcool [] "dmitri.shuralyov.com/kebabcase".toList 0).run (sampleWorld [] []) =
      (perform (.backend .Local "Count" "dmitri.shuralyov.com/kebabcase".toList)
        ((sampleChangesFacade sampleAnonymous (some (Error.other "no user".toList))).service.Count
          [] "dmitri.shuralyov.com/kebabcase".toList 0)).run (sampleWorld [] []) :=
  ⟨(C3_facades_forward_to_local sampleShurcool
      (sampleIssuesFacade sampleAnonymous (some (Error.other "no user".toList)))
      (sampleChangesFacade sampleAnonymous (some (Error.other "no user".toList))) []
      "dmitri.shuralyov.com/kebabcase".toList (sampleWorld [] []) (by decide)).1.2.1 (0 : Nat),
   (C3_facades_forward_to_local sampleShurcool
      (sampleIssuesFacade sampleAnonymous (some (Error.other "no user".toList)))
      (sampleChangesFacade sampleAnonymous (some (Error.other "no user".toList))) []
      "dmitri.shuralyov.com/kebabcase".toList (sampleWorld [] []) (by decide)).2.2.1 (0 : Nat)⟩

end facades

/-! ## The mounts -/

section mountclaims

variable {σ : Type}

/-- The heap and the log once the sub-application has been served through a
recorder, whether the recorded response was replayed or not: the original URL is
where it was, and the log continues with the recorder and the one call. -/
theorem served_facts (app : http.Handler σ) (w : World σ) (req req1 : http.Request)
    (u u1 : url.URL) (hu : w.urls[req.URL]? = some u) (w1 : World σ)
    (h : w1 = afterServe app w req1 u1 ∨ w1 = afterReplay app w req1 u1) :
    (∃ tl, w1.log = w.log ++ .NewRecorder :: .ServeHTTP true req1 u1 :: tl ∧
        ∀ a ∈ tl, (∃ code, a = .WriteHeader code) ∨ ∃ p, a = .Write p) ∧
      w1.urls[req.URL]? = some u := by
  have hlt : req.URL < w.urls.length := by
    by_contra hc
    rw [List.getElem?_eq_none (Nat.le_of_not_lt hc)] at hu
    exact Option.noConfusion hu
  have hurl : (w.urls ++ [u1])[req.URL]? = some u := by
    rw [List.getElem?_append_left hlt]; exact hu
  rcases h with h | h
  · subst h
    exact ⟨⟨[], rfl, fun a ha => absurd ha (List.not_mem_nil a)⟩, hurl⟩
  · subst h
    refine ⟨⟨.WriteHeader (recordedBy app w req1 u1).Code ::
      (if (recordedBy app w req1 u1).Body ≠ [] then [.Write (recordedBy app w req1 u1).Body]
       else []), ?_, ?_⟩, hurl⟩
    · simp only [afterReplay, afterServe, List.append_assoc, List.cons_append, List.nil_append]
    · intro a ha
      rcases List.mem_cons.mp ha with h | h
      · exact Or.inl ⟨_, h⟩
      · split_ifs at h
        · exact Or.inr ⟨_, List.mem_singleton.mp h⟩
        · exact absurd h (List.not_mem_nil a)

/-- Claim C4, as amended. For every mount of the three files (`issuesHandler` for
every mount of its table, the four of `issuesMounts` among them, `changesHandler`
with its `BaseURL`, and `blogHandler` at `/blog`) and every query string: a request
whose path is the prefix followed by `/` is answered with a redirect to the bare
prefix, followed by `?` and the query string exactly when the query string is not
empty, and the sub-application is not invoked.  The blog mount sends the redirect
itself, with status 301; the issues and changes mounts return
`httperror.Redirect` and write nothing (the log is unchanged).  A request whose
path is the bare prefix is not redirected: the sub-application is invoked, with
path `/` (for the blog mount the world it leaves is `blogServed`, whose log holds
that call and no redirect). -/
theorem C4_root_redirect_drops_slash
    (getUser : http.Request → σ → (Option Nat × Option Error) × σ) (app : http.Handler σ)
    (req : http.Request) (w : World σ) (u : url.URL) (hu : w.urls[req.URL]? = some u) :
    (∀ repo : Repo, u.Path = repo.BaseURL ++ "/".toList →
      (issuesHandler repo app req).run w =
        .ok (some (httperror.Redirect
          (if u.RawQuery ≠ [] then repo.BaseURL ++ "?".toList ++ u.RawQuery
           else repo.BaseURL)), w)) ∧
    (∀ h : changesHandler σ, u.Path = h.BaseURL ++ "/".toList →
      (h.ServeHTTP req).run w =
        .ok (some (httperror.Redirect
          (if u.RawQuery ≠ [] then h.BaseURL ++ "?".toList ++ u.RawQuery else h.BaseURL)), w)) ∧
    (u.Path = "/blog".toList ++ "/".toList →
      (blogHandler getUser app req).run w =
        .ok ((), { w with
          state := (getUser req w.state).2,
          log := w.log ++ .getUser req ::
            ((if (getUser req w.state).1.2 = some errBadAccessToken then [.SetCookie]
              else []) ++
              [.Redirect
                (if u.RawQuery ≠ [] then "/blog".toList ++ "?".toList ++ u.RawQuery
                 else "/blog".toList)
                http.StatusMovedPermanently]) })) ∧
    (∀ (repo : Repo) (s : Option Nat), u.Path = repo.BaseURL →
      req.ctx.Value .sessionContextKey = some (.session s) →
      ∃ r w1 tl, (issuesHandler repo app req).run w = .ok (r, w1) ∧
        w1.log = w.log ++ .NewRecorder ::
          .ServeHTTP true (issuesRequest w req repo.SpecURL repo.BaseURL)
            { Path := "/".toList, RawQuery := u.RawQuery } :: tl) ∧
    (∀ (h : changesHandler σ) (s : Option Nat), u.Path = h.BaseURL →
      req.ctx.Value .sessionContextKey = some (.session s) →
      ∃ r w1 tl, (h.ServeHTTP req).run w = .ok (r, w1) ∧
        w1.log = w.log ++ .NewRecorder ::
          .ServeHTTP true (changesRequest w req h.SpecURL h.BaseURL)
            { Path := "/".toList, RawQuery := u.RawQuery } :: tl) ∧
    (u.Path = "/blog".toList →
      (blogHandler getUser app req).run w = .ok ((), blogServed getUser app req w u []) ∧
        derivedURL u [] = { Path := "/".toList, RawQuery := u.RawQuery }) := by
  refine ⟨?_, ?_, ?_, ?_, ?_, ?_⟩
  · intro repo hp
    exact issuesHandler_root repo app req w u hu hp
  · intro h hp
    exact changesHandler_root h req w u hu hp
  · intro hp
    exact blogHandler_root getUser app req w u hu hp
  · intro repo s hp hsess
    have hp0 : u.Path = repo.BaseURL ++ [] := by rw [List.append_nil]; exact hp
    have hrun := issuesHandler_served repo app req w u [] s hu hp0 (by decide) hsess
    have hd : derivedURL u [] = { Path := "/".toList, RawQuery := u.RawQuery } := rfl
    rw [hd] at hrun
    split_ifs at hrun
    · obtain ⟨⟨tl, hl, -⟩, -⟩ := served_facts app w req _ u _ hu _ (Or.inl rfl)
      exact ⟨_, _, tl, hrun, hl⟩
    · obtain ⟨⟨tl, hl, -⟩, -⟩ := served_facts app w req _ u _ hu _ (Or.inr rfl)
      exact ⟨_, _, tl, hrun, hl⟩
  · intro h s hp hsess
    have hp0 : u.Path = h.BaseURL ++ [] := by rw [List.append_nil]; exact hp
    have hrun := changesHandler_served h req w u [] s hu hp0 (by decide) hsess
    have hd : derivedURL u [] = { Path := "/".toList, RawQuery := u.RawQuery } := rfl
    rw [hd] at hrun
    split_ifs at hrun
    · obtain ⟨⟨tl, hl, -⟩, -⟩ := served_facts h.changesApp w req _ u _ hu _ (Or.inl rfl)
      exact ⟨_, _, tl, hrun, hl⟩
    · obtain ⟨⟨tl, hl, -⟩, -⟩ := served_facts h.changesApp w req _ u _ hu _ (Or.inr rfl)
      exact ⟨_, _, tl, hrun, hl⟩
  · intro hp
    have hp0 : u.Path = "/blog".toList ++ [] := by rw [List.append_nil]; exact hp
    exact ⟨blogHandler_served getUser app req w u [] hu hp0 (by decide), rfl⟩

/-- An instance of C4: `/kebabcase/issues/?state=open` is redirected to
`/kebabcase/issues?state=open`. -/
theorem C4_root_redirect_drops_slash_witness :
    (issuesHandler
        { SpecURL := "dmitri.shuralyov.com/kebabcase".toList,
          BaseURL := "/kebabcase/issues".toList }
        (sampleApp 200 "ok".toList)
        (sampleRequest "/kebabcase/issues/?state=open".toList noSession)).run
        (sampleWorld "/kebabcase/issues/".toList "state=open".toList) =
      .ok (some (httperror.Redirect "/kebabcase/issues?state=open".toList),
        sampleWorld "/kebabcase/issues/".toList "state=open".toList) :=
  (C4_root_redirect_drops_slash sampleGetUser (sampleApp 200 "ok".toList)
    (sampleRequest "/kebabcase/issues/?state=open".toList noSession)
    (sampleWorld "/kebabcase/issues/".toList "state=open".toList)
    { Path := "/kebabcase/issues/".toList, RawQuery := "state=open".toList } (by decide)).1
    { SpecURL := "dmitri.shuralyov.com/kebabcase".toList, BaseURL := "/kebabcase/issues".toList }
    (by decide)

/-- Claim C4 as stated fails. A request for the bare prefix `/blog`, with
the query string `a=b`, is not answered with a redirect to `/blog/`: `blogHandler`
sends no redirect at all and invokes the sub-application, with path `/`. -/
theorem C4_bare_prefix_is_served :
    (blogHandler sampleGetUser (sampleApp 200 "ok".toList)
        (sampleRequest "/blog?a=b".toList [])).run (sampleWorld "/blog".toList "a=b".toList) =
      .ok ((),
        { state := 1,
          urls := [{ Path := "/".toList, RawQuery := "a=b".toList }],
          header := [],
          connErr := none,
          log :=
            [.getUser (sampleRequest "/blog?a=b".toList []),
              .ServeHTTP false
                { URL := 0, RequestURI := "/blog?a=b".toList,
                  ctx := [(.userContextKey, .user none)] }
                { Path := "/".toList, RawQuery := "a=b".toList },
              .WriteHeader 200,
              .Write "ok".toList] }) := by
  rfl

end mountclaims

section recorderclaims

variable {σ : Type}

/-- Claim C5. For each of the four mount handlers of `issues.go` and `changes.go`
(`issuesHandler`, `githubIssuesHandler`, `changesHandler.ServeHTTP`, and
`githubChangesHandler` once the resolver has answered `shurcool`), every request
that reaches the sub-application and every response of the sub-application into the
recorder: when the recorded status is 403 and the context carries the nil session,
the handler returns a redirect to `/login?return=` followed by the query-escaped
`RequestURI` of the original request, and the world it leaves is `afterServe`: the
log ends with the call of the sub-application, so neither the recorded status nor
a byte of the recorded body went to the real response. -/
theorem C5_forbidden_without_session_goes_to_login (shurcool : Principal)
    (users : users.Service σ) (app : http.Handler σ) (req : http.Request) (w : World σ)
    (u : url.URL) (hu : w.urls[req.URL]? = some u)
    (hsess : req.ctx.Value .sessionContextKey = some (.session none)) :
    (∀ (repo : Repo) (suffix : GoString), u.Path = repo.BaseURL ++ suffix →
      suffix ≠ "/".toList →
      (recordedBy app w
          (issuesRequest w req repo.SpecURL repo.BaseURL)
          (derivedURL u suffix)).Code = http.StatusForbidden →
      (issuesHandler repo app req).run w =
        .ok (some (httperror.Redirect ("/login?return=".toList ++ url.QueryEscape req.RequestURI)),
          afterServe app w
            (issuesRequest w req repo.SpecURL repo.BaseURL)
            (derivedURL u suffix))) ∧
    (∀ owner name suffix : GoString,
      u.Path = "/issues/github.com/".toList ++ owner ++ "/".toList ++ name ++ suffix →
      owner ≠ [] → name ≠ [] → '/' ∉ owner → '/' ∉ name →
      (suffix = [] ∨ ∃ rest, suffix = '/' :: rest) → suffix ≠ "/".toList →
      (recordedBy app w
          (issuesRequest w req ("github.com/".toList ++ owner ++ "/".toList ++ name)
            ("/issues/github.com/".toList ++ owner ++ "/".toList ++ name))
          (derivedURL u suffix)).Code = http.StatusForbidden →
      (githubIssuesHandler app req).run w =
        .ok (some (httperror.Redirect ("/login?return=".toList ++ url.QueryEscape req.RequestURI)),
          afterServe app w
            (issuesRequest w req ("github.com/".toList ++ owner ++ "/".toList ++ name)
            ("/issues/github.com/".toList ++ owner ++ "/".toList ++ name))
            (derivedURL u suffix))) ∧
    (∀ (h : changesHandler σ) (suffix : GoString), u.Path = h.BaseURL ++ suffix →
      suffix ≠ "/".toList →
      (recordedBy h.changesApp w
          (changesRequest w req h.SpecURL h.BaseURL)
          (derivedURL u suffix)).Code = http.StatusForbidden →
      (h.ServeHTTP req).run w =
        .ok (some (httperror.Redirect ("/login?return=".toList ++ url.QueryEscape req.RequestURI)),
          afterServe h.changesApp w
            (changesRequest w req h.SpecURL h.BaseURL)
            (derivedURL u suffix))) ∧
    (∀ owner name suffix : GoString,
      u.Path = "/changes/github.com/".toList ++ owner ++ "/".toList ++ name ++ suffix →
      owner ≠ [] → name ≠ [] → '/' ∉ owner → '/' ∉ name →
      (suffix = [] ∨ ∃ rest, suffix = '/' :: rest) → suffix ≠ "/".toList →
      (users.GetAuthenticatedSpec req.ctx w.state).1.2 = none →
      (users.GetAuthenticatedSpec req.ctx w.state).1.1 = shurcool →
      (recordedBy app (afterResolve users req.ctx w)
          (changesRequest w req ("github.com/".toList ++ owner ++ "/".toList ++ name)
            ("/changes/github.com/".toList ++ owner ++ "/".toList ++ name))
          (derivedURL u suffix)).Code = http.StatusForbidden →
      (githubChangesHandler shurcool users app req).run w =
        .ok (some (httperror.Redirect ("/login?return=".toList ++ url.QueryEscape req.RequestURI)),
          afterServe app (afterResolve users req.ctx w)
            (changesRequest w req ("github.com/".toList ++ owner ++ "/".toList ++ name)
            ("/changes/github.com/".toList ++ owner ++ "/".toList ++ name))
            (derivedURL u suffix))) := by
  refine ⟨?_, ?_, ?_, ?_⟩
  · intro repo suffix hp hs hcode
    rw [issuesHandler_served repo app req w u suffix none hu hp hs hsess]
    rw [if_pos ⟨hcode, rfl⟩]
  · intro owner name suffix hp ho hn hos hns hsuf hs hcode
    rw [githubIssuesHandler_served app req w u owner name suffix none hu hp ho hn hos hns hsuf hs hsess]
    rw [if_pos ⟨hcode, rfl⟩]
  · intro h suffix hp hs hcode
    rw [changesHandler_served h req w u suffix none hu hp hs hsess]
    rw [if_pos ⟨hcode, rfl⟩]
  · intro owner name suffix hp ho hn hos hns hsuf hs he hc hcode
    rw [githubChangesHandler_served shurcool users app req w u owner name suffix none hu hp ho hn hos hns hsuf hs hsess he hc]
    rw [if_pos ⟨hcode, rfl⟩]

/-- An instance of C5: an anonymous caller asks for `/kebabcase/issues/3?x=1 y`
and the issues sub-application answers 403. -/
theorem C5_forbidden_without_session_goes_to_login_witness :
    (issuesHandler
        { SpecURL := "dmitri.shuralyov.com/kebabcase".toList,
          BaseURL := "/kebabcase/issues".toList }
        (sampleApp 403 "403 Forbidden".toList)
        (sampleRequest "/kebabcase/issues/3?x=1 y".toList noSession)).run
        (sampleWorld "/kebabcase/issues/3".toList "x=1 y".toList) =
      .ok (some (httperror.Redirect
          ("/login?return=".toList ++ url.QueryEscape "/kebabcase/issues/3?x=1 y".toList)),
        afterServe (sampleApp 403 "403 Forbidden".toList)
          (sampleWorld "/kebabcase/issues/3".toList "x=1 y".toList)
          (issuesRequest (sampleWorld "/kebabcase/issues/3".toList "x=1 y".toList)
            (sampleRequest "/kebabcase/issues/3?x=1 y".toList noSession)
            "dmitri.shuralyov.com/kebabcase".toList "/kebabcase/issues".toList)
          (derivedURL { Path := "/kebabcase/issues/3".toList, RawQuery := "x=1 y".toList }
            "/3".toList)) :=
  (C5_forbidden_without_session_goes_to_login sampleShurcool (sampleUsers sampleAnonymous none)
    (sampleApp 403 "403 Forbidden".toList)
    (sampleRequest "/kebabcase/issues/3?x=1 y".toList noSession)
    (sampleWorld "/kebabcase/issues/3".toList "x=1 y".toList)
    { Path := "/kebabcase/issues/3".toList, RawQuery := "x=1 y".toList } (by decide)
    (by decide)).1
    { SpecURL := "dmitri.shuralyov.com/kebabcase".toList, BaseURL := "/kebabcase/issues".toList }
    "/3".toList (by decide) (by decide) (by decide)

/-- Claim C6. For each of the four mount handlers of `issues.go` and `changes.go`,
every request that reaches the sub-application and every response of the
sub-application into the recorder: unless the recorded status is 403 and the
session is nil, the world the handler leaves is `afterReplay`: after the call of
the sub-application the real response received one `WriteHeader` with the recorded
status and, when the recorded body holds bytes, one `Write` with exactly these
bytes, and nothing else.  In particular a recorded 403 with a session present is
replayed as 403 with the recorded body.  The handler returns what the connection
answered to the `Write`. -/
theorem C6_recorded_response_is_replayed (shurcool : Principal)
    (users : users.Service σ) (app : http.Handler σ) (req : http.Request) (w : World σ)
    (u : url.URL) (s : Option Nat) (hu : w.urls[req.URL]? = some u)
    (hsess : req.ctx.Value .sessionContextKey = some (.session s)) :
    (∀ (repo : Repo) (suffix : GoString), u.Path = repo.BaseURL ++ suffix →
      suffix ≠ "/".toList →
      ¬ ((recordedBy app w
          (issuesRequest w req repo.SpecURL repo.BaseURL)
          (derivedURL u suffix)).Code = http.StatusForbidden ∧ s = none) →
      (issuesHandler repo app req).run w =
        .ok (replayError app w
            (issuesRequest w req repo.SpecURL repo.BaseURL)
            (derivedURL u suffix),
          afterReplay app w
            (issuesRequest w req repo.SpecURL repo.BaseURL)
            (derivedURL u suffix))) ∧
    (∀ owner name suffix : GoString,
      u.Path = "/issues/github.com/".toList ++ owner ++ "/".toList ++ name ++ suffix →
      owner ≠ [] → name ≠ [] → '/' ∉ owner → '/' ∉ name →
      (suffix = [] ∨ ∃ rest, suffix = '/' :: rest) → suffix ≠ "/".toList →
      ¬ ((recordedBy app w
          (issuesRequest w req ("github.com/".toList ++ owner ++ "/".toList ++ name)
            ("/issues/github.com/".toList ++ owner ++ "/".toList ++ name))
          (derivedURL u suffix)).Code = http.StatusForbidden ∧ s = none) →
      (githubIssuesHandler app req).run w =
        .ok (replayError app w
            (issuesRequest w req ("github.com/".toList ++ owner ++ "/".toList ++ name)
            ("/issues/github.com/".toList ++ owner ++ "/".toList ++ name))
            (derivedURL u suffix),
          afterReplay app w
            (issuesRequest w req ("github.com/".toList ++ owner ++ "/".toList ++ name)
            ("/issues/github.com/".toList ++ owner ++ "/".toList ++ name))
            (derivedURL u suffix))) ∧
    (∀ (h : changesHandler σ) (suffix : GoString), u.Path = h.BaseURL ++ suffix →
      suffix ≠ "/".toList →
      ¬ ((recordedBy h.changesApp w
          (changesRequest w req h.SpecURL h.BaseURL)
          (derivedURL u suffix)).Code = http.StatusForbidden ∧ s = none) →
      (h.ServeHTTP req).run w =
        .ok (replayError h.changesApp w
            (changesRequest w req h.SpecURL h.BaseURL)
            (derivedURL u suffix),
          afterReplay h.changesApp w
            (changesRequest w req h.SpecURL h.BaseURL)
            (derivedURL u suffix))) ∧
    (∀ owner name suffix : GoString,
      u.Path = "/changes/github.com/".toList ++ owner ++ "/".toList ++ name ++ suffix →
      owner ≠ [] → name ≠ [] → '/' ∉ owner → '/' ∉ name →
      (suffix = [] ∨ ∃ rest, suffix = '/' :: rest) → suffix ≠ "/".toList →
      (users.GetAuthenticatedSpec req.ctx w.state).1.2 = none →
      (users.GetAuthenticatedSpec req.ctx w.state).1.1 = shurcool →
      ¬ ((recordedBy app (afterResolve users req.ctx w)
          (changesRequest w req ("github.com/".toList ++ owner ++ "/".toList ++ name)
            ("/changes/github.com/".toList ++ owner ++ "/".toList ++ name))
          (derivedURL u suffix)).Code = http.StatusForbidden ∧ s = none) →
      (githubChangesHandler shurcool users app req).run w =
        .ok (replayError app (afterResolve users req.ctx w)
            (changesRequest w req ("github.com/".toList ++ owner ++ "/".toList ++ name)
            ("/changes/github.com/".toList ++ owner ++ "/".toList ++ name))
            (derivedURL u suffix),
          afterReplay app (afterResolve users req.ctx w)
            (changesRequest w req ("github.com/".toList ++ owner ++ "/".toList ++ name)
            ("/changes/github.com/".toList ++ owner ++ "/".toList ++ name))
            (derivedURL u suffix))) := by
  refine ⟨?_, ?_, ?_, ?_⟩
  · intro repo suffix hp hs hcode
    rw [issuesHandler_served repo app req w u suffix s hu hp hs hsess]
    rw [if_neg hcode]
  · intro owner name suffix hp ho hn hos hns hsuf hs hcode
    rw [githubIssuesHandler_served app req w u owner name suffix s hu hp ho hn hos hns hsuf hs hsess]
    rw [if_neg hcode]
  · intro h suffix hp hs hcode
    rw [changesHandler_served h req w u suffix s hu hp hs hsess]
    rw [if_neg hcode]
  · intro owner name suffix hp ho hn hos hns hsuf hs he hc hcode
    rw [githubChangesHandler_served shurcool users app req w u owner name suffix s hu hp ho hn hos hns hsuf hs hsess he hc]
    rw [if_neg hcode]

/-- An instance of C6: a caller with a session asks for `/kebabcase/issues/3` and
the issues sub-application answers 403. -/
theorem C6_recorded_response_is_replayed_witness :
    (issuesHandler
        { SpecURL := "dmitri.shuralyov.com/kebabcase".toList,
          BaseURL := "/kebabcase/issues".toList }
        (sampleApp 403 "403 Forbidden".toList)
        (sampleRequest "/kebabcase/issues/3".toList
          [(.sessionContextKey, .session (some 1))])).run
        (sampleWorld "/kebabcase/issues/3".toList []) =
      .ok (none,
        { state := 1,
          urls := [{ Path := "/kebabcase/issues/3".toList, RawQuery := [] },
            { Path := "/3".toList, RawQuery := [] }],
          header := [],
          connErr := none,
          log :=
            [.NewRecorder,
              .ServeHTTP true
                { URL := 1, RequestURI := "/kebabcase/issues/3".toList,
                  ctx :=
                    [(.issuesappBaseURIContextKey, .string "/kebabcase/issues".toList),
                      (.issuesappRepoSpecContextKey,
                        .RepoSpec { URI := "dmitri.shuralyov.com/kebabcase".toList }),
                      (.sessionContextKey, .session (some 1))] }
                { Path := "/3".toList, RawQuery := [] },
              .WriteHeader 403,
              .Write "403 Forbidden".toList] }) :=
  (C6_recorded_response_is_replayed sampleShurcool (sampleUsers sampleAnonymous none)
    (sampleApp 403 "403 Forbidden".toList)
    (sampleRequest "/kebabcase/issues/3".toList [(.sessionContextKey, .session (some 1))])
    (sampleWorld "/kebabcase/issues/3".toList [])
    { Path := "/kebabcase/issues/3".toList, RawQuery := [] } (some 1) (by decide)
    (by decide)).1
    { SpecURL := "dmitri.shuralyov.com/kebabcase".toList, BaseURL := "/kebabcase/issues".toList }
    "/3".toList (by decide) (by decide) (by decide)

/-- Handler `blogHandler` hands its sub-application the original request: the URL
that the request points to holds the derived path afterwards, and the context has
gained the user only. -/
theorem blogHandler_in_place (getUser : http.Request → σ → (Option Nat × Option Error) × σ)
    (app : http.Handler σ) (req : http.Request) (w : World σ) (u : url.URL)
    (suffix : GoString)
    (hu : w.urls[req.URL]? = some u) (hp : u.Path = "/blog".toList ++ suffix)
    (hs : suffix ≠ "/".toList) :
    (blogHandler getUser app req).run w = .ok ((), blogServed getUser app req w u suffix) ∧
      Action.ServeHTTP false
          { req with ctx := (.userContextKey, .user (getUser req w.state).1.1) :: req.ctx }
          (derivedURL u suffix) ∈ (blogServed getUser app req w u suffix).log ∧
      (blogServed getUser app req w u suffix).urls[req.URL]? = some (derivedURL u suffix) ∧
      (∀ key : ContextKey, key ≠ .userContextKey →
        context.Context.Value
            ((.userContextKey, .user (getUser req w.state).1.1) :: req.ctx) key =
          req.ctx.Value key) := by
  have hlt : req.URL < w.urls.length := by
    by_contra hc
    rw [List.getElem?_eq_none (Nat.le_of_not_lt hc)] at hu
    exact Option.noConfusion hu
  refine ⟨blogHandler_served getUser app req w u suffix hu hp hs, ?_, ?_, ?_⟩
  · simp [blogServed]
  · simp [blogServed, hlt]
  · intro key hk
    exact Value_cons_ne req.ctx _ key _ hk

/-- Claim C7 as stated fails. The blog mount serves a request for `/blog/3`: the
sub-application is called with the original request (URL at address 0, no copy is
made), the path of that URL has been overwritten with `/3`, so the original path
`/blog/3` is gone from the heap, and the context carries the user only, neither a
repository nor a base URI. -/
theorem C7_blog_rewrites_the_original_url :
    (blogHandler sampleGetUser (sampleApp 200 "ok".toList)
        (sampleRequest "/blog/3".toList [])).run (sampleWorld "/blog/3".toList []) =
      .ok ((),
        { state := 1,
          urls := [{ Path := "/3".toList, RawQuery := [] }],
          header := [],
          connErr := none,
          log :=
            [.getUser (sampleRequest "/blog/3".toList []),
              .ServeHTTP false
                { URL := 0, RequestURI := "/blog/3".toList,
                  ctx := [(.userContextKey, .user none)] }
                { Path := "/3".toList, RawQuery := [] },
              .WriteHeader 200,
              .Write "ok".toList] }) ∧
    context.Context.Value [(.userContextKey, .user none)] .issuesappRepoSpecContextKey = none ∧
    context.Context.Value [(.userContextKey, .user none)] .issuesappBaseURIContextKey = none := by
  refine ⟨rfl, ?_, ?_⟩ <;> decide

/-- Claim C7, as amended. For each of the four mount handlers of `issues.go` and
`changes.go` and every request that is not redirected and whose path is the mount's
base URL followed by `suffix`: the sub-application is called once, right after the
recorder is created (what follows in the log are writes to the real response only),
with a request whose URL has the path `suffix`, or `/` when `suffix` is
empty, and the query of the original URL, and whose context carries the
repository of the mount under the `RepoSpecContextKey` of the sub-application and
the base URL of the mount under its `BaseURIContextKey`; that request keeps the
`RequestURI` of the original one.  The URL the original request points to is the
same after the handler as before.  The blog mount is the exception: `blogHandler`
calls its sub-application with the original request, whose URL now holds the path
`suffix`, or `/` when `suffix` is empty (the original path is overwritten in
place), and whose context has gained the user and nothing else (every other key
reads as in the original context, so no repository and no base URI is added). -/
theorem C7_derived_request (shurcool : Principal)
    (users : users.Service σ)
    (getUser : http.Request → σ → (Option Nat × Option Error) × σ) (app : http.Handler σ)
    (req : http.Request) (w : World σ)
    (u : url.URL) (s : Option Nat) (hu : w.urls[req.URL]? = some u)
    (hsess : req.ctx.Value .sessionContextKey = some (.session s)) :
    (∀ (w0 : World σ) (specURL baseURL : GoString),
      (issuesRequest w0 req specURL baseURL).ctx.Value .issuesappRepoSpecContextKey =
          some (.RepoSpec { URI := specURL }) ∧
        (issuesRequest w0 req specURL baseURL).ctx.Value .issuesappBaseURIContextKey =
          some (.string baseURL) ∧
        (issuesRequest w0 req specURL baseURL).RequestURI = req.RequestURI) ∧
    (∀ (w0 : World σ) (specURL baseURL : GoString),
      (changesRequest w0 req specURL baseURL).ctx.Value .changesRepoSpecContextKey =
          some (.string specURL) ∧
        (changesRequest w0 req specURL baseURL).ctx.Value .changesBaseURIContextKey =
          some (.string baseURL) ∧
        (changesRequest w0 req specURL baseURL).RequestURI = req.RequestURI) ∧
    (∀ suffix : GoString,
      (derivedURL u suffix).Path = (if suffix = [] then "/".toList else suffix) ∧
        (derivedURL u suffix).RawQuery = u.RawQuery) ∧
    (∀ (repo : Repo) (suffix : GoString), u.Path = repo.BaseURL ++ suffix →
      suffix ≠ "/".toList →
      ∃ r w1 tl, (issuesHandler repo app req).run w = .ok (r, w1) ∧
        w1.log = w.log ++ .NewRecorder ::
          .ServeHTTP true
            (issuesRequest w req repo.SpecURL repo.BaseURL)
            (derivedURL u suffix) :: tl ∧
        (∀ a ∈ tl, (∃ code, a = .WriteHeader code) ∨ ∃ p, a = .Write p) ∧
        w1.urls[req.URL]? = some u) ∧
    (∀ owner name suffix : GoString,
      u.Path = "/issues/github.com/".toList ++ owner ++ "/".toList ++ name ++ suffix →
      owner ≠ [] → name ≠ [] → '/' ∉ owner → '/' ∉ name →
      (suffix = [] ∨ ∃ rest, suffix = '/' :: rest) → suffix ≠ "/".toList →
      ∃ r w1 tl, (githubIssuesHandler app req).run w = .ok (r, w1) ∧
        w1.log = w.log ++ .NewRecorder ::
          .ServeHTTP true
            (issuesRequest w req ("github.com/".toList ++ owner ++ "/".toList ++ name)
            ("/issues/github.com/".toList ++ owner ++ "/".toList ++ name))
            (derivedURL u suffix) :: tl ∧
        (∀ a ∈ tl, (∃ code, a = .WriteHeader code) ∨ ∃ p, a = .Write p) ∧
        w1.urls[req.URL]? = some u) ∧
    (∀ (h : changesHandler σ) (suffix : GoString), u.Path = h.BaseURL ++ suffix →
      suffix ≠ "/".toList →
      ∃ r w1 tl, (h.ServeHTTP req).run w = .ok (r, w1) ∧
        w1.log = w.log ++ .NewRecorder ::
          .ServeHTTP true
            (changesRequest w req h.SpecURL h.BaseURL)
            (derivedURL u suffix) :: tl ∧
        (∀ a ∈ tl, (∃ code, a = .WriteHeader code) ∨ ∃ p, a = .Write p) ∧
        w1.urls[req.URL]? = some u) ∧
    (∀ owner name suffix : GoString,
      u.Path = "/changes/github.com/".toList ++ owner ++ "/".toList ++ name ++ suffix →
      owner ≠ [] → name ≠ [] → '/' ∉ owner → '/' ∉ name →
      (suffix = [] ∨ ∃ rest, suffix = '/' :: rest) → suffix ≠ "/".toList →
      (users.GetAuthenticatedSpec req.ctx w.state).1.2 = none →
      (users.GetAuthenticatedSpec req.ctx w.state).1.1 = shurcool →
      ∃ r w1 tl, (githubChangesHandler shurcool users app req).run w = .ok (r, w1) ∧
        w1.log = w.log ++ .GetAuthenticatedSpec req.ctx :: .NewRecorder ::
          .ServeHTTP true
            (changesRequest w req ("github.com/".toList ++ owner ++ "/".toList ++ name)
            ("/changes/github.com/".toList ++ owner ++ "/".toList ++ name))
            (derivedURL u suffix) :: tl ∧
        (∀ a ∈ tl, (∃ code, a = .WriteHeader code) ∨ ∃ p, a = .Write p) ∧
        w1.urls[req.URL]? = some u) ∧
    (∀ suffix : GoString, u.Path = "/blog".toList ++ suffix → suffix ≠ "/".toList →
      (blogHandler getUser app req).run w = .ok ((), blogServed getUser app req w u suffix) ∧
        Action.ServeHTTP false
            { req with ctx := (.userContextKey, .user (getUser req w.state).1.1) :: req.ctx }
            (derivedURL u suffix) ∈ (blogServed getUser app req w u suffix).log ∧
        (blogServed getUser app req w u suffix).urls[req.URL]? = some (derivedURL u suffix) ∧
        (∀ key : ContextKey, key ≠ .userContextKey →
          context.Context.Value
              ((.userContextKey, .user (getUser req w.state).1.1) :: req.ctx) key =
            req.ctx.Value key)) := by
  refine ⟨?_, ?_, ?_, ?_, ?_, ?_, ?_, ?_⟩
  · intro w0 specURL baseURL
    exact ⟨rfl, rfl, rfl⟩
  · intro w0 specURL baseURL
    exact ⟨rfl, rfl, rfl⟩
  · intro suffix
    exact ⟨rfl, rfl⟩
  · intro repo suffix hp hs
    have hrun := issuesHandler_served repo app req w u suffix s hu hp hs hsess
    split_ifs at hrun
    · obtain ⟨⟨tl, hl, htl⟩, hurl⟩ := served_facts app w req _ u _ hu _ (Or.inl rfl)
      exact ⟨_, _, tl, hrun, hl, htl, hurl⟩
    · obtain ⟨⟨tl, hl, htl⟩, hurl⟩ := served_facts app w req _ u _ hu _ (Or.inr rfl)
      exact ⟨_, _, tl, hrun, hl, htl, hurl⟩
  · intro owner name suffix hp ho hn hos hns hsuf hs
    have hrun := githubIssuesHandler_served app req w u owner name suffix s hu hp ho hn hos hns hsuf hs hsess
    split_ifs at hrun
    · obtain ⟨⟨tl, hl, htl⟩, hurl⟩ := served_facts app w req _ u _ hu _ (Or.inl rfl)
      exact ⟨_, _, tl, hrun, hl, htl, hurl⟩
    · obtain ⟨⟨tl, hl, htl⟩, hurl⟩ := served_facts app w req _ u _ hu _ (Or.inr rfl)
      exact ⟨_, _, tl, hrun, hl, htl, hurl⟩
  · intro h suffix hp hs
    have hrun := changesHandler_served h req w u suffix s hu hp hs hsess
    split_ifs at hrun
    · obtain ⟨⟨tl, hl, htl⟩, hurl⟩ := served_facts h.changesApp w req _ u _ hu _ (Or.inl rfl)
      exact ⟨_, _, tl, hrun, hl, htl, hurl⟩
    · obtain ⟨⟨tl, hl, htl⟩, hurl⟩ := served_facts h.changesApp w req _ u _ hu _ (Or.inr rfl)
      exact ⟨_, _, tl, hrun, hl, htl, hurl⟩
  · intro owner name suffix hp ho hn hos hns hsuf hs he hc
    have hrun := githubChangesHandler_served shurcool users app req w u owner name suffix s hu hp ho hn hos hns hsuf hs hsess he hc
    have hu1 : (afterResolve users req.ctx w).urls[req.URL]? = some u := hu
    have hlog : ∀ tl : List Action, (afterResolve users req.ctx w).log ++ tl =
        w.log ++ .GetAuthenticatedSpec req.ctx :: tl := by
      intro tl
      simp only [afterResolve, List.append_assoc, List.singleton_append]
    split_ifs at hrun
    · obtain ⟨⟨tl, hl, htl⟩, hurl⟩ :=
        served_facts app (afterResolve users req.ctx w) req _ u _ hu1 _ (Or.inl rfl)
      exact ⟨_, _, tl, hrun, by rw [hl, hlog], htl, hurl⟩
    · obtain ⟨⟨tl, hl, htl⟩, hurl⟩ :=
        served_facts app (afterResolve users req.ctx w) req _ u _ hu1 _ (Or.inr rfl)
      exact ⟨_, _, tl, hrun, by rw [hl, hlog], htl, hurl⟩
  · intro suffix hp hs
    exact blogHandler_in_place getUser app req w u suffix hu hp hs

/-- An instance of C7: `shurcool` asks for `/changes/github.com/foo/bar/12`. -/
theorem C7_derived_request_witness :
    ∃ r w1 tl,
      (githubChangesHandler sampleShurcool (sampleUsers sampleShurcool none)
          (sampleApp 200 "ok".toList)
          (sampleRequest "/changes/github.com/foo/bar/12".toList noSession)).run
          (sampleWorld "/changes/github.com/foo/bar/12".toList []) = .ok (r, w1) ∧
        w1.log = (sampleWorld "/changes/github.com/foo/bar/12".toList []).log ++
          .GetAuthenticatedSpec
              (sampleRequest "/changes/github.com/foo/bar/12".toList noSession).ctx ::
            .NewRecorder ::
            .ServeHTTP true
              (changesRequest (sampleWorld "/changes/github.com/foo/bar/12".toList [])
                (sampleRequest "/changes/github.com/foo/bar/12".toList noSession)
                ("github.com/".toList ++ "foo".toList ++ "/".toList ++ "bar".toList)
                ("/changes/github.com/".toList ++ "foo".toList ++ "/".toList ++ "bar".toList))
              (derivedURL { Path := "/changes/github.com/foo/bar/12".toList, RawQuery := [] }
                "/12".toList) :: tl ∧
        (∀ a ∈ tl, (∃ code, a = .WriteHeader code) ∨ ∃ p, a = .Write p) ∧
        (w1.urls[(sampleRequest "/changes/github.com/foo/bar/12".toList noSession).URL]? =
          some { Path := "/changes/github.com/foo/bar/12".toList, RawQuery := [] }) :=
  (C7_derived_request sampleShurcool (sampleUsers sampleShurcool none) sampleGetUser
    (sampleApp 200 "ok".toList)
    (sampleRequest "/changes/github.com/foo/bar/12".toList noSession)
    (sampleWorld "/changes/github.com/foo/bar/12".toList [])
    { Path := "/changes/github.com/foo/bar/12".toList, RawQuery := [] } none (by decide)
    (by decide)).2.2.2.2.2.2.1
    "foo".toList "bar".toList "/12".toList (by decide) (by decide) (by decide) (by decide)
    (by decide) (Or.inr ⟨"12".toList, by decide⟩) (by decide) (by decide) (by decide)

end recorderclaims

section notfound

variable {σ : Type}

/-- Handler `issuesHandler` past the root redirect, when the context holds no `*session`
under `sessionContextKey`: the type assertion panics. -/
theorem issuesHandler_noSession (repo : Repo) (app : http.Handler σ) (req : http.Request)
    (w : World σ) (u : url.URL) (suffix : GoString)
    (hu : w.urls[req.URL]? = some u) (hp : u.Path = repo.BaseURL ++ suffix)
    (hs : suffix ≠ "/".toList)
    (hsess : ∀ s, req.ctx.Value .sessionContextKey ≠ some (.session s)) :
    (issuesHandler repo app req).run w = .error .typeAssertion := by
  have hs1 : suffix ≠ ['/'] := hs
  unfold issuesHandler
  by_cases h0 : suffix = []
  all_goals
    simp [hu, hp, hs1, h0, set_length_concat, http.Request.WithContext, http.Request.Context,
      context.WithValue, Value_cons_ne, hsess]

/-- Handler `changesHandler.ServeHTTP` past the root redirect, when the context holds no
`*session` under `sessionContextKey`: the type assertion panics. -/
theorem changesHandler_noSession (h : changesHandler σ) (req : http.Request)
    (w : World σ) (u : url.URL) (suffix : GoString)
    (hu : w.urls[req.URL]? = some u) (hp : u.Path = h.BaseURL ++ suffix)
    (hs : suffix ≠ "/".toList)
    (hsess : ∀ s, req.ctx.Value .sessionContextKey ≠ some (.session s)) :
    (h.ServeHTTP req).run w = .error .typeAssertion := by
  have hs1 : suffix ≠ ['/'] := hs
  unfold changesHandler.ServeHTTP
  by_cases h0 : suffix = []
  all_goals
    simp [hu, hp, hs1, h0, set_length_concat, http.Request.WithContext, http.Request.Context,
      context.WithValue, Value_cons_ne, hsess]

/-- The context either holds a `*session` under `sessionContextKey` or not. -/
theorem session_cases (ctx : context.Context) :
    (∃ s, ctx.Value .sessionContextKey = some (.session s)) ∨
      ∀ s, ctx.Value .sessionContextKey ≠ some (.session s) := by
  by_cases h : ∃ s, ctx.Value .sessionContextKey = some (.session s)
  · exact Or.inl h
  · exact Or.inr fun s hs => h ⟨s, hs⟩

/-- What `issuesHandler` can return on a path under its base URL: nothing, a
redirect, or the error of the connection; and the log only grows. -/
theorem issuesHandler_outcome (repo : Repo) (app : http.Handler σ) (req : http.Request)
    (w : World σ) (u : url.URL) (suffix : GoString)
    (hu : w.urls[req.URL]? = some u) (hp : u.Path = repo.BaseURL ++ suffix)
    (r : Option Error) (w1 : World σ)
    (hrun : (issuesHandler repo app req).run w = .ok (r, w1)) :
    (r = none ∨ (∃ url, r = some (httperror.Redirect url)) ∨ ∃ m, r = some (Error.other m)) ∧
      ∃ tl, w1.log = w.log ++ tl := by
  by_cases hs : suffix = "/".toList
  · subst hs
    rw [issuesHandler_root repo app req w u hu hp] at hrun
    injection hrun with hrun
    injection hrun with hr hw
    exact ⟨Or.inr (Or.inl ⟨_, hr.symm⟩), [], by rw [← hw, List.append_nil]⟩
  · rcases session_cases req.ctx with ⟨s, hsess⟩ | hsess
    · rw [issuesHandler_served repo app req w u suffix s hu hp hs hsess] at hrun
      split_ifs at hrun
      · injection hrun with hrun
        injection hrun with hr hw
        obtain ⟨⟨tl, hl, -⟩, -⟩ := served_facts app w req _ u _ hu _ (Or.inl hw.symm)
        exact ⟨Or.inr (Or.inl ⟨_, hr.symm⟩), _, hl⟩
      · injection hrun with hrun
        injection hrun with hr hw
        obtain ⟨⟨tl, hl, -⟩, -⟩ := served_facts app w req _ u _ hu _ (Or.inr hw.symm)
        refine ⟨?_, _, hl⟩
        rw [← hr]
        unfold replayError
        split_ifs
        · cases w.connErr with
          | none => exact Or.inl rfl
          | some m => exact Or.inr (Or.inr ⟨m, rfl⟩)
        · exact Or.inl rfl
    · rw [issuesHandler_noSession repo app req w u suffix hu hp hs hsess] at hrun
      exact Except.noConfusion hrun

/-- What `changesHandler.ServeHTTP` can return on a path under its base URL:
nothing, a redirect, or the error of the connection; and the log only grows. -/
theorem changesHandler_outcome (h : changesHandler σ) (req : http.Request)
    (w : World σ) (u : url.URL) (suffix : GoString)
    (hu : w.urls[req.URL]? = some u) (hp : u.Path = h.BaseURL ++ suffix)
    (r : Option Error) (w1 : World σ)
    (hrun : (h.ServeHTTP req).run w = .ok (r, w1)) :
    (r = none ∨ (∃ url, r = some (httperror.Redirect url)) ∨ ∃ m, r = some (Error.other m)) ∧
      ∃ tl, w1.log = w.log ++ tl := by
  by_cases hs : suffix = "/".toList
  · subst hs
    rw [changesHandler_root h req w u hu hp] at hrun
    injection hrun with hrun
    injection hrun with hr hw
    exact ⟨Or.inr (Or.inl ⟨_, hr.symm⟩), [], by rw [← hw, List.append_nil]⟩
  · rcases session_cases req.ctx with ⟨s, hsess⟩ | hsess
    · rw [changesHandler_served h req w u suffix s hu hp hs hsess] at hrun
      split_ifs at hrun
      · injection hrun with hrun
        injection hrun with hr hw
        obtain ⟨⟨tl, hl, -⟩, -⟩ := served_facts h.changesApp w req _ u _ hu _ (Or.inl hw.symm)
        exact ⟨Or.inr (Or.inl ⟨_, hr.symm⟩), _, hl⟩
      · injection hrun with hrun
        injection hrun with hr hw
        obtain ⟨⟨tl, hl, -⟩, -⟩ := served_facts h.changesApp w req _ u _ hu _ (Or.inr hw.symm)
        refine ⟨?_, _, hl⟩
        rw [← hr]
        unfold replayError
        split_ifs
        · cases w.connErr with
          | none => exact Or.inl rfl
          | some m => exact Or.inr (Or.inr ⟨m, rfl⟩)
        · exact Or.inl rfl
    · rw [changesHandler_noSession h req w u suffix hu hp hs hsess] at hrun
      exact Except.noConfusion hrun

/-- A path that passes the owner/name check is `<owner>/<name><suffix>` with
non-empty, slash-free owner and name and a suffix that is empty or starts with a
slash. -/
theorem wellformed_cases (rest : GoString)
    (h : ¬ (len (strings.SplitN rest '/' 3) < 2 ∨ (strings.SplitN rest '/' 3)[0]? = some [] ∨
      (strings.SplitN rest '/' 3)[1]? = some [])) :
    ∃ owner name suffix, rest = owner ++ '/' :: (name ++ suffix) ∧ owner ≠ [] ∧ name ≠ [] ∧
      '/' ∉ owner ∧ '/' ∉ name ∧ (suffix = [] ∨ ∃ tail, suffix = '/' :: tail) := by
  rcases SplitN_cases rest with ⟨-, hsp⟩ | ⟨owner, name, hr, ho, hn, hsp⟩ |
      ⟨owner, name, tail, hr, ho, hn, hsp⟩
  · have hl : len (strings.SplitN rest '/' 3) < 2 := by rw [hsp]; exact Nat.lt_succ_self 1
    exact absurd (Or.inl hl) h
  · rw [hsp] at h
    refine ⟨owner, name, [], by rw [List.append_nil]; exact hr, ?_, ?_, ho, hn, Or.inl rfl⟩
    · intro he; exact h (Or.inr (Or.inl (by rw [he]; rfl)))
    · intro he; exact h (Or.inr (Or.inr (by rw [he]; rfl)))
  · rw [hsp] at h
    refine ⟨owner, name, '/' :: tail, hr, ?_, ?_, ho, hn, Or.inr ⟨tail, rfl⟩⟩
    · intro he; exact h (Or.inr (Or.inl (by rw [he]; rfl)))
    · intro he; exact h (Or.inr (Or.inr (by rw [he]; rfl)))

theorem log_ne_of_append {α : Type} (l : List α) (a : α) (tl : List α) :
    l ++ a :: tl ≠ l := by
  intro h
  have := congrArg List.length h
  simp at this

end notfound

section wildcardclaims

variable {σ : Type}

/-- Claim C8. For every request whose path starts with `/issues/github.com/`
(`githubIssuesHandler`) or `/changes/github.com/` (`githubChangesHandler`), with
`elems` the remainder of the path split on `/` into at most three pieces:
the handler returns `os.ErrNotExist` and leaves the world as it found it (nothing
is logged: no identity resolution, no recorder, no sub-application, no write) when
`elems` has fewer than two pieces or an empty first or second piece, and only then.
For `githubIssuesHandler`, `os.ErrNotExist` is returned in no other case at all.
For `githubChangesHandler` the same holds provided the identity resolver does not
itself fail with `os.ErrNotExist`, an error the handler would pass on after the
owner/name check. -/
theorem C8_owner_name_check (shurcool : Principal) (users : users.Service σ)
    (app : http.Handler σ) (req : http.Request) (w : World σ) (u : url.URL)
    (hu : w.urls[req.URL]? = some u) :
    (strings.HasPrefix u.Path "/issues/github.com/".toList = true →
      ((∃ w1, (githubIssuesHandler app req).run w = .ok (some os.ErrNotExist, w1)) ↔
        (len (strings.SplitN (u.Path.drop (len "/issues/github.com/".toList)) '/' 3) < 2 ∨
          (strings.SplitN (u.Path.drop (len "/issues/github.com/".toList)) '/' 3)[0]? =
            some [] ∨
          (strings.SplitN (u.Path.drop (len "/issues/github.com/".toList)) '/' 3)[1]? =
            some [])) ∧
      (∀ w1, (githubIssuesHandler app req).run w = .ok (some os.ErrNotExist, w1) → w1 = w)) ∧
    (strings.HasPrefix u.Path "/changes/github.com/".toList = true →
      ((githubChangesHandler shurcool users app req).run w = .ok (some os.ErrNotExist, w) ↔
        (len (strings.SplitN (u.Path.drop (len "/changes/github.com/".toList)) '/' 3) < 2 ∨
          (strings.SplitN (u.Path.drop (len "/changes/github.com/".toList)) '/' 3)[0]? =
            some [] ∨
          (strings.SplitN (u.Path.drop (len "/changes/github.com/".toList)) '/' 3)[1]? =
            some [])) ∧
      ((users.GetAuthenticatedSpec req.ctx w.state).1.2 ≠ some os.ErrNotExist →
        (((∃ w1, (githubChangesHandler shurcool users app req).run w =
            .ok (some os.ErrNotExist, w1)) ↔
          (len (strings.SplitN (u.Path.drop (len "/changes/github.com/".toList)) '/' 3) < 2 ∨
            (strings.SplitN (u.Path.drop (len "/changes/github.com/".toList)) '/' 3)[0]? =
              some [] ∨
            (strings.SplitN (u.Path.drop (len "/changes/github.com/".toList)) '/' 3)[1]? =
              some [])) ∧
        (∀ w1, (githubChangesHandler shurcool users app req).run w =
            .ok (some os.ErrNotExist, w1) → w1 = w)))) := by
  constructor
  · intro hpre
    obtain ⟨rest, hp⟩ := (HasPrefix_iff _ _).mp hpre
    have hdrop : u.Path.drop (len "/issues/github.com/".toList) = rest := by
      rw [hp]; exact List.drop_left _ _
    rw [hdrop]
    have key : ∀ w1, (githubIssuesHandler app req).run w = .ok (some os.ErrNotExist, w1) →
        (len (strings.SplitN rest '/' 3) < 2 ∨ (strings.SplitN rest '/' 3)[0]? = some [] ∨
          (strings.SplitN rest '/' 3)[1]? = some []) := by
      intro w1 hrun
      by_contra hm
      obtain ⟨owner, name, suffix, hr, ho, hn, hos, hns, hsuf⟩ := wellformed_cases rest hm
      rw [githubIssuesHandler_eq app req w u owner name suffix hu (by rw [hp, hr]) ho hn hos hns
        hsuf] at hrun
      have hout := (issuesHandler_outcome _ app req w u suffix hu
        (by simp only [issuesBase_eq]; rw [hp, hr, path_assoc]) _ _ hrun).1
      rcases hout with h | ⟨url, h⟩ | ⟨m, h⟩
      · exact Option.noConfusion h
      · injection h with h; exact Error.noConfusion h
      · injection h with h; exact Error.noConfusion h
    refine ⟨⟨fun ⟨w1, hrun⟩ => key w1 hrun, fun hm =>
      ⟨w, githubIssuesHandler_notExist app req w u rest hu hp hm⟩⟩, ?_⟩
    intro w1 hrun
    rw [githubIssuesHandler_notExist app req w u rest hu hp (key w1 hrun)] at hrun
    injection hrun with hrun
    injection hrun with _ hw
    exact hw.symm
  · intro hpre
    obtain ⟨rest, hp⟩ := (HasPrefix_iff _ _).mp hpre
    have hdrop : u.Path.drop (len "/changes/github.com/".toList) = rest := by
      rw [hp]; exact List.drop_left _ _
    rw [hdrop]
    have key : ∀ w1, (githubChangesHandler shurcool users app req).run w =
          .ok (some os.ErrNotExist, w1) →
        ¬ (len (strings.SplitN rest '/' 3) < 2 ∨ (strings.SplitN rest '/' 3)[0]? = some [] ∨
          (strings.SplitN rest '/' 3)[1]? = some []) →
        (users.GetAuthenticatedSpec req.ctx w.state).1.2 = some os.ErrNotExist ∧ w1 ≠ w := by
      intro w1 hrun hm
      obtain ⟨owner, name, suffix, hr, ho, hn, hos, hns, hsuf⟩ := wellformed_cases rest hm
      rw [githubChangesHandler_resolved shurcool users app req w u owner name suffix hu
        (by rw [hp, hr]) ho hn hos hns hsuf] at hrun
      have hne : ∀ tl, (afterResolve users req.ctx w).log ++ tl ≠ w.log := by
        intro tl
        simp only [afterResolve, List.append_assoc, List.singleton_append]
        exact log_ne_of_append _ _ _
      by_cases he : (users.GetAuthenticatedSpec req.ctx w.state).1.2 ≠ none
      · rw [if_pos he] at hrun
        injection hrun with hrun
        injection hrun with hr1 hw
        refine ⟨hr1, ?_⟩
        intro hw1
        rw [← hw] at hw1
        have := hne []
        rw [List.append_nil, hw1] at this
        exact this rfl
      · rw [if_neg he] at hrun
        by_cases hc : (users.GetAuthenticatedSpec req.ctx w.state).1.1 ≠ shurcool
        · rw [if_pos hc] at hrun
          injection hrun with hrun
          injection hrun with hr1 hw
          injection hr1 with hr1
          exact Error.noConfusion hr1
        · rw [if_neg hc] at hrun
          have hu1 : (afterResolve users req.ctx w).urls[req.URL]? = some u := hu
          obtain ⟨hout, tl, hl⟩ := changesHandler_outcome _ req (afterResolve users req.ctx w)
            u suffix hu1 (by simp only [changesBase_eq]; rw [hp, hr, path_assoc]) _ _ hrun
          rcases hout with h | ⟨url, h⟩ | ⟨m, h⟩
          · exact Option.noConfusion h
          · injection h with h; exact Error.noConfusion h
          · injection h with h; exact Error.noConfusion h
    refine ⟨⟨fun hrun => ?_, fun hm =>
      githubChangesHandler_notExist shurcool users app req w u rest hu hp hm⟩, ?_⟩
    · by_contra hm
      exact (key w hrun hm).2 rfl
    · intro hres
      have key2 : ∀ w1, (githubChangesHandler shurcool users app req).run w =
            .ok (some os.ErrNotExist, w1) →
          (len (strings.SplitN rest '/' 3) < 2 ∨ (strings.SplitN rest '/' 3)[0]? = some [] ∨
            (strings.SplitN rest '/' 3)[1]? = some []) := by
        intro w1 hrun
        by_contra hm
        exact hres (key w1 hrun hm).1
      refine ⟨⟨fun ⟨w1, hrun⟩ => key2 w1 hrun, fun hm =>
        ⟨w, githubChangesHandler_notExist shurcool users app req w u rest hu hp hm⟩⟩, ?_⟩
      intro w1 hrun
      rw [githubChangesHandler_notExist shurcool users app req w u rest hu hp (key2 w1 hrun)]
        at hrun
      injection hrun with hrun
      injection hrun with _ hw
      exact hw.symm

/-- An instance of C8: `/issues/github.com/foo/` has an empty name and is answered
with `os.ErrNotExist`; so is `/changes/github.com/foo`, which has one piece only. -/
theorem C8_owner_name_check_witness :
    (githubIssuesHandler (sampleApp 200 "ok".toList)
        (sampleRequest "/issues/github.com/foo/".toList noSession)).run
        (sampleWorld "/issues/github.com/foo/".toList []) =
      .ok (some os.ErrNotExist, sampleWorld "/issues/github.com/foo/".toList []) ∧
    (githubChangesHandler sampleShurcool (sampleUsers sampleAnonymous none)
        (sampleApp 200 "ok".toList)
        (sampleRequest "/changes/github.com/foo".toList noSession)).run
        (sampleWorld "/changes/github.com/foo".toList []) =
      .ok (some os.ErrNotExist, sampleWorld "/changes/github.com/foo".toList []) :=
  ⟨(((C8_owner_name_check sampleShurcool (sampleUsers sampleAnonymous none)
      (sampleApp 200 "ok".toList) (sampleRequest "/issues/github.com/foo/".toList noSession)
      (sampleWorld "/issues/github.com/foo/".toList [])
      { Path := "/issues/github.com/foo/".toList, RawQuery := [] } (by decide)).1
      (by decide)).1.mpr (by decide)).elim fun w1 h =>
      ((C8_owner_name_check sampleShurcool (sampleUsers sampleAnonymous none)
        (sampleApp 200 "ok".toList) (sampleRequest "/issues/github.com/foo/".toList noSession)
        (sampleWorld "/issues/github.com/foo/".toList [])
        { Path := "/issues/github.com/foo/".toList, RawQuery := [] } (by decide)).1
        (by decide)).2 w1 h ▸ h,
   ((C8_owner_name_check sampleShurcool (sampleUsers sampleAnonymous none)
      (sampleApp 200 "ok".toList) (sampleRequest "/changes/github.com/foo".toList noSession)
      (sampleWorld "/changes/github.com/foo".toList [])
      { Path := "/changes/github.com/foo".toList, RawQuery := [] } (by decide)).2
      (by decide)).1.mpr (by decide)⟩

/-- Claim C9. In `githubChangesHandler`, for every path
`/changes/github.com/<owner>/<name>` or `/changes/github.com/<owner>/<name>/<rest>`
with non-empty owner and name, and every call in which the identity resolver
succeeds with an identity other than `shurcool`: the handler returns a redirect to
`https://github.com/<owner>/<name>/pulls` when nothing follows the name, and to
`https://github.com/<owner>/<name>/pull/<rest>` when `/<rest>` follows it.  The
world it leaves is the one in which the resolver has been asked once and nothing
else has happened: no recorder was created and the sub-application was not
invoked. -/
theorem C9_others_are_sent_to_github (shurcool : Principal) (users : users.Service σ)
    (app : http.Handler σ) (req : http.Request) (w : World σ) (u : url.URL)
    (owner name : GoString) (hu : w.urls[req.URL]? = some u)
    (ho : owner ≠ []) (hn : name ≠ []) (hos : '/' ∉ owner) (hns : '/' ∉ name)
    (he : (users.GetAuthenticatedSpec req.ctx w.state).1.2 = none)
    (hc : (users.GetAuthenticatedSpec req.ctx w.state).1.1 ≠ shurcool) :
    (u.Path = "/changes/github.com/".toList ++ owner ++ "/".toList ++ name →
      (githubChangesHandler shurcool users app req).run w =
        .ok (some (httperror.Redirect
            ("https://github.com/".toList ++ owner ++ "/".toList ++ name ++ "/pulls".toList)),
          afterResolve users req.ctx w)) ∧
    (∀ rest : GoString,
      u.Path = "/changes/github.com/".toList ++ owner ++ "/".toList ++ name ++ "/".toList ++
        rest →
      (githubChangesHandler shurcool users app req).run w =
        .ok (some (httperror.Redirect
            ("https://github.com/".toList ++ owner ++ "/".toList ++ name ++ "/pull/".toList ++
              rest)),
          afterResolve users req.ctx w)) := by
  have he1 : ¬ ((users.GetAuthenticatedSpec req.ctx w.state).1.2 ≠ none) := fun h => h he
  constructor
  · intro hp
    have hp1 : u.Path = "/changes/github.com/".toList ++ (owner ++ '/' :: (name ++ [])) := by
      rw [hp]; simp
    rw [githubChangesHandler_resolved shurcool users app req w u owner name [] hu hp1 ho hn hos
      hns (Or.inl rfl), if_neg he1, if_pos hc]
    simp
  · intro rest hp
    have hp1 : u.Path =
        "/changes/github.com/".toList ++ (owner ++ '/' :: (name ++ '/' :: rest)) := by
      rw [hp]; simp
    rw [githubChangesHandler_resolved shurcool users app req w u owner name ('/' :: rest) hu hp1
      ho hn hos hns (Or.inr ⟨rest, rfl⟩), if_neg he1, if_pos hc]
    simp

/-- An instance of C9: a visitor asks for `/changes/github.com/foo/bar/12`. -/
theorem C9_others_are_sent_to_github_witness :
    (githubChangesHandler sampleShurcool (sampleUsers sampleVisitor none)
        (sampleApp 200 "ok".toList)
        (sampleRequest "/changes/github.com/foo/bar/12".toList noSession)).run
        (sampleWorld "/changes/github.com/foo/bar/12".toList []) =
      .ok (some (httperror.Redirect
          ("https://github.com/".toList ++ "foo".toList ++ "/".toList ++ "bar".toList ++
            "/pull/".toList ++ "12".toList)),
        afterResolve (sampleUsers sampleVisitor none)
          (sampleRequest "/changes/github.com/foo/bar/12".toList noSession).ctx
          (sampleWorld "/changes/github.com/foo/bar/12".toList [])) :=
  (C9_others_are_sent_to_github sampleShurcool (sampleUsers sampleVisitor none)
    (sampleApp 200 "ok".toList)
    (sampleRequest "/changes/github.com/foo/bar/12".toList noSession)
    (sampleWorld "/changes/github.com/foo/bar/12".toList [])
    { Path := "/changes/github.com/foo/bar/12".toList, RawQuery := [] }
    "foo".toList "bar".toList (by decide) (by decide) (by decide) (by decide) (by decide)
    (by decide) (by decide)).2 "12".toList (by decide)

end wildcardclaims

section issuesanonymous

variable {σ : Type}

/-- Claim C10, as amended. For every non-empty owner and name, a request with path
`/issues/github.com/<owner>/<name>` from a caller without a session, handled by
`githubIssuesHandler`, is handed to the issues sub-application (repository
`github.com/<owner>/<name>`, path `/`).  When the sub-application records 403, the
handler returns a redirect to `/login?return=` followed by the query-escaped
`RequestURI`; otherwise it replays the recorded response.  Whatever the
sub-application and the world, the handler does not return a redirect to
`https://github.com/<owner>/<name>/issues`. -/
theorem C10_anonymous_issues_request (app : http.Handler σ) (req : http.Request)
    (w : World σ) (u : url.URL) (owner name : GoString)
    (hu : w.urls[req.URL]? = some u)
    (hp : u.Path = "/issues/github.com/".toList ++ owner ++ "/".toList ++ name)
    (ho : owner ≠ []) (hn : name ≠ []) (hos : '/' ∉ owner) (hns : '/' ∉ name)
    (hsess : req.ctx.Value .sessionContextKey = some (.session none)) :
    ((recordedBy app w
        (issuesRequest w req ("github.com/".toList ++ owner ++ "/".toList ++ name)
          ("/issues/github.com/".toList ++ owner ++ "/".toList ++ name))
        { Path := "/".toList, RawQuery := u.RawQuery }).Code = http.StatusForbidden →
      (githubIssuesHandler app req).run w =
        .ok (some (httperror.Redirect
            ("/login?return=".toList ++ url.QueryEscape req.RequestURI)),
          afterServe app w
            (issuesRequest w req ("github.com/".toList ++ owner ++ "/".toList ++ name)
              ("/issues/github.com/".toList ++ owner ++ "/".toList ++ name))
            { Path := "/".toList, RawQuery := u.RawQuery })) ∧
    ((recordedBy app w
        (issuesRequest w req ("github.com/".toList ++ owner ++ "/".toList ++ name)
          ("/issues/github.com/".toList ++ owner ++ "/".toList ++ name))
        { Path := "/".toList, RawQuery := u.RawQuery }).Code ≠ http.StatusForbidden →
      (githubIssuesHandler app req).run w =
        .ok (replayError app w
            (issuesRequest w req ("github.com/".toList ++ owner ++ "/".toList ++ name)
              ("/issues/github.com/".toList ++ owner ++ "/".toList ++ name))
            { Path := "/".toList, RawQuery := u.RawQuery },
          afterReplay app w
            (issuesRequest w req ("github.com/".toList ++ owner ++ "/".toList ++ name)
              ("/issues/github.com/".toList ++ owner ++ "/".toList ++ name))
            { Path := "/".toList, RawQuery := u.RawQuery })) ∧
    (∀ r w1, (githubIssuesHandler app req).run w = .ok (r, w1) →
      r ≠ some (httperror.Redirect
        ("https://github.com/".toList ++ owner ++ "/".toList ++ name ++ "/issues".toList))) := by
  have hp0 : u.Path =
      "/issues/github.com/".toList ++ owner ++ "/".toList ++ name ++ [] := by
    rw [List.append_nil]; exact hp
  have hrun := githubIssuesHandler_served app req w u owner name [] none hu hp0 ho hn hos hns
    (Or.inl rfl) (by decide) hsess
  have hd : derivedURL u [] = { Path := "/".toList, RawQuery := u.RawQuery } := rfl
  rw [hd] at hrun
  refine ⟨?_, ?_, ?_⟩
  · intro hcode
    rw [hrun, if_pos ⟨hcode, rfl⟩]
  · intro hcode
    rw [hrun, if_neg (fun h => hcode h.1)]
  · intro r w1 h
    rw [hrun] at h
    by_cases hcode : (recordedBy app w
        (issuesRequest w req ("github.com/".toList ++ owner ++ "/".toList ++ name)
          ("/issues/github.com/".toList ++ owner ++ "/".toList ++ name))
        { Path := "/".toList, RawQuery := u.RawQuery }).Code = http.StatusForbidden ∧
        (none : Option Nat) = none
    · rw [if_pos hcode] at h
      injection h with h
      injection h with hr _
      rw [← hr]
      intro he
      injection he with he
      injection he with he
      have h1 : ("/login?return=".toList ++ url.QueryEscape req.RequestURI).head? = some '/' :=
        rfl
      rw [he] at h1
      have h2 : ("https://github.com/".toList ++ owner ++ "/".toList ++ name ++
          "/issues".toList).head? = some 'h' := rfl
      rw [h2] at h1
      exact absurd h1 (by decide)
    · rw [if_neg hcode] at h
      injection h with h
      injection h with hr _
      rw [← hr]
      unfold replayError
      split_ifs
      · cases w.connErr with
        | none => exact fun he => Option.noConfusion he
        | some m => intro he; injection he with he; exact Error.noConfusion he
      · exact fun he => Option.noConfusion he

/-- An instance of C10: the anonymous request for `/issues/github.com/foo/bar`,
answered 403 by the sub-application. -/
theorem C10_anonymous_issues_request_witness :
    (githubIssuesHandler (sampleApp 403 "403 Forbidden".toList)
        (sampleRequest "/issues/github.com/foo/bar".toList noSession)).run
        (sampleWorld "/issues/github.com/foo/bar".toList []) =
      .ok (some (httperror.Redirect
          ("/login?return=".toList ++ url.QueryEscape "/issues/github.com/foo/bar".toList)),
        afterServe (sampleApp 403 "403 Forbidden".toList)
          (sampleWorld "/issues/github.com/foo/bar".toList [])
          (issuesRequest (sampleWorld "/issues/github.com/foo/bar".toList [])
            (sampleRequest "/issues/github.com/foo/bar".toList noSession)
            ("github.com/".toList ++ "foo".toList ++ "/".toList ++ "bar".toList)
            ("/issues/github.com/".toList ++ "foo".toList ++ "/".toList ++ "bar".toList))
          { Path := "/".toList, RawQuery := [] }) :=
  (C10_anonymous_issues_request (sampleApp 403 "403 Forbidden".toList)
    (sampleRequest "/issues/github.com/foo/bar".toList noSession)
    (sampleWorld "/issues/github.com/foo/bar".toList [])
    { Path := "/issues/github.com/foo/bar".toList, RawQuery := [] }
    "foo".toList "bar".toList (by decide) (by decide) (by decide) (by decide) (by decide)
    (by decide) (by decide)).1 (by decide)

/-- Claim C10 as stated fails. The anonymous request for
`/issues/github.com/foo/bar` (no session), to which the issues sub-application
answers 403 because the facade denies access, is not answered with a redirect to
`https://github.com/foo/bar/issues`: the sub-application is invoked and the handler
returns a redirect to `/login?return=%2Fissues%2Fgithub.com%2Ffoo%2Fbar`. -/
theorem C10_anonymous_issues_request_goes_to_login :
    (githubIssuesHandler (sampleApp 403 "403 Forbidden".toList)
        (sampleRequest "/issues/github.com/foo/bar".toList noSession)).run
        (sampleWorld "/issues/github.com/foo/bar".toList []) =
      .ok (some (httperror.Redirect
          "/login?return=%2Fissues%2Fgithub.com%2Ffoo%2Fbar".toList),
        { state := 1,
          urls := [{ Path := "/issues/github.com/foo/bar".toList, RawQuery := [] },
            { Path := "/".toList, RawQuery := [] }],
          header := [],
          connErr := none,
          log :=
            [.NewRecorder,
              .ServeHTTP true
                { URL := 1, RequestURI := "/issues/github.com/foo/bar".toList,
                  ctx :=
                    [(.issuesappBaseURIContextKey, .string "/issues/github.com/foo/bar".toList),
                      (.issuesappRepoSpecContextKey,
                        .RepoSpec { URI := "github.com/foo/bar".toList }),
                      (.sessionContextKey, .session none)] }
                { Path := "/".toList, RawQuery := [] }] }) ∧
    httperror.Redirect "/login?return=%2Fissues%2Fgithub.com%2Ffoo%2Fbar".toList ≠
      httperror.Redirect "https://github.com/foo/bar/issues".toList := by
  constructor
  · rfl
  · decide

end issuesanonymous

/-! ## The guarded side of the facades -/

section facadeshape

variable {σ : Type}

/-- On a repository that starts with `github.com/` and is not exempted, each
operation of the issues facade is the guarded call of the same-named operation of
the remote backend. -/
theorem issuesFacade_delegated {T : issues.Types} (shurcool : Principal)
    (s : shurcoolSeesGitHubIssues T σ) (ctx : context.Context) (uri : GoString) (w : World σ)
    (hremote : strings.HasPrefix uri "github.com/".toList = true)
    (h1 : uri ≠ "github.com/shurcooL/issuesapp".toList)
    (h2 : uri ≠ "github.com/shurcooL/notificationsapp".toList) :
    (∀ opt, (s.List shurcool ctx { URI := uri } opt).run w =
      delegated shurcool s.users ctx w (fun e => ([], e))
        (perform (.backend .RemoteMirror "List" uri)
          (s.shurcoolGitHubIssues.List ctx { URI := uri } opt))) ∧
    (∀ opt, (s.Count shurcool ctx { URI := uri } opt).run w =
      delegated shurcool s.users ctx w (fun e => (0, e))
        (perform (.backend .RemoteMirror "Count" uri)
          (s.shurcoolGitHubIssues.Count ctx { URI := uri } opt))) ∧
    (∀ id, (s.Get shurcool ctx { URI := uri } id).run w =
      delegated shurcool s.users ctx w (fun e => (T.zeroIssue, e))
        (perform (.backend .RemoteMirror "Get" uri)
          (s.shurcoolGitHubIssues.Get ctx { URI := uri } id))) ∧
    (∀ id opt, (s.ListComments shurcool ctx { URI := uri } id opt).run w =
      delegated shurcool s.users ctx w (fun e => ([], e))
        (perform (.backend .RemoteMirror "ListComments" uri)
          (s.shurcoolGitHubIssues.ListComments ctx { URI := uri } id opt))) ∧
    (∀ id opt, (s.ListEvents shurcool ctx { URI := uri } id opt).run w =
      delegated shurcool s.users ctx w (fun e => ([], e))
        (perform (.backend .RemoteMirror "ListEvents" uri)
          (s.shurcoolGitHubIssues.ListEvents ctx { URI := uri } id opt))) ∧
    (∀ issue, (s.Create shurcool ctx { URI := uri } issue).run w =
      delegated shurcool s.users ctx w (fun e => (T.zeroIssue, e))
        (perform (.backend .RemoteMirror "Create" uri)
          (s.shurcoolGitHubIssues.Create ctx { URI := uri } issue))) ∧
    (∀ id comment, (s.CreateComment shurcool ctx { URI := uri } id comment).run w =
      delegated shurcool s.users ctx w (fun e => (T.zeroComment, e))
        (perform (.backend .RemoteMirror "CreateComment" uri)
          (s.shurcoolGitHubIssues.CreateComment ctx { URI := uri } id comment))) ∧
    (∀ id ir, (s.Edit shurcool ctx { URI := uri } id ir).run w =
      delegated shurcool s.users ctx w (fun e => (T.zeroIssue, [], e))
        (perform (.backend .RemoteMirror "Edit" uri)
          (s.shurcoolGitHubIssues.Edit ctx { URI := uri } id ir))) ∧
    (∀ id cr, (s.EditComment shurcool ctx { URI := uri } id cr).run w =
      delegated shurcool s.users ctx w (fun e => (T.zeroComment, e))
        (perform (.backend .RemoteMirror "EditComment" uri)
          (s.shurcoolGitHubIssues.EditComment ctx { URI := uri } id cr))) := by
  have hc : strings.HasPrefix ({ URI := uri } : issues.RepoSpec).URI "github.com/".toList ∧
      ({ URI := uri } : issues.RepoSpec).URI ≠ "github.com/shurcooL/issuesapp".toList ∧
      ({ URI := uri } : issues.RepoSpec).URI ≠ "github.com/shurcooL/notificationsapp".toList :=
    ⟨hremote, h1, h2⟩
  refine ⟨?_, ?_, ?_, ?_, ?_, ?_, ?_, ?_, ?_⟩ <;> intros
  all_goals
    simp only [shurcoolSeesGitHubIssues.List, shurcoolSeesGitHubIssues.Count,
      shurcoolSeesGitHubIssues.Get, shurcoolSeesGitHubIssues.ListComments,
      shurcoolSeesGitHubIssues.ListEvents, shurcoolSeesGitHubIssues.Create,
      shurcoolSeesGitHubIssues.CreateComment, shurcoolSeesGitHubIssues.Edit,
      shurcoolSeesGitHubIssues.EditComment, if_pos hc, delegated]
    by_cases he : (s.users.GetAuthenticatedSpec ctx w.state).1.2 = none
    · by_cases hu : (s.users.GetAuthenticatedSpec ctx w.state).1.1 = shurcool
      · simp [he, hu, afterResolve]
      · simp [he, hu, afterResolve]
    · simp [he, afterResolve]

/-- On a repository that starts with `github.com/`, each context-taking operation
of the changes facade is the guarded call of the same-named operation of the remote
backend. -/
theorem changesFacade_delegated {U : change.Types} (shurcool : Principal)
    (s : shurcoolSeesGitHubChanges U σ) (ctx : context.Context) (repo : GoString) (w : World σ)
    (hremote : strings.HasPrefix repo "github.com/".toList = true) :
    (∀ opt, (s.List shurcool ctx repo opt).run w =
      delegated shurcool s.users ctx w (fun e => ([], e))
        (perform (.backend .RemoteMirror "List" repo)
          (s.shurcoolGitHubChange.List ctx repo opt))) ∧
    (∀ opt, (s.Count shurcool ctx repo opt).run w =
      delegated shurcool s.users ctx w (fun e => (0, e))
        (perform (.backend .RemoteMirror "Count" repo)
          (s.shurcoolGitHubChange.Count ctx repo opt))) ∧
    (∀ id, (s.Get shurcool ctx repo id).run w =
      delegated shurcool s.users ctx w (fun e => (U.zeroChange, e))
        (perform (.backend .RemoteMirror "Get" repo)
          (s.shurcoolGitHubChange.Get ctx repo id))) ∧
    (∀ id opt, (s.ListTimeline shurcool ctx repo id opt).run w =
      delegated shurcool s.users ctx w (fun e => ([], e))
        (perform (.backend .RemoteMirror "ListTimeline" repo)
          (s.shurcoolGitHubChange.ListTimeline ctx repo id opt))) ∧
    (∀ id, (s.ListCommits shurcool ctx repo id).run w =
      delegated shurcool s.users ctx w (fun e => ([], e))
        (perform (.backend .RemoteMirror "ListCommits" repo)
          (s.shurcoolGitHubChange.ListCommits ctx repo id))) ∧
    (∀ id opt, (s.GetDiff shurcool ctx repo id opt).run w =
      delegated shurcool s.users ctx w (fun e => ([], e))
        (perform (.backend .RemoteMirror "GetDiff" repo)
          (s.shurcoolGitHubChange.GetDiff ctx repo id opt))) := by
  have hc : strings.HasPrefix repo "github.com/".toList = true := hremote
  refine ⟨?_, ?_, ?_, ?_, ?_, ?_⟩ <;> intros
  all_goals
    simp only [shurcoolSeesGitHubChanges.List, shurcoolSeesGitHubChanges.Count,
      shurcoolSeesGitHubChanges.Get, shurcoolSeesGitHubChanges.ListTimeline,
      shurcoolSeesGitHubChanges.ListCommits, shurcoolSeesGitHubChanges.GetDiff, if_pos hc,
      delegated]
    by_cases he : (s.users.GetAuthenticatedSpec ctx w.state).1.2 = none
    · by_cases hu : (s.users.GetAuthenticatedSpec ctx w.state).1.1 = shurcool
      · simp [he, hu, afterResolve]
      · simp [he, hu, afterResolve]
    · simp [he, afterResolve]

end facadeshape

/-! ## The changes facade and the remote backend -/

section changesremote

variable {σ : Type}

/-- The guarded call of a caller the resolver fails for: the result is `denied` at
the resolver's error, and only the resolver was asked. -/
theorem delegated_failed {α : Type} (shurcool : Principal) (users : users.Service σ)
    (ctx : context.Context) (w : World σ) (denied : Option Error → α) (remote : Eff σ α)
    (he : (users.GetAuthenticatedSpec ctx w.state).1.2 ≠ none) :
    delegated shurcool users ctx w denied remote =
      .ok (denied (users.GetAuthenticatedSpec ctx w.state).1.2, afterResolve users ctx w) := by
  unfold delegated
  rw [if_pos he]

/-- The guarded call of a caller the resolver names and who is not `shurcool`: the
result is `denied` at `os.ErrPermission`, and only the resolver was asked. -/
theorem delegated_other {α : Type} (shurcool : Principal) (users : users.Service σ)
    (ctx : context.Context) (w : World σ) (denied : Option Error → α) (remote : Eff σ α)
    (he : (users.GetAuthenticatedSpec ctx w.state).1.2 = none)
    (hu : (users.GetAuthenticatedSpec ctx w.state).1.1 ≠ shurcool) :
    delegated shurcool users ctx w denied remote =
      .ok (denied (some os.ErrPermission), afterResolve users ctx w) := by
  unfold delegated
  rw [if_neg (not_not.mpr he), if_pos hu]

/-- The guarded call of `shurcool`: the guarded computation runs once the resolver
has answered. -/
theorem delegated_shurcool {α : Type} (shurcool : Principal) (users : users.Service σ)
    (ctx : context.Context) (w : World σ) (denied : Option Error → α) (remote : Eff σ α)
    (he : (users.GetAuthenticatedSpec ctx w.state).1.2 = none)
    (hu : (users.GetAuthenticatedSpec ctx w.state).1.1 = shurcool) :
    delegated shurcool users ctx w denied remote = remote.run (afterResolve users ctx w) := by
  unfold delegated
  rw [if_neg (not_not.mpr he), if_neg (not_not.mpr hu)]

/-- The guarded call of a caller who is not `shurcool`, whether the resolver fails
or names somebody else: the result is `denied` at some error, and only the resolver
was asked. -/
theorem delegated_denied {α : Type} (shurcool : Principal) (users : users.Service σ)
    (ctx : context.Context) (w : World σ) (denied : Option Error → α) (remote : Eff σ α)
    (hn : ¬((users.GetAuthenticatedSpec ctx w.state).1.2 = none ∧
      (users.GetAuthenticatedSpec ctx w.state).1.1 = shurcool)) :
    ∃ e : Error, delegated shurcool users ctx w denied remote =
      .ok (denied (some e), afterResolve users ctx w) := by
  by_cases he : (users.GetAuthenticatedSpec ctx w.state).1.2 = none
  · have hu : (users.GetAuthenticatedSpec ctx w.state).1.1 ≠ shurcool := fun h => hn ⟨he, h⟩
    exact ⟨os.ErrPermission, delegated_other shurcool users ctx w denied remote he hu⟩
  · obtain ⟨e, hx⟩ := Option.ne_none_iff_exists.mp he
    refine ⟨e, ?_⟩
    rw [delegated_failed shurcool users ctx w denied remote he, ← hx]

/-- Claim C11 as stated fails. A visitor who is not `shurcool` (the resolver of the
facade names `sampleVisitor`) asks the changes facade for the thread type of
`github.com/foo/bar`: the one call the facade makes is `ThreadType` of the remote
backend; the resolver is not asked. -/
theorem C11_ThreadType_reaches_remote :
    ((sampleChangesFacade sampleVisitor none).ThreadType "github.com/foo/bar".toList).run
        (sampleWorld [] []) =
      .ok ("Change".toList,
        { state := 1, urls := [{ Path := [], RawQuery := [] }], header := [], connErr := none,
          log := [.backend .RemoteMirror "ThreadType" "github.com/foo/bar".toList] }) ∧
    sampleVisitor ≠ sampleShurcool := by
  constructor
  · rfl
  · decide

/-- Claim C11, as amended. For every repository string that starts with
`github.com/` and every caller who is not the distinguished principal (the
resolver fails, or names an identity other than `shurcool`), each of the six
operations of `shurcoolSeesGitHubChanges` that take a context (`List`, `Count`,
`Get`, `ListTimeline`, `ListCommits`, `GetDiff`) returns the zero value with an
error and leaves the world in which only the resolver was asked, so the remote
backend is not called. `ThreadType` takes no context and returns no error: for
every such repository it calls `ThreadType` of the remote backend, once and
whoever the caller is, and returns its answer (it panics when the remote backend
has no such method). -/
theorem C11_context_operations_keep_off_remote {U : change.Types} (shurcool : Principal)
    (sc : shurcoolSeesGitHubChanges U σ) (ctx : context.Context) (repo : GoString)
    (w : World σ) (hremote : strings.HasPrefix repo "github.com/".toList = true) :
    (¬((sc.users.GetAuthenticatedSpec ctx w.state).1.2 = none ∧
        (sc.users.GetAuthenticatedSpec ctx w.state).1.1 = shurcool) →
      (∀ opt, ∃ e : Error, (sc.List shurcool ctx repo opt).run w =
        .ok (([], some e), afterResolve sc.users ctx w)) ∧
      (∀ opt, ∃ e : Error, (sc.Count shurcool ctx repo opt).run w =
        .ok ((0, some e), afterResolve sc.users ctx w)) ∧
      (∀ id, ∃ e : Error, (sc.Get shurcool ctx repo id).run w =
        .ok ((U.zeroChange, some e), afterResolve sc.users ctx w)) ∧
      (∀ id opt, ∃ e : Error, (sc.ListTimeline shurcool ctx repo id opt).run w =
        .ok (([], some e), afterResolve sc.users ctx w)) ∧
      (∀ id, ∃ e : Error, (sc.ListCommits shurcool ctx repo id).run w =
        .ok (([], some e), afterResolve sc.users ctx w)) ∧
      (∀ id opt, ∃ e : Error, (sc.GetDiff shurcool ctx repo id opt).run w =
        .ok (([], some e), afterResolve sc.users ctx w))) ∧
    (∀ threadType, sc.shurcoolGitHubChange.ThreadType = some threadType →
      (sc.ThreadType repo).run w =
        .ok ((threadType repo w.state).1,
          { w with state := (threadType repo w.state).2,
                   log := w.log ++ [.backend .RemoteMirror "ThreadType" repo] })) ∧
    (sc.shurcoolGitHubChange.ThreadType = none →
      (sc.ThreadType repo).run w = .error .typeAssertion) := by
  obtain ⟨hList, hCount, hGet, hTimeline, hCommits, hDiff⟩ :=
    changesFacade_delegated shurcool sc ctx repo w hremote
  refine ⟨fun hn => ⟨?_, ?_, ?_, ?_, ?_, ?_⟩, ?_, ?_⟩
  · intro opt
    rw [hList opt]
    exact delegated_denied shurcool sc.users ctx w (fun e => ([], e)) _ hn
  · intro opt
    rw [hCount opt]
    exact delegated_denied shurcool sc.users ctx w (fun e => (0, e)) _ hn
  · intro id
    rw [hGet id]
    exact delegated_denied shurcool sc.users ctx w (fun e => (U.zeroChange, e)) _ hn
  · intro id opt
    rw [hTimeline id opt]
    exact delegated_denied shurcool sc.users ctx w (fun e => ([], e)) _ hn
  · intro id
    rw [hCommits id]
    exact delegated_denied shurcool sc.users ctx w (fun e => ([], e)) _ hn
  · intro id opt
    rw [hDiff id opt]
    exact delegated_denied shurcool sc.users ctx w (fun e => ([], e)) _ hn
  · intro threadType ht
    simp only [shurcoolSeesGitHubChanges.ThreadType, if_pos hremote, ht, Eff.run_perform]
  · intro ht
    simp only [shurcoolSeesGitHubChanges.ThreadType, if_pos hremote, ht, Eff.run_goPanic]

/-- An instance of C11: a visitor who is not `shurcool` lists the changes of
`github.com/foo/bar`. -/
theorem C11_context_operations_keep_off_remote_witness :
    ∃ e : Error,
      ((sampleChangesFacade sampleVisitor none).List sampleShurcool []
          "github.com/foo/bar".toList (0 : Nat)).run (sampleWorld [] []) =
        .ok (([], some e),
          afterResolve (sampleChangesFacade sampleVisitor none).users [] (sampleWorld [] [])) :=
  ((C11_context_operations_keep_off_remote sampleShurcool (sampleChangesFacade sampleVisitor none)
    [] "github.com/foo/bar".toList (sampleWorld [] []) (by decide)).1 (by decide)).1 (0 : Nat)

end changesremote

/-! ## The exempted repositories and the failing resolver -/

section exempted

variable {σ : Type}

/-- When the guard of the issues facade does not hold for a repository, each of its
nine operations is the same-named operation of the local backend, called once. -/
theorem issuesFacade_local {T : issues.Types} (shurcool : Principal)
    (si : shurcoolSeesGitHubIssues T σ) (ctx : context.Context) (uri : GoString) (w : World σ)
    (hi : ¬(strings.HasPrefix uri "github.com/".toList = true ∧
      uri ≠ "github.com/shurcooL/issuesapp".toList ∧
      uri ≠ "github.com/shurcooL/notificationsapp".toList)) :
    (∀ opt, (si.List shurcool ctx { URI := uri } opt).run w =
      (perform (.backend .Local "List" uri) (si.service.List ctx { URI := uri } opt)).run w) ∧
    (∀ opt, (si.Count shurcool ctx { URI := uri } opt).run w =
      (perform (.backend .Local "Count" uri) (si.service.Count ctx { URI := uri } opt)).run w) ∧
    (∀ id, (si.Get shurcool ctx { URI := uri } id).run w =
      (perform (.backend .Local "Get" uri) (si.service.Get ctx { URI := uri } id)).run w) ∧
    (∀ id opt, (si.ListComments shurcool ctx { URI := uri } id opt).run w =
      (perform (.backend .Local "ListComments" uri)
        (si.service.ListComments ctx { URI := uri } id opt)).run w) ∧
    (∀ id opt, (si.ListEvents shurcool ctx { URI := uri } id opt).run w =
      (perform (.backend .Local "ListEvents" uri)
        (si.service.ListEvents ctx { URI := uri } id opt)).run w) ∧
    (∀ issue, (si.Create shurcool ctx { URI := uri } issue).run w =
      (perform (.backend .Local "Create" uri) (si.service.Create ctx { URI := uri } issue)).run w) ∧
    (∀ id comment, (si.CreateComment shurcool ctx { URI := uri } id comment).run w =
      (perform (.backend .Local "CreateComment" uri)
        (si.service.CreateComment ctx { URI := uri } id comment)).run w) ∧
    (∀ id ir, (si.Edit shurcool ctx { URI := uri } id ir).run w =
      (perform (.backend .Local "Edit" uri) (si.service.Edit ctx { URI := uri } id ir)).run w) ∧
    (∀ id cr, (si.EditComment shurcool ctx { URI := uri } id cr).run w =
      (perform (.backend .Local "EditComment" uri)
        (si.service.EditComment ctx { URI := uri } id cr)).run w) := by
  have hc : ¬(strings.HasPrefix ({ URI := uri } : issues.RepoSpec).URI "github.com/".toList ∧
      ({ URI := uri } : issues.RepoSpec).URI ≠ "github.com/shurcooL/issuesapp".toList ∧
      ({ URI := uri } : issues.RepoSpec).URI ≠ "github.com/shurcooL/notificationsapp".toList) := hi
  refine ⟨?_, ?_, ?_, ?_, ?_, ?_, ?_, ?_, ?_⟩ <;> intros
  all_goals
    simp only [shurcoolSeesGitHubIssues.List, shurcoolSeesGitHubIssues.Count,
      shurcoolSeesGitHubIssues.Get, shurcoolSeesGitHubIssues.ListComments,
      shurcoolSeesGitHubIssues.ListEvents, shurcoolSeesGitHubIssues.Create,
      shurcoolSeesGitHubIssues.CreateComment, shurcoolSeesGitHubIssues.Edit,
      shurcoolSeesGitHubIssues.EditComment, if_neg hc]

/-- Claim C12. For the two URIs `github.com/shurcooL/issuesapp` and
`github.com/shurcooL/notificationsapp`, which start with `github.com/`, and every
caller (the resolver is arbitrary and is not asked), each of the nine operations of
`shurcoolSeesGitHubIssues` is one call of the same-named operation of the local
backend with the same context, repository and arguments, whose result, error and
state are returned unchanged; the remote backend is not called. Every other URI
that starts with `github.com/` is not exempted: each operation is the guarded call
of the remote backend (resolver first, the remote backend for `shurcool` only). The
comparison is string equality: a URI that differs from the two by a trailing slash
or by letter case is guarded. -/
theorem C12_two_repositories_stay_local {T : issues.Types} (shurcool : Principal)
    (si : shurcoolSeesGitHubIssues T σ) (ctx : context.Context) (uri : GoString)
    (w : World σ) :
    ((uri = "github.com/shurcooL/issuesapp".toList ∨
        uri = "github.com/shurcooL/notificationsapp".toList) →
      strings.HasPrefix uri "github.com/".toList = true ∧
      (∀ opt, (si.List shurcool ctx { URI := uri } opt).run w =
        (perform (.backend .Local "List" uri) (si.service.List ctx { URI := uri } opt)).run w) ∧
      (∀ opt, (si.Count shurcool ctx { URI := uri } opt).run w =
        (perform (.backend .Local "Count" uri)
          (si.service.Count ctx { URI := uri } opt)).run w) ∧
      (∀ id, (si.Get shurcool ctx { URI := uri } id).run w =
        (perform (.backend .Local "Get" uri) (si.service.Get ctx { URI := uri } id)).run w) ∧
      (∀ id opt, (si.ListComments shurcool ctx { URI := uri } id opt).run w =
        (perform (.backend .Local "ListComments" uri)
          (si.service.ListComments ctx { URI := uri } id opt)).run w) ∧
      (∀ id opt, (si.ListEvents shurcool ctx { URI := uri } id opt).run w =
        (perform (.backend .Local "ListEvents" uri)
          (si.service.ListEvents ctx { URI := uri } id opt)).run w) ∧
      (∀ issue, (si.Create shurcool ctx { URI := uri } issue).run w =
        (perform (.backend .Local "Create" uri)
          (si.service.Create ctx { URI := uri } issue)).run w) ∧
      (∀ id comment, (si.CreateComment shurcool ctx { URI := uri } id comment).run w =
        (perform (.backend .Local "CreateComment" uri)
          (si.service.CreateComment ctx { URI := uri } id comment)).run w) ∧
      (∀ id ir, (si.Edit shurcool ctx { URI := uri } id ir).run w =
        (perform (.backend .Local "Edit" uri) (si.service.Edit ctx { URI := uri } id ir)).run w) ∧
      (∀ id cr, (si.EditComment shurcool ctx { URI := uri } id cr).run w =
        (perform (.backend .Local "EditComment" uri)
          (si.service.EditComment ctx { URI := uri } id cr)).run w)) ∧
    (strings.HasPrefix uri "github.com/".toList = true →
      uri ≠ "github.com/shurcooL/issuesapp".toList →
      uri ≠ "github.com/shurcooL/notificationsapp".toList →
      (∀ opt, (si.List shurcool ctx { URI := uri } opt).run w =
        delegated shurcool si.users ctx w (fun e => ([], e))
          (perform (.backend .RemoteMirror "List" uri)
            (si.shurcoolGitHubIssues.List ctx { URI := uri } opt))) ∧
      (∀ opt, (si.Count shurcool ctx { URI := uri } opt).run w =
        delegated shurcool si.users ctx w (fun e => (0, e))
          (perform (.backend .RemoteMirror "Count" uri)
            (si.shurcoolGitHubIssues.Count ctx { URI := uri } opt))) ∧
      (∀ id, (si.Get shurcool ctx { URI := uri } id).run w =
        delegated shurcool si.users ctx w (fun e => (T.zeroIssue, e))
          (perform (.backend .RemoteMirror "Get" uri)
            (si.shurcoolGitHubIssues.Get ctx { URI := uri } id))) ∧
      (∀ id opt, (si.ListComments shurcool ctx { URI := uri } id opt).run w =
        delegated shurcool si.users ctx w (fun e => ([], e))
          (perform (.backend .RemoteMirror "ListComments" uri)
            (si.shurcoolGitHubIssues.ListComments ctx { URI := uri } id opt))) ∧
      (∀ id opt, (si.ListEvents shurcool ctx { URI := uri } id opt).run w =
        delegated shurcool si.users ctx w (fun e => ([], e))
          (perform (.backend .RemoteMirror "ListEvents" uri)
            (si.shurcoolGitHubIssues.ListEvents ctx { URI := uri } id opt))) ∧
      (∀ issue, (si.Create shurcool ctx { URI := uri } issue).run w =
        delegated shurcool si.users ctx w (fun e => (T.zeroIssue, e))
          (perform (.backend .RemoteMirror "Create" uri)
            (si.shurcoolGitHubIssues.Create ctx { URI := uri } issue))) ∧
      (∀ id comment, (si.CreateComment shurcool ctx { URI := uri } id comment).run w =
        delegated shurcool si.users ctx w (fun e => (T.zeroComment, e))
          (perform (.backend .RemoteMirror "CreateComment" uri)
            (si.shurcoolGitHubIssues.CreateComment ctx { URI := uri } id comment))) ∧
      (∀ id ir, (si.Edit shurcool ctx { URI := uri } id ir).run w =
        delegated shurcool si.users ctx w (fun e => (T.zeroIssue, [], e))
          (perform (.backend .RemoteMirror "Edit" uri)
            (si.shurcoolGitHubIssues.Edit ctx { URI := uri } id ir))) ∧
      (∀ id cr, (si.EditComment shurcool ctx { URI := uri } id cr).run w =
        delegated shurcool si.users ctx w (fun e => (T.zeroComment, e))
          (perform (.backend .RemoteMirror "EditComment" uri)
            (si.shurcoolGitHubIssues.EditComment ctx { URI := uri } id cr)))) := by
  constructor
  · intro h
    have hp : strings.HasPrefix uri "github.com/".toList = true := by
      rcases h with h | h <;> rw [h] <;> decide
    have hi : ¬(strings.HasPrefix uri "github.com/".toList = true ∧
        uri ≠ "github.com/shurcooL/issuesapp".toList ∧
        uri ≠ "github.com/shurcooL/notificationsapp".toList) := by
      rintro ⟨-, h1, h2⟩
      rcases h with h | h
      · exact h1 h
      · exact h2 h
    exact ⟨hp, issuesFacade_local shurcool si ctx uri w hi⟩
  · intro hp h1 h2
    exact issuesFacade_delegated shurcool si ctx uri w hp h1 h2

/-- An instance of C12: a visitor who is not `shurcool` counts the issues of
`github.com/shurcooL/issuesapp` and is served by the local backend; the same
visitor is refused on that URI with a trailing slash and on that URI in lower
case. -/
theorem C12_two_repositories_stay_local_witness :
    ((sampleIssuesFacade sampleVisitor none).Count sampleShurcool []
        { URI := "github.com/shurcooL/issuesapp".toList } (0 : Nat)).run (sampleWorld [] []) =
      (perform (.backend .Local "Count" "github.com/shurcooL/issuesapp".toList)
        ((sampleIssuesFacade sampleVisitor none).service.Count []
          { URI := "github.com/shurcooL/issuesapp".toList } (0 : Nat))).run (sampleWorld [] []) ∧
    ((sampleIssuesFacade sampleVisitor none).Count sampleShurcool []
        { URI := "github.com/shurcooL/issuesapp/".toList } (0 : Nat)).run (sampleWorld [] []) =
      delegated sampleShurcool (sampleIssuesFacade sampleVisitor none).users [] (sampleWorld [] [])
        (fun e => (0, e))
        (perform (.backend .RemoteMirror "Count" "github.com/shurcooL/issuesapp/".toList)
          ((sampleIssuesFacade sampleVisitor none).shurcoolGitHubIssues.Count []
            { URI := "github.com/shurcooL/issuesapp/".toList } (0 : Nat))) ∧
    ((sampleIssuesFacade sampleVisitor none).Count sampleShurcool []
        { URI := "github.com/shurcool/issuesapp".toList } (0 : Nat)).run (sampleWorld [] []) =
      delegated sampleShurcool (sampleIssuesFacade sampleVisitor none).users [] (sampleWorld [] [])
        (fun e => (0, e))
        (perform (.backend .RemoteMirror "Count" "github.com/shurcool/issuesapp".toList)
          ((sampleIssuesFacade sampleVisitor none).shurcoolGitHubIssues.Count []
            { URI := "github.com/shurcool/issuesapp".toList } (0 : Nat))) :=
  ⟨((C12_two_repositories_stay_local sampleShurcool (sampleIssuesFacade sampleVisitor none) []
      "github.com/shurcooL/issuesapp".toList (sampleWorld [] [])).1 (Or.inl rfl)).2.2.1 (0 : Nat),
   ((C12_two_repositories_stay_local sampleShurcool (sampleIssuesFacade sampleVisitor none) []
      "github.com/shurcooL/issuesapp/".toList (sampleWorld [] [])).2 (by decide) (by decide)
      (by decide)).2.1 (0 : Nat),
   ((C12_two_repositories_stay_local sampleShurcool (sampleIssuesFacade sampleVisitor none) []
      "github.com/shurcool/issuesapp".toList (sampleWorld [] [])).2 (by decide) (by decide)
      (by decide)).2.1 (0 : Nat)⟩

end exempted

/-! ## The failing resolver -/

section resolverfails

variable {σ : Type}

/-- Claim C13 as stated fails. The resolver fails with the error `no user` while a
caller lists the issues and the changes of `github.com/foo/bar`: both facades
return that error, which is not `os.ErrPermission`. -/
theorem C13_resolver_error_is_returned :
    ((sampleIssuesFacade sampleAnonymous (some (Error.other "no user".toList))).List
        sampleShurcool [] { URI := "github.com/foo/bar".toList } (0 : Nat)).run
        (sampleWorld [] []) =
      .ok (([], some (Error.other "no user".toList)),
        { state := 0, urls := [{ Path := [], RawQuery := [] }], header := [], connErr := none,
          log := [.GetAuthenticatedSpec []] }) ∧
    ((sampleChangesFacade sampleAnonymous (some (Error.other "no user".toList))).List
        sampleShurcool [] "github.com/foo/bar".toList (0 : Nat)).run (sampleWorld [] []) =
      .ok (([], some (Error.other "no user".toList)),
        { state := 0, urls := [{ Path := [], RawQuery := [] }], header := [], connErr := none,
          log := [.GetAuthenticatedSpec []] }) ∧
    Error.other "no user".toList ≠ os.ErrPermission := by
  refine ⟨rfl, rfl, ?_⟩
  decide

/-- Claim C13, as amended. For every repository whose URI starts with `github.com/`
(and, for the issues facade, is neither of the two exempted URIs), when the
identity resolver fails with an error, each of the nine operations of
`shurcoolSeesGitHubIssues` and each of the six context-taking operations of
`shurcoolSeesGitHubChanges` returns the zero value of its result type together
with the error of the resolver, unchanged (it is `os.ErrPermission` only when the
resolver itself returned that), and the world it leaves is the one in which the
resolver has been asked once: neither backend is called. -/
theorem C13_resolver_error_passes_through {T : issues.Types} {U : change.Types}
    (shurcool : Principal) (si : shurcoolSeesGitHubIssues T σ)
    (sc : shurcoolSeesGitHubChanges U σ) (ctx : context.Context) (uri : GoString)
    (w : World σ) (hremote : strings.HasPrefix uri "github.com/".toList = true) :
    (uri ≠ "github.com/shurcooL/issuesapp".toList →
      uri ≠ "github.com/shurcooL/notificationsapp".toList →
      (si.users.GetAuthenticatedSpec ctx w.state).1.2 ≠ none →
        (∀ opt, (si.List shurcool ctx { URI := uri } opt).run w =
          .ok (([], (si.users.GetAuthenticatedSpec ctx w.state).1.2),
            afterResolve si.users ctx w)) ∧
        (∀ opt, (si.Count shurcool ctx { URI := uri } opt).run w =
          .ok ((0, (si.users.GetAuthenticatedSpec ctx w.state).1.2),
            afterResolve si.users ctx w)) ∧
        (∀ id, (si.Get shurcool ctx { URI := uri } id).run w =
          .ok ((T.zeroIssue, (si.users.GetAuthenticatedSpec ctx w.state).1.2),
            afterResolve si.users ctx w)) ∧
        (∀ id opt, (si.ListComments shurcool ctx { URI := uri } id opt).run w =
          .ok (([], (si.users.GetAuthenticatedSpec ctx w.state).1.2),
            afterResolve si.users ctx w)) ∧
        (∀ id opt, (si.ListEvents shurcool ctx { URI := uri } id opt).run w =
          .ok (([], (si.users.GetAuthenticatedSpec ctx w.state).1.2),
            afterResolve si.users ctx w)) ∧
        (∀ issue, (si.Create shurcool ctx { URI := uri } issue).run w =
          .ok ((T.zeroIssue, (si.users.GetAuthenticatedSpec ctx w.state).1.2),
            afterResolve si.users ctx w)) ∧
        (∀ id comment, (si.CreateComment shurcool ctx { URI := uri } id comment).run w =
          .ok ((T.zeroComment, (si.users.GetAuthenticatedSpec ctx w.state).1.2),
            afterResolve si.users ctx w)) ∧
        (∀ id ir, (si.Edit shurcool ctx { URI := uri } id ir).run w =
          .ok ((T.zeroIssue, [], (si.users.GetAuthenticatedSpec ctx w.state).1.2),
            afterResolve si.users ctx w)) ∧
        (∀ id cr, (si.EditComment shurcool ctx { URI := uri } id cr).run w =
          .ok ((T.zeroComment, (si.users.GetAuthenticatedSpec ctx w.state).1.2),
            afterResolve si.users ctx w))) ∧
    ((sc.users.GetAuthenticatedSpec ctx w.state).1.2 ≠ none →
        (∀ opt, (sc.List shurcool ctx uri opt).run w =
          .ok (([], (sc.users.GetAuthenticatedSpec ctx w.state).1.2),
            afterResolve sc.users ctx w)) ∧
        (∀ opt, (sc.Count shurcool ctx uri opt).run w =
          .ok ((0, (sc.users.GetAuthenticatedSpec ctx w.state).1.2),
            afterResolve sc.users ctx w)) ∧
        (∀ id, (sc.Get shurcool ctx uri id).run w =
          .ok ((U.zeroChange, (sc.users.GetAuthenticatedSpec ctx w.state).1.2),
            afterResolve sc.users ctx w)) ∧
        (∀ id opt, (sc.ListTimeline shurcool ctx uri id opt).run w =
          .ok (([], (sc.users.GetAuthenticatedSpec ctx w.state).1.2),
            afterResolve sc.users ctx w)) ∧
        (∀ id, (sc.ListCommits shurcool ctx uri id).run w =
          .ok (([], (sc.users.GetAuthenticatedSpec ctx w.state).1.2),
            afterResolve sc.users ctx w)) ∧
        (∀ id opt, (sc.GetDiff shurcool ctx uri id opt).run w =
          .ok (([], (sc.users.GetAuthenticatedSpec ctx w.state).1.2),
            afterResolve sc.users ctx w))) := by
  constructor
  · intro h1 h2 he
    obtain ⟨a1, a2, a3, a4, a5, a6, a7, a8, a9⟩ :=
      issuesFacade_delegated shurcool si ctx uri w hremote h1 h2
    refine ⟨?_, ?_, ?_, ?_, ?_, ?_, ?_, ?_, ?_⟩ <;> intros
    · rw [a1, delegated_failed shurcool si.users ctx w _ _ he]
    · rw [a2, delegated_failed shurcool si.users ctx w _ _ he]
    · rw [a3, delegated_failed shurcool si.users ctx w _ _ he]
    · rw [a4, delegated_failed shurcool si.users ctx w _ _ he]
    · rw [a5, delegated_failed shurcool si.users ctx w _ _ he]
    · rw [a6, delegated_failed shurcool si.users ctx w _ _ he]
    · rw [a7, delegated_failed shurcool si.users ctx w _ _ he]
    · rw [a8, delegated_failed shurcool si.users ctx w _ _ he]
    · rw [a9, delegated_failed shurcool si.users ctx w _ _ he]
  · intro he
    obtain ⟨a1, a2, a3, a4, a5, a6⟩ := changesFacade_delegated shurcool sc ctx uri w hremote
    refine ⟨?_, ?_, ?_, ?_, ?_, ?_⟩ <;> intros
    · rw [a1, delegated_failed shurcool sc.users ctx w _ _ he]
    · rw [a2, delegated_failed shurcool sc.users ctx w _ _ he]
    · rw [a3, delegated_failed shurcool sc.users ctx w _ _ he]
    · rw [a4, delegated_failed shurcool sc.users ctx w _ _ he]
    · rw [a5, delegated_failed shurcool sc.users ctx w _ _ he]
    · rw [a6, delegated_failed shurcool sc.users ctx w _ _ he]

/-- An instance of C13: the resolver fails with `no user` while a caller gets an
issue and a change of `github.com/foo/bar`. -/
theorem C13_resolver_error_passes_through_witness :
    ((sampleIssuesFacade sampleAnonymous (some (Error.other "no user".toList))).Get
        sampleShurcool [] { URI := "github.com/foo/bar".toList } 5).run (sampleWorld [] []) =
      .ok (((0 : Nat), some (Error.other "no user".toList)),
        afterResolve (sampleIssuesFacade sampleAnonymous
          (some (Error.other "no user".toList))).users [] (sampleWorld [] [])) ∧
    ((sampleChangesFacade sampleAnonymous (some (Error.other "no user".toList))).Get
        sampleShurcool [] "github.com/foo/bar".toList 5).run (sampleWorld [] []) =
      .ok (((0 : Nat), some (Error.other "no user".toList)),
        afterResolve (sampleChangesFacade sampleAnonymous
          (some (Error.other "no user".toList))).users [] (sampleWorld [] [])) :=
  ⟨((C13_resolver_error_passes_through sampleShurcool
      (sampleIssuesFacade sampleAnonymous (some (Error.other "no user".toList)))
      (sampleChangesFacade sampleAnonymous (some (Error.other "no user".toList))) []
      "github.com/foo/bar".toList (sampleWorld [] []) (by decide)).1 (by decide) (by decide)
      (by decide)).2.2.1 5,
   ((C13_resolver_error_passes_through sampleShurcool
      (sampleIssuesFacade sampleAnonymous (some (Error.other "no user".toList)))
      (sampleChangesFacade sampleAnonymous (some (Error.other "no user".toList))) []
      "github.com/foo/bar".toList (sampleWorld [] []) (by decide)).2 (by decide)).2.2.1 5⟩

end resolverfails

/-! ## The changes facade has no exemption; the blog facade -/

section noexemption

variable {σ : Type}

/-- A guarded call of a backend adds to the log the question to the resolver and,
at most, that one call of the backend. -/
theorem delegated_log {α : Type} (shurcool : Principal) (users : users.Service σ)
    (ctx : context.Context) (w : World σ) (denied : Option Error → α) (a : Action)
    (f : σ → α × σ) (r : α) (w1 : World σ)
    (h : delegated shurcool users ctx w denied (perform a f) = .ok (r, w1)) :
    w1.log = w.log ++ [.GetAuthenticatedSpec ctx] ∨
      w1.log = w.log ++ [.GetAuthenticatedSpec ctx, a] := by
  by_cases he : (users.GetAuthenticatedSpec ctx w.state).1.2 = none
  · by_cases hu : (users.GetAuthenticatedSpec ctx w.state).1.1 = shurcool
    · rw [delegated_shurcool shurcool users ctx w denied _ he hu, Eff.run_perform] at h
      injection h with h
      injection h with _ h
      right
      rw [← h]
      simp [afterResolve]
    · rw [delegated_other shurcool users ctx w denied _ he hu] at h
      injection h with h
      injection h with _ h
      left
      rw [← h]
      rfl
  · rw [delegated_failed shurcool users ctx w denied _ he] at h
    injection h with h
    injection h with _ h
    left
    rw [← h]
    rfl

/-- A guarded call of the remote backend adds no call of the local backend to the
log. -/
theorem delegated_keeps_off_local {α : Type} (shurcool : Principal) (users : users.Service σ)
    (ctx : context.Context) (w : World σ) (denied : Option Error → α) (op : String)
    (repo : GoString) (f : σ → α × σ) (r : α) (w1 : World σ)
    (h : delegated shurcool users ctx w denied (perform (.backend .RemoteMirror op repo) f) =
      .ok (r, w1))
    (op1 : String) (repo1 : GoString) (hin : Action.backend .Local op1 repo1 ∈ w1.log) :
    Action.backend .Local op1 repo1 ∈ w.log := by
  rcases delegated_log shurcool users ctx w denied _ f r w1 h with hl | hl
  · rw [hl] at hin
    simpa using hin
  · rw [hl] at hin
    simpa using hin

/-- Claim C20. For every repository string that starts with `github.com/`, the two
URIs that the issues facade serves locally included, each of the operations
`List`, `Count`, `Get`, `ListTimeline`, `ListCommits` and `GetDiff` of
`shurcoolSeesGitHubChanges` is the guarded call of the same-named operation of the
remote backend: its outcome is the zero value with the error of the resolver, the
zero value with `os.ErrPermission`, or what the remote backend returns. Whatever
the outcome, the run adds no call of the local backend to the log. -/
theorem C20_changes_facade_exempts_nothing {U : change.Types} (shurcool : Principal)
    (sc : shurcoolSeesGitHubChanges U σ) (ctx : context.Context) (repo : GoString)
    (w : World σ) (hremote : strings.HasPrefix repo "github.com/".toList = true) :
    ((∀ opt, (sc.List shurcool ctx repo opt).run w =
        delegated shurcool sc.users ctx w (fun e => ([], e))
          (perform (.backend .RemoteMirror "List" repo)
            (sc.shurcoolGitHubChange.List ctx repo opt))) ∧
      (∀ opt, (sc.Count shurcool ctx repo opt).run w =
        delegated shurcool sc.users ctx w (fun e => (0, e))
          (perform (.backend .RemoteMirror "Count" repo)
            (sc.shurcoolGitHubChange.Count ctx repo opt))) ∧
      (∀ id, (sc.Get shurcool ctx repo id).run w =
        delegated shurcool sc.users ctx w (fun e => (U.zeroChange, e))
          (perform (.backend .RemoteMirror "Get" repo)
            (sc.shurcoolGitHubChange.Get ctx repo id))) ∧
      (∀ id opt, (sc.ListTimeline shurcool ctx repo id opt).run w =
        delegated shurcool sc.users ctx w (fun e => ([], e))
          (perform (.backend .RemoteMirror "ListTimeline" repo)
            (sc.shurcoolGitHubChange.ListTimeline ctx repo id opt))) ∧
      (∀ id, (sc.ListCommits shurcool ctx repo id).run w =
        delegated shurcool sc.users ctx w (fun e => ([], e))
          (perform (.backend .RemoteMirror "ListCommits" repo)
            (sc.shurcoolGitHubChange.ListCommits ctx repo id))) ∧
      (∀ id opt, (sc.GetDiff shurcool ctx repo id opt).run w =
        delegated shurcool sc.users ctx w (fun e => ([], e))
          (perform (.backend .RemoteMirror "GetDiff" repo)
            (sc.shurcoolGitHubChange.GetDiff ctx repo id opt)))) ∧
    (∀ (op1 : String) (repo1 : GoString), Action.backend .Local op1 repo1 ∉ w.log →
      (∀ opt r w1, (sc.List shurcool ctx repo opt).run w = .ok (r, w1) →
        Action.backend .Local op1 repo1 ∉ w1.log) ∧
      (∀ opt r w1, (sc.Count shurcool ctx repo opt).run w = .ok (r, w1) →
        Action.backend .Local op1 repo1 ∉ w1.log) ∧
      (∀ id r w1, (sc.Get shurcool ctx repo id).run w = .ok (r, w1) →
        Action.backend .Local op1 repo1 ∉ w1.log) ∧
      (∀ id opt r w1, (sc.ListTimeline shurcool ctx repo id opt).run w = .ok (r, w1) →
        Action.backend .Local op1 repo1 ∉ w1.log) ∧
      (∀ id r w1, (sc.ListCommits shurcool ctx repo id).run w = .ok (r, w1) →
        Action.backend .Local op1 repo1 ∉ w1.log) ∧
      (∀ id opt r w1, (sc.GetDiff shurcool ctx repo id opt).run w = .ok (r, w1) →
        Action.backend .Local op1 repo1 ∉ w1.log)) := by
  have hd := changesFacade_delegated shurcool sc ctx repo w hremote
  refine ⟨hd, fun op1 repo1 hw => ?_⟩
  obtain ⟨a1, a2, a3, a4, a5, a6⟩ := hd
  refine ⟨?_, ?_, ?_, ?_, ?_, ?_⟩
  · intro opt r w1 h hin
    rw [a1] at h
    exact hw (delegated_keeps_off_local shurcool sc.users ctx w _ _ _ _ r w1 h op1 repo1 hin)
  · intro opt r w1 h hin
    rw [a2] at h
    exact hw (delegated_keeps_off_local shurcool sc.users ctx w _ _ _ _ r w1 h op1 repo1 hin)
  · intro id r w1 h hin
    rw [a3] at h
    exact hw (delegated_keeps_off_local shurcool sc.users ctx w _ _ _ _ r w1 h op1 repo1 hin)
  · intro id opt r w1 h hin
    rw [a4] at h
    exact hw (delegated_keeps_off_local shurcool sc.users ctx w _ _ _ _ r w1 h op1 repo1 hin)
  · intro id r w1 h hin
    rw [a5] at h
    exact hw (delegated_keeps_off_local shurcool sc.users ctx w _ _ _ _ r w1 h op1 repo1 hin)
  · intro id opt r w1 h hin
    rw [a6] at h
    exact hw (delegated_keeps_off_local shurcool sc.users ctx w _ _ _ _ r w1 h op1 repo1 hin)

/-- An instance of C20: `shurcool` counts the changes of
`github.com/shurcooL/issuesapp`, which the issues facade serves locally, and the
changes facade asks the remote backend. -/
theorem C20_changes_facade_exempts_nothing_witness :
    ((sampleChangesFacade sampleShurcool none).Count sampleShurcool []
        "github.com/shurcooL/issuesapp".toList (0 : Nat)).run (sampleWorld [] []) =
      delegated sampleShurcool (sampleChangesFacade sampleShurcool none).users []
        (sampleWorld [] []) (fun e => (0, e))
        (perform (.backend .RemoteMirror "Count" "github.com/shurcooL/issuesapp".toList)
          ((sampleChangesFacade sampleShurcool none).shurcoolGitHubChange.Count []
            "github.com/shurcooL/issuesapp".toList (0 : Nat))) :=
  (C20_changes_facade_exempts_nothing sampleShurcool (sampleChangesFacade sampleShurcool none) []
    "github.com/shurcooL/issuesapp".toList (sampleWorld [] []) (by decide)).1.2.1 (0 : Nat)

/-- The blog facade guards `Create` by the identity of the caller. -/
theorem onlyShurcoolCreatePosts_delegated {T : issues.Types} (shurcool : Principal)
    (s : onlyShurcoolCreatePosts T σ) (ctx : context.Context) (repo : issues.RepoSpec)
    (issue : T.Issue) (w : World σ) :
    (s.Create shurcool ctx repo issue).run w =
      delegated shurcool s.users ctx w (fun e => (T.zeroIssue, e))
        (perform (.backend .Local "Create" repo.URI) (s.Service.Create ctx repo issue)) := by
  simp only [onlyShurcoolCreatePosts.Create, delegated]
  by_cases he : (s.users.GetAuthenticatedSpec ctx w.state).1.2 = none
  · by_cases hu : (s.users.GetAuthenticatedSpec ctx w.state).1.1 = shurcool
    · simp [he, hu, afterResolve]
    · simp [he, hu, afterResolve]
  · simp [he, afterResolve]

/-- Claim C16. For every repository and issue, `onlyShurcoolCreatePosts.Create`
always returns, and: when the resolver succeeds with the identity `shurcool`, the
`Create` of the wrapped service is called once with the same context, repository
and issue, and its result, its error and the state it leaves are returned
unchanged; when the resolver succeeds with another identity the result is the zero
issue with `os.ErrPermission`; when the resolver fails the result is the zero issue
with the error of the resolver; in these two cases only the resolver was asked.
Hence the log of the run ends with the call of the wrapped `Create` if and only if
the resolver succeeds with `shurcool`. -/
theorem C16_only_shurcool_creates_posts {T : issues.Types} (shurcool : Principal)
    (s : onlyShurcoolCreatePosts T σ) (ctx : context.Context) (repo : issues.RepoSpec)
    (issue : T.Issue) (w : World σ) :
    ((s.users.GetAuthenticatedSpec ctx w.state).1.2 = none →
      (s.users.GetAuthenticatedSpec ctx w.state).1.1 = shurcool →
      (s.Create shurcool ctx repo issue).run w =
        .ok ((s.Service.Create ctx repo issue (s.users.GetAuthenticatedSpec ctx w.state).2).1,
          { w with
            state := (s.Service.Create ctx repo issue
              (s.users.GetAuthenticatedSpec ctx w.state).2).2,
            log := w.log ++
              [.GetAuthenticatedSpec ctx, .backend .Local "Create" repo.URI] })) ∧
    ((s.users.GetAuthenticatedSpec ctx w.state).1.2 = none →
      (s.users.GetAuthenticatedSpec ctx w.state).1.1 ≠ shurcool →
      (s.Create shurcool ctx repo issue).run w =
        .ok ((T.zeroIssue, some os.ErrPermission), afterResolve s.users ctx w)) ∧
    ((s.users.GetAuthenticatedSpec ctx w.state).1.2 ≠ none →
      (s.Create shurcool ctx repo issue).run w =
        .ok ((T.zeroIssue, (s.users.GetAuthenticatedSpec ctx w.state).1.2),
          afterResolve s.users ctx w)) ∧
    (∃ r w1, (s.Create shurcool ctx repo issue).run w = .ok (r, w1) ∧
      (w1.log = w.log ++ [.GetAuthenticatedSpec ctx, .backend .Local "Create" repo.URI] ↔
        ((s.users.GetAuthenticatedSpec ctx w.state).1.2 = none ∧
          (s.users.GetAuthenticatedSpec ctx w.state).1.1 = shurcool))) := by
  have hd := onlyShurcoolCreatePosts_delegated shurcool s ctx repo issue w
  have hshurcool : (s.users.GetAuthenticatedSpec ctx w.state).1.2 = none →
      (s.users.GetAuthenticatedSpec ctx w.state).1.1 = shurcool →
      (s.Create shurcool ctx repo issue).run w =
        .ok ((s.Service.Create ctx repo issue (s.users.GetAuthenticatedSpec ctx w.state).2).1,
          { w with
            state := (s.Service.Create ctx repo issue
              (s.users.GetAuthenticatedSpec ctx w.state).2).2,
            log := w.log ++
              [.GetAuthenticatedSpec ctx, .backend .Local "Create" repo.URI] }) := by
    intro he hu
    rw [hd, delegated_shurcool shurcool s.users ctx w _ _ he hu, Eff.run_perform]
    simp [afterResolve]
  have hother : (s.users.GetAuthenticatedSpec ctx w.state).1.2 = none →
      (s.users.GetAuthenticatedSpec ctx w.state).1.1 ≠ shurcool →
      (s.Create shurcool ctx repo issue).run w =
        .ok ((T.zeroIssue, some os.ErrPermission), afterResolve s.users ctx w) := by
    intro he hu
    rw [hd, delegated_other shurcool s.users ctx w _ _ he hu]
  have hfailed : (s.users.GetAuthenticatedSpec ctx w.state).1.2 ≠ none →
      (s.Create shurcool ctx repo issue).run w =
        .ok ((T.zeroIssue, (s.users.GetAuthenticatedSpec ctx w.state).1.2),
          afterResolve s.users ctx w) := by
    intro he
    rw [hd, delegated_failed shurcool s.users ctx w _ _ he]
  refine ⟨hshurcool, hother, hfailed, ?_⟩
  by_cases he : (s.users.GetAuthenticatedSpec ctx w.state).1.2 = none
  · by_cases hu : (s.users.GetAuthenticatedSpec ctx w.state).1.1 = shurcool
    · exact ⟨_, _, hshurcool he hu, by simp [he, hu]⟩
    · refine ⟨_, _, hother he hu, ?_⟩
      simp [afterResolve, hu]
  · refine ⟨_, _, hfailed he, ?_⟩
    simp [afterResolve, he]

/-- An instance of C16: `shurcool` creates a post, and the wrapped service (the
sample backend tagged 1) answers. -/
theorem C16_only_shurcool_creates_posts_witness :
    (onlyShurcoolCreatePosts.Create sampleShurcool
        { Service := sampleIssuesService 1, users := sampleUsers sampleShurcool none } []
        { URI := "dmitri.shuralyov.com/blog".toList } (9 : Nat)).run (sampleWorld [] []) =
      .ok (((1 : Nat), none),
        { state := 1, urls := [{ Path := [], RawQuery := [] }], header := [], connErr := none,
          log := [.GetAuthenticatedSpec [],
            .backend .Local "Create" "dmitri.shuralyov.com/blog".toList] }) :=
  (C16_only_shurcool_creates_posts sampleShurcool
    { Service := sampleIssuesService 1, users := sampleUsers sampleShurcool none } []
    { URI := "dmitri.shuralyov.com/blog".toList } (9 : Nat) (sampleWorld [] [])).1 rfl rfl

end noexemption

/-! ## The return parameter of the login redirect -/

section roundtrip

set_option maxRecDepth 100000 in
/-- The two hexadecimal digits that `escape` writes for a byte are read back as
that byte. -/
theorem unhex_upperhex (n : Nat) (h : n < 256) :
    url.ishex (url.upperhex.getD (n >>> 4) '0') = true ∧
    url.ishex (url.upperhex.getD (n &&& 15) '0') = true ∧
    url.unhex (url.upperhex.getD (n >>> 4) '0') <<< 4 |||
      url.unhex (url.upperhex.getD (n &&& 15) '0') = n := by
  revert n
  decide

/-- Go `escape` works byte by byte. -/
theorem escape_cons (c : Char) (s : GoString) (mode : url.encoding) :
    url.escape (c :: s) mode = url.escape [c] mode ++ url.escape s mode := by
  simp [url.escape, List.flatMap_cons]

/-- Go `unescape` at a string that is not empty. -/
theorem unescape_cons (c : Char) (rest : GoString) (mode : url.encoding) :
    url.unescape (c :: rest) mode =
      if c = '%' then
        match rest with
        | a :: b :: rest2 =>
          if url.ishex a ∧ url.ishex b then
            (url.unescape rest2 mode).map (Char.ofNat (url.unhex a <<< 4 ||| url.unhex b) :: ·)
          else none
        | _ => none
      else if c = '+' ∧ mode = .encodeQueryComponent then
        (url.unescape rest mode).map (' ' :: ·)
      else (url.unescape rest mode).map (c :: ·) := by
  rw [url.unescape.eq_def]
  rfl

/-- What `unescape` reads at the head of a query component is the byte that `escape` wrote
there. -/
theorem unescape_escape_cons (c : Char) (rest : GoString) (hc : c.toNat < 256) :
    url.unescape (url.escape [c] .encodeQueryComponent ++ rest) .encodeQueryComponent =
      (url.unescape rest .encodeQueryComponent).map (c :: ·) := by
  by_cases hsp : c = ' '
  · subst hsp
    have he : url.escape [' '] .encodeQueryComponent = ['+'] := by decide
    rw [he, List.singleton_append, unescape_cons]
    rfl
  · by_cases hse : url.shouldEscape c .encodeQueryComponent = true
    · obtain ⟨h1, h2, h3⟩ := unhex_upperhex c.toNat hc
      have he : url.escape [c] .encodeQueryComponent =
          ['%', url.upperhex.getD (c.toNat >>> 4) '0', url.upperhex.getD (c.toNat &&& 15) '0'] := by
        simp [url.escape, hsp, hse]
      rw [he, List.cons_append, List.cons_append, List.cons_append, List.nil_append,
        unescape_cons]
      simp only [if_true, h1, h2, h3, and_self, Char.ofNat_toNat]
    · have he : url.escape [c] .encodeQueryComponent = [c] := by
        simp [url.escape, hsp, hse]
      have hpc : c ≠ '%' := by
        intro h
        subst h
        exact hse (by decide)
      have hpl : ¬(c = '+' ∧ url.encoding.encodeQueryComponent = .encodeQueryComponent) := by
        rintro ⟨h, -⟩
        subst h
        exact hse (by decide)
      rw [he, List.singleton_append, unescape_cons, if_neg hpc, if_neg hpl]

/-- Go `unescape` undoes `escape` on every string of bytes, in the mode of a query
component. -/
theorem unescape_escape (s : GoString) (hs : ∀ c ∈ s, c.toNat < 256) :
    url.QueryUnescape (url.QueryEscape s) = some s := by
  unfold url.QueryUnescape url.QueryEscape
  induction s with
  | nil => rfl
  | cons c s ih =>
    rw [escape_cons, unescape_escape_cons c _ (hs c (List.mem_cons_self c s)),
      ih fun x hx => hs x (List.mem_cons_of_mem c hx)]
    rfl

set_option maxRecDepth 100000 in
/-- What `escape` writes for a byte of a query component holds no separator of a
query, no `?`, no `#` and no control byte. -/
theorem escape_byte_safe (n : Nat) (h : n < 256) :
    ∀ x ∈ url.escape [Char.ofNat n] .encodeQueryComponent,
      x ≠ '&' ∧ x ≠ ';' ∧ x ≠ '=' ∧ x ≠ '#' ∧ x ≠ '?' ∧ ¬(x.toNat < 32 ∨ x.toNat = 127) := by
  revert n
  decide

/-- A query-escaped string of bytes holds no separator of a query, no `?`, no `#`
and no control byte. -/
theorem QueryEscape_safe (s : GoString) (hs : ∀ c ∈ s, c.toNat < 256) :
    ∀ x ∈ url.QueryEscape s,
      x ≠ '&' ∧ x ≠ ';' ∧ x ≠ '=' ∧ x ≠ '#' ∧ x ≠ '?' ∧ ¬(x.toNat < 32 ∨ x.toNat = 127) := by
  unfold url.QueryEscape
  induction s with
  | nil =>
    intro x hx
    exact absurd hx (List.not_mem_nil x)
  | cons c s ih =>
    intro x hx
    rw [escape_cons, List.mem_append] at hx
    rcases hx with hx | hx
    · have hb := escape_byte_safe c.toNat (hs c (List.mem_cons_self c s)) x
      rw [Char.ofNat_toNat] at hb
      exact hb hx
    · exact ih (fun y hy => hs y (List.mem_cons_of_mem c hy)) x hx

/-- Go `strings.Cut` of a string without the separator. -/
theorem Cut_absent (s : GoString) (sep : Char) (h : sep ∉ s) :
    strings.Cut s sep = (s, [], false) := by
  unfold strings.Cut
  rw [if_neg h]

/-- Go `strings.Cut` at the first separator. -/
theorem Cut_present (a t : GoString) (sep : Char) (h : sep ∉ a) :
    strings.Cut (a ++ sep :: t) sep = (a, t, true) := by
  unfold strings.Cut
  rw [if_pos (by simp), takeWhile_sep a t sep h, dropWhile_sep a t sep h]
  rfl

/-- The loop of `parseQuery` stops at the empty query. -/
theorem parseQuery_nil (fuel : Nat) (m : url.Values) (err : Option Error) :
    url.parseQuery fuel m [] err = (m, err) := by
  cases fuel with
  | zero => rfl
  | succ n => rfl

/-- Go `ParseQuery` of a query that is the one parameter `return` with a
query-escaped string of bytes for its value. -/
theorem ParseQuery_return (s : GoString) (hs : ∀ c ∈ s, c.toNat < 256) :
    url.ParseQuery ("return=".toList ++ url.QueryEscape s) =
      ([(returnQueryName, [s])], none) := by
  have hsafe := QueryEscape_safe s hs
  have hq : "return=".toList ++ url.QueryEscape s =
      "return".toList ++ '=' :: url.QueryEscape s := by
    simp
  have hamp : '&' ∉ "return=".toList ++ url.QueryEscape s := by
    intro h
    rcases List.mem_append.mp h with h | h
    · revert h; decide
    · exact (hsafe _ h).1 rfl
  have hsemi : ';' ∉ "return=".toList ++ url.QueryEscape s := by
    intro h
    rcases List.mem_append.mp h with h | h
    · revert h; decide
    · exact (hsafe _ h).2.1 rfl
  have hne : "return=".toList ++ url.QueryEscape s ≠ [] := by simp
  have hkey : url.QueryUnescape "return".toList = some "return".toList := by decide
  have hlen : len ("return=".toList ++ url.QueryEscape s) = (6 + len (url.QueryEscape s)) + 1 := by
    show ("return=".toList ++ url.QueryEscape s).length = (6 + (url.QueryEscape s).length) + 1
    rw [List.length_append]
    have h7 : "return=".toList.length = 7 := rfl
    omega
  unfold url.ParseQuery
  rw [hlen, url.parseQuery]
  simp only [if_neg hne, Cut_absent _ _ hamp, if_neg hsemi]
  rw [hq, Cut_present "return".toList _ '=' (by decide)]
  simp only [hkey, unescape_escape s hs, parseQuery_nil]
  rfl

/-- Go `url.Parse` of the login URL. -/
theorem Parse_login (s : GoString) (hs : ∀ c ∈ s, c.toNat < 256) :
    url.Parse ("/login?return=".toList ++ url.QueryEscape s) =
      some { Path := "/login".toList, RawQuery := "return=".toList ++ url.QueryEscape s } := by
  have hsafe := QueryEscape_safe s hs
  have hq : "/login?return=".toList ++ url.QueryEscape s =
      "/login".toList ++ '?' :: ("return=".toList ++ url.QueryEscape s) := by
    simp
  have hguard : ¬('#' ∈ "/login?return=".toList ++ url.QueryEscape s ∨
      (∃ c ∈ "/login?return=".toList ++ url.QueryEscape s, c.toNat < 32 ∨ c.toNat = 127) ∨
      ¬strings.HasPrefix ("/login?return=".toList ++ url.QueryEscape s) "/".toList ∨
      strings.HasPrefix ("/login?return=".toList ++ url.QueryEscape s) "//".toList) := by
    rintro (h | ⟨c, hc, hctl⟩ | h | h)
    · rcases List.mem_append.mp h with h | h
      · revert h; decide
      · exact (hsafe _ h).2.2.2.1 rfl
    · rcases List.mem_append.mp hc with hc | hc
      · have hall : ∀ x ∈ "/login?return=".toList, ¬(x.toNat < 32 ∨ x.toNat = 127) := by decide
        exact hall c hc hctl
      · exact (hsafe _ hc).2.2.2.2.2 hctl
    · exact h ((HasPrefix_iff _ _).mpr ⟨"login?return=".toList ++ url.QueryEscape s, by simp⟩)
    · obtain ⟨t, ht⟩ := (HasPrefix_iff _ _).mp h
      simp at ht
  have hlast : ¬(("/login?return=".toList ++ url.QueryEscape s).getLast? = some '?' ∧
      ("/login?return=".toList ++ url.QueryEscape s).count '?' = 1) := by
    rintro ⟨h, -⟩
    have hsplit : "/login?return=".toList ++ url.QueryEscape s =
        "/login?return".toList ++ ('=' :: url.QueryEscape s) := by simp
    rw [hsplit, List.getLast?_append_of_ne_nil _ (List.cons_ne_nil _ _)] at h
    have hmem := List.mem_of_getLast?_eq_some h
    rcases List.mem_cons.mp hmem with hx | hx
    · revert hx; decide
    · exact (hsafe _ hx).2.2.2.2.1 rfl
  have hpath : url.unescape "/login".toList .encodePath = some "/login".toList := by decide
  unfold url.Parse
  rw [if_neg hguard, if_neg hlast, hq, Cut_present "/login".toList _ '?' (by decide)]
  simp only [hpath]
  rfl

/-- Claim C14. For every request URI `u`, a Go string being a list of bytes (every
character of the model below 256; `?`, `&`, `=`, `%`, `+`, spaces and bytes above
127 are all allowed): the login URL that the mount handlers synthesize,
`(&url.URL{Path: "/login", RawQuery: url.Values{returnQueryName: {u}}.Encode()}).String()`,
is `/login?` followed by `return=` and the query-escaped `u`; `url.Parse` of that
URL gives the path `/login` and that query; `url.ParseQuery` of the query gives,
without error, the one parameter `return` with the one value `u`; so `Get` of
`return` is exactly `u`. -/
theorem C14_return_parameter_round_trip (u : GoString) (hu : ∀ c ∈ u, c.toNat < 256) :
    url.URL.String
        { Path := "/login".toList,
          RawQuery := url.Values.Encode [(returnQueryName, [u])] } =
      "/login?".toList ++ ("return=".toList ++ url.QueryEscape u) ∧
    url.Parse
        (url.URL.String
          { Path := "/login".toList,
            RawQuery := url.Values.Encode [(returnQueryName, [u])] }) =
      some { Path := "/login".toList, RawQuery := "return=".toList ++ url.QueryEscape u } ∧
    url.ParseQuery ("return=".toList ++ url.QueryEscape u) =
      ([(returnQueryName, [u])], none) ∧
    (url.ParseQuery ("return=".toList ++ url.QueryEscape u)).1.Get returnQueryName = u := by
  have hl := loginURL_eq u
  refine ⟨?_, ?_, ParseQuery_return u hu, ?_⟩
  · rw [hl]
    simp
  · rw [hl]
    exact Parse_login u hu
  · rw [ParseQuery_return u hu]
    simp [url.Values.Get, List.lookup]

/-- An instance of C14: the request URI `/a b?x=1&y=%+`, followed by the byte 233. -/
theorem C14_return_parameter_round_trip_witness :
    (∀ c ∈ "/a b?x=1&y=%+\xe9".toList, c.toNat < 256) ∧
    (url.ParseQuery ("return=".toList ++ url.QueryEscape "/a b?x=1&y=%+\xe9".toList)).1.Get
        returnQueryName = "/a b?x=1&y=%+\xe9".toList :=
  ⟨by decide, (C14_return_parameter_round_trip "/a b?x=1&y=%+\xe9".toList (by decide)).2.2.2⟩

end roundtrip

/-! ## The fuel of `parseQuery` -/

section fuel

/-- What `strings.Cut` leaves after the separator is shorter than the string. -/
theorem Cut_rest_lt (q : GoString) (sep : Char) (h : q ≠ []) :
    len (strings.Cut q sep).2.1 < len q := by
  unfold strings.Cut
  by_cases hs : sep ∈ q
  · rw [if_pos hs]
    obtain ⟨a, t, hq, ha⟩ := exists_sep q sep hs
    show ((q.dropWhile (· != sep)).drop 1).length < q.length
    rw [hq, dropWhile_sep a t sep ha]
    simp
    omega
  · rw [if_neg hs]
    exact List.length_pos.mpr h

/-- The loop of `parseQuery` does not depend on the fuel once the fuel is at least
the length of the query: it never stops for lack of fuel. -/
theorem parseQuery_fuel (n : Nat) :
    ∀ (f1 f2 : Nat) (m : url.Values) (q : GoString) (err : Option Error),
      len q ≤ n → len q ≤ f1 → len q ≤ f2 →
      url.parseQuery f1 m q err = url.parseQuery f2 m q err := by
  induction n with
  | zero =>
    intro f1 f2 m q err hn _ _
    have hq : q = [] := List.length_eq_zero.mp (Nat.le_zero.mp hn)
    rw [hq, parseQuery_nil, parseQuery_nil]
  | succ n ih =>
    intro f1 f2 m q err hn h1 h2
    by_cases hq : q = []
    · rw [hq, parseQuery_nil, parseQuery_nil]
    · have hpos : 0 < len q := List.length_pos.mpr hq
      have hlt := Cut_rest_lt q '&' hq
      obtain ⟨g1, rfl⟩ : ∃ g, f1 = g + 1 := ⟨f1 - 1, by omega⟩
      obtain ⟨g2, rfl⟩ : ∃ g, f2 = g + 1 := ⟨f2 - 1, by omega⟩
      have hr : ∀ m1 err1, url.parseQuery g1 m1 (strings.Cut q '&').2.1 err1 =
          url.parseQuery g2 m1 (strings.Cut q '&').2.1 err1 :=
        fun m1 err1 => ih g1 g2 m1 _ err1 (by omega) (by omega) (by omega)
      rw [url.parseQuery, url.parseQuery]
      simp only [if_neg hq, hr]

/-- Go `ParseQuery` is the loop of `parseQuery` at any fuel that is at least the
length of the query. -/
theorem ParseQuery_fuel (fuel : Nat) (query : GoString) (h : len query ≤ fuel) :
    url.parseQuery fuel [] query none = url.ParseQuery query :=
  parseQuery_fuel (len query) fuel (len query) [] query none (Nat.le_refl _) h (Nat.le_refl _)

end fuel

/-! ## The slices of the wildcard mounts -/

section slices

variable {σ : Type}

/-- The pieces that pass the owner and name check are the owner, the name and, for
a longer path, what follows. -/
theorem wellformed_elems (rest : GoString)
    (h : ¬(len (strings.SplitN rest '/' 3) < 2 ∨ (strings.SplitN rest '/' 3)[0]? = some [] ∨
      (strings.SplitN rest '/' 3)[1]? = some [])) :
    ∃ owner name suffix, rest = owner ++ '/' :: (name ++ suffix) ∧ owner ≠ [] ∧ name ≠ [] ∧
      '/' ∉ owner ∧ '/' ∉ name ∧ (suffix = [] ∨ ∃ tail, suffix = '/' :: tail) ∧
      (strings.SplitN rest '/' 3)[0]? = some owner ∧
      (strings.SplitN rest '/' 3)[1]? = some name := by
  obtain ⟨owner, name, suffix, hr, ho, hn, hos, hns, hsuf⟩ := wellformed_cases rest h
  refine ⟨owner, name, suffix, hr, ho, hn, hos, hns, hsuf, ?_⟩
  rcases hsuf with hs | ⟨tail, hs⟩
  · subst hs
    rw [List.append_nil] at hr
    rw [hr, SplitN_two owner name hos hns]
    exact ⟨rfl, rfl⟩
  · subst hs
    rw [hr, SplitN_three owner name tail hos hns]
    exact ⟨rfl, rfl⟩

/-- The base URL that a wildcard mount computes from the pieces of a path that
passes the check is a prefix of the path, and what follows it is empty or starts
with a slash. -/
theorem wellformed_slices (mount path : GoString)
    (hp : strings.HasPrefix path mount = true)
    (h : ¬(len (strings.SplitN (path.drop (len mount)) '/' 3) < 2 ∨
      (strings.SplitN (path.drop (len mount)) '/' 3)[0]? = some [] ∨
      (strings.SplitN (path.drop (len mount)) '/' 3)[1]? = some []))
    (elems0 elems1 : GoString)
    (h0 : (strings.SplitN (path.drop (len mount)) '/' 3)[0]? = some elems0)
    (h1 : (strings.SplitN (path.drop (len mount)) '/' 3)[1]? = some elems1) :
    len (mount ++ elems0 ++ "/".toList ++ elems1) ≤ len path ∧
    path.take (len (mount ++ elems0 ++ "/".toList ++ elems1)) =
      mount ++ elems0 ++ "/".toList ++ elems1 ∧
    (path.drop (len (mount ++ elems0 ++ "/".toList ++ elems1)) = [] ∨
      ∃ tail, path.drop (len (mount ++ elems0 ++ "/".toList ++ elems1)) = '/' :: tail) := by
  obtain ⟨t, ht⟩ := (HasPrefix_iff path mount).mp hp
  have hdrop : path.drop (len mount) = t := by rw [ht]; exact List.drop_left _ _
  rw [hdrop] at h h0 h1
  obtain ⟨owner, name, suffix, hr, -, -, -, -, hsuf, g0, g1⟩ := wellformed_elems t h
  have e0 : elems0 = owner := Option.some.inj (h0.symm.trans g0)
  have e1 : elems1 = name := Option.some.inj (h1.symm.trans g1)
  subst e0 e1
  have hpath : path = (mount ++ elems0 ++ "/".toList ++ elems1) ++ suffix := by
    rw [ht, hr, path_assoc]
  refine ⟨?_, ?_, ?_⟩
  · rw [hpath]
    show (mount ++ elems0 ++ "/".toList ++ elems1).length ≤
      ((mount ++ elems0 ++ "/".toList ++ elems1) ++ suffix).length
    exact (List.length_append _ suffix).symm ▸ Nat.le_add_right _ _
  · rw [hpath]
    exact List.take_left _ _
  · have hd : path.drop (len (mount ++ elems0 ++ "/".toList ++ elems1)) = suffix := by
      rw [hpath]
      exact List.drop_left _ _
    rw [hd]
    exact hsuf

/-- Handler `issuesHandler` on a path under its base URL does not slice out of range. -/
theorem issuesHandler_in_range (repo : Repo) (app : http.Handler σ) (req : http.Request)
    (w : World σ) (u : url.URL) (suffix : GoString)
    (hu : w.urls[req.URL]? = some u) (hp : u.Path = repo.BaseURL ++ suffix) :
    (issuesHandler repo app req).run w ≠ .error .sliceBounds ∧
    (issuesHandler repo app req).run w ≠ .error .indexRange := by
  by_cases hs : suffix = "/".toList
  · subst hs
    rw [issuesHandler_root repo app req w u hu hp]
    exact ⟨fun h => Except.noConfusion h, fun h => Except.noConfusion h⟩
  · rcases session_cases req.ctx with ⟨s, hsess⟩ | hsess
    · rw [issuesHandler_served repo app req w u suffix s hu hp hs hsess]
      split_ifs
      · exact ⟨fun h => Except.noConfusion h, fun h => Except.noConfusion h⟩
      · exact ⟨fun h => Except.noConfusion h, fun h => Except.noConfusion h⟩
    · rw [issuesHandler_noSession repo app req w u suffix hu hp hs hsess]
      exact ⟨fun h => Panic.noConfusion (Except.error.inj h),
        fun h => Panic.noConfusion (Except.error.inj h)⟩

/-- Handler `changesHandler.ServeHTTP` on a path under its base URL does not slice
out of range. -/
theorem changesHandler_in_range (h : changesHandler σ) (req : http.Request)
    (w : World σ) (u : url.URL) (suffix : GoString)
    (hu : w.urls[req.URL]? = some u) (hp : u.Path = h.BaseURL ++ suffix) :
    (h.ServeHTTP req).run w ≠ .error .sliceBounds ∧
    (h.ServeHTTP req).run w ≠ .error .indexRange := by
  by_cases hs : suffix = "/".toList
  · subst hs
    rw [changesHandler_root h req w u hu hp]
    exact ⟨fun h => Except.noConfusion h, fun h => Except.noConfusion h⟩
  · rcases session_cases req.ctx with ⟨s, hsess⟩ | hsess
    · rw [changesHandler_served h req w u suffix s hu hp hs hsess]
      split_ifs
      · exact ⟨fun h => Except.noConfusion h, fun h => Except.noConfusion h⟩
      · exact ⟨fun h => Except.noConfusion h, fun h => Except.noConfusion h⟩
    · rw [changesHandler_noSession h req w u suffix hu hp hs hsess]
      exact ⟨fun h => Panic.noConfusion (Except.error.inj h),
        fun h => Panic.noConfusion (Except.error.inj h)⟩

/-- Handler `githubIssuesHandler` on a path under `/issues/github.com/` does not slice
or index out of range. -/
theorem githubIssuesHandler_in_range (app : http.Handler σ) (req : http.Request)
    (w : World σ) (u : url.URL) (hu : w.urls[req.URL]? = some u)
    (hp : strings.HasPrefix u.Path "/issues/github.com/".toList = true) :
    (githubIssuesHandler app req).run w ≠ .error .sliceBounds ∧
    (githubIssuesHandler app req).run w ≠ .error .indexRange := by
  obtain ⟨t, ht⟩ := (HasPrefix_iff _ _).mp hp
  by_cases h : len (strings.SplitN t '/' 3) < 2 ∨ (strings.SplitN t '/' 3)[0]? = some [] ∨
      (strings.SplitN t '/' 3)[1]? = some []
  · rw [githubIssuesHandler_notExist app req w u t hu ht h]
    exact ⟨fun h => Except.noConfusion h, fun h => Except.noConfusion h⟩
  · obtain ⟨owner, name, suffix, hr, ho, hn, hos, hns, hsuf⟩ := wellformed_cases t h
    rw [githubIssuesHandler_eq app req w u owner name suffix hu (by rw [ht, hr]) ho hn hos hns
      hsuf]
    exact issuesHandler_in_range _ app req w u suffix hu
      (by rw [ht, hr, issuesBase_eq, path_assoc])

/-- Handler `githubChangesHandler` on a path under `/changes/github.com/` does not slice
or index out of range. -/
theorem githubChangesHandler_in_range (shurcool : Principal) (users : users.Service σ)
    (app : http.Handler σ) (req : http.Request)
    (w : World σ) (u : url.URL) (hu : w.urls[req.URL]? = some u)
    (hp : strings.HasPrefix u.Path "/changes/github.com/".toList = true) :
    (githubChangesHandler shurcool users app req).run w ≠ .error .sliceBounds ∧
    (githubChangesHandler shurcool users app req).run w ≠ .error .indexRange := by
  obtain ⟨t, ht⟩ := (HasPrefix_iff _ _).mp hp
  by_cases h : len (strings.SplitN t '/' 3) < 2 ∨ (strings.SplitN t '/' 3)[0]? = some [] ∨
      (strings.SplitN t '/' 3)[1]? = some []
  · rw [githubChangesHandler_notExist shurcool users app req w u t hu ht h]
    exact ⟨fun h => Except.noConfusion h, fun h => Except.noConfusion h⟩
  · obtain ⟨owner, name, suffix, hr, ho, hn, hos, hns, hsuf⟩ := wellformed_cases t h
    rw [githubChangesHandler_resolved shurcool users app req w u owner name suffix hu
      (by rw [ht, hr]) ho hn hos hns hsuf]
    by_cases he : (users.GetAuthenticatedSpec req.ctx w.state).1.2 ≠ none
    · rw [if_pos he]
      exact ⟨fun h => Except.noConfusion h, fun h => Except.noConfusion h⟩
    rw [if_neg he]
    by_cases hc : (users.GetAuthenticatedSpec req.ctx w.state).1.1 ≠ shurcool
    · rw [if_pos hc]
      exact ⟨fun h => Except.noConfusion h, fun h => Except.noConfusion h⟩
    rw [if_neg hc]
    · have hbase : u.Path =
          "/changes/".toList ++ ("github.com/".toList ++ owner ++ "/".toList ++ name) ++
            suffix := by
        rw [ht, hr, changesBase_eq, path_assoc]
      exact changesHandler_in_range
        { SpecURL := "github.com/".toList ++ owner ++ "/".toList ++ name,
          BaseURL := "/changes/".toList ++ ("github.com/".toList ++ owner ++ "/".toList ++ name),
          changesApp := app }
        req (afterResolve users req.ctx w) u suffix hu hbase

/-- Claim C19. For every request whose path starts with `/issues/github.com/`
(`githubIssuesHandler`) or with `/changes/github.com/` (`githubChangesHandler`), the
run of the handler ends neither in a slice-bounds panic nor in an index panic. When
the pieces `elems` of the rest of the path pass the owner and name check, the base
URL that the handler computes from `elems[0]` and `elems[1]` is a prefix of the
path: it is no longer than the path, the slice `path[:prefixLen]` returns it, and
the slice `path[prefixLen:]` returns what follows, which is empty or starts with a
slash. -/
theorem C19_path_slices_stay_in_range (shurcool : Principal) (users : users.Service σ)
    (app : http.Handler σ) (req : http.Request) (w : World σ) (u : url.URL)
    (hu : w.urls[req.URL]? = some u) :
    (strings.HasPrefix u.Path "/issues/github.com/".toList = true →
      ((githubIssuesHandler app req).run w ≠ .error .sliceBounds ∧
        (githubIssuesHandler app req).run w ≠ .error .indexRange) ∧
      (¬(len (strings.SplitN (u.Path.drop (len "/issues/github.com/".toList)) '/' 3) < 2 ∨
          (strings.SplitN (u.Path.drop (len "/issues/github.com/".toList)) '/' 3)[0]? = some [] ∨
          (strings.SplitN (u.Path.drop (len "/issues/github.com/".toList)) '/' 3)[1]? =
            some []) →
        ∀ elems0 elems1 : GoString,
          (strings.SplitN (u.Path.drop (len "/issues/github.com/".toList)) '/' 3)[0]? =
            some elems0 →
          (strings.SplitN (u.Path.drop (len "/issues/github.com/".toList)) '/' 3)[1]? =
            some elems1 →
          len ("/issues/".toList ++ ("github.com/".toList ++ elems0 ++ "/".toList ++ elems1)) ≤
            len u.Path ∧
          (sliceTo u.Path
              (len ("/issues/".toList ++
                ("github.com/".toList ++ elems0 ++ "/".toList ++ elems1)))).run w =
            .ok ("/issues/".toList ++ ("github.com/".toList ++ elems0 ++ "/".toList ++ elems1),
              w) ∧
          ∃ suffix, (suffix = [] ∨ ∃ tail, suffix = '/' :: tail) ∧
            (sliceFrom u.Path
                (len ("/issues/".toList ++
                  ("github.com/".toList ++ elems0 ++ "/".toList ++ elems1)))).run w =
              .ok (suffix, w))) ∧
    (strings.HasPrefix u.Path "/changes/github.com/".toList = true →
      ((githubChangesHandler shurcool users app req).run w ≠ .error .sliceBounds ∧
        (githubChangesHandler shurcool users app req).run w ≠ .error .indexRange) ∧
      (¬(len (strings.SplitN (u.Path.drop (len "/changes/github.com/".toList)) '/' 3) < 2 ∨
          (strings.SplitN (u.Path.drop (len "/changes/github.com/".toList)) '/' 3)[0]? =
            some [] ∨
          (strings.SplitN (u.Path.drop (len "/changes/github.com/".toList)) '/' 3)[1]? =
            some []) →
        ∀ elems0 elems1 : GoString,
          (strings.SplitN (u.Path.drop (len "/changes/github.com/".toList)) '/' 3)[0]? =
            some elems0 →
          (strings.SplitN (u.Path.drop (len "/changes/github.com/".toList)) '/' 3)[1]? =
            some elems1 →
          len ("/changes/".toList ++ ("github.com/".toList ++ elems0 ++ "/".toList ++ elems1)) ≤
            len u.Path ∧
          (sliceTo u.Path
              (len ("/changes/".toList ++
                ("github.com/".toList ++ elems0 ++ "/".toList ++ elems1)))).run w =
            .ok ("/changes/".toList ++ ("github.com/".toList ++ elems0 ++ "/".toList ++ elems1),
              w) ∧
          ∃ suffix, (suffix = [] ∨ ∃ tail, suffix = '/' :: tail) ∧
            (sliceFrom u.Path
                (len ("/changes/".toList ++
                  ("github.com/".toList ++ elems0 ++ "/".toList ++ elems1)))).run w =
              .ok (suffix, w))) := by
  constructor
  · intro hp
    refine ⟨githubIssuesHandler_in_range app req w u hu hp, ?_⟩
    intro hwf elems0 elems1 h0 h1
    obtain ⟨hle, htake, hdrop⟩ :=
      wellformed_slices "/issues/github.com/".toList u.Path hp hwf elems0 elems1 h0 h1
    rw [issuesBase_eq]
    refine ⟨hle, ?_, _, hdrop, ?_⟩
    · rw [Eff.run_sliceTo, if_pos hle, htake]
    · rw [Eff.run_sliceFrom, if_pos hle]
  · intro hp
    refine ⟨githubChangesHandler_in_range shurcool users app req w u hu hp, ?_⟩
    intro hwf elems0 elems1 h0 h1
    obtain ⟨hle, htake, hdrop⟩ :=
      wellformed_slices "/changes/github.com/".toList u.Path hp hwf elems0 elems1 h0 h1
    rw [changesBase_eq]
    refine ⟨hle, ?_, _, hdrop, ?_⟩
    · rw [Eff.run_sliceTo, if_pos hle, htake]
    · rw [Eff.run_sliceFrom, if_pos hle]

/-- An instance of C19: the path `/issues/github.com/foo/bar/3`. -/
theorem C19_path_slices_stay_in_range_witness :
    (sliceTo "/issues/github.com/foo/bar/3".toList
        (len ("/issues/".toList ++
          ("github.com/".toList ++ "foo".toList ++ "/".toList ++ "bar".toList)))).run
        (sampleWorld "/issues/github.com/foo/bar/3".toList []) =
      .ok ("/issues/".toList ++
          ("github.com/".toList ++ "foo".toList ++ "/".toList ++ "bar".toList),
        sampleWorld "/issues/github.com/foo/bar/3".toList []) :=
  (((C19_path_slices_stay_in_range sampleShurcool (sampleUsers sampleShurcool none)
    (sampleApp 200 []) (sampleRequest "/issues/github.com/foo/bar/3".toList noSession)
    (sampleWorld "/issues/github.com/foo/bar/3".toList [])
    { Path := "/issues/github.com/foo/bar/3".toList, RawQuery := [] } rfl).1 (by decide)).2
    (by decide) "foo".toList "bar".toList (by decide) (by decide)).2.1

end slices

/-! ## The wildcard mounts and the static mounts -/

section agreement

variable {σ : Type}

/-- Claim C18. Here `<owner>` and `<name>` are the first two segments of the path
after the mount point, as the handlers parse them: both are non-empty and hold no
slash, and the path is `/issues/github.com/<owner>/<name>` (resp. `/changes/...`)
alone or followed by a slash and anything. For every such request,
`githubIssuesHandler` runs exactly as the static `issuesHandler` of the mount with
`SpecURL` `github.com/<owner>/<name>` and `BaseURL`
`/issues/github.com/<owner>/<name>`: same result (root redirect, login redirect,
or the error of the replay), same world (derived request with its path, repository
and base URI, calls, writes), same panic if any. When the resolver succeeds with
`shurcool`, `githubChangesHandler` runs, from the world in which the resolver has
answered, exactly as `changesHandler{SpecURL, BaseURL, changesApp}.ServeHTTP` with
`SpecURL` `github.com/<owner>/<name>` and `BaseURL`
`/changes/github.com/<owner>/<name>`. The same holds with `<owner>` and `<name>`
read off the pieces `elems[0]` and `elems[1]` of any path that passes the owner
and name check. -/
theorem C18_wildcard_mounts_agree_with_static (shurcool : Principal)
    (users : users.Service σ) (app : http.Handler σ) (req : http.Request) (w : World σ)
    (u : url.URL) (hu : w.urls[req.URL]? = some u) :
    (∀ owner name suffix : GoString,
      u.Path = "/issues/github.com/".toList ++ owner ++ "/".toList ++ name ++ suffix →
      owner ≠ [] → name ≠ [] → '/' ∉ owner → '/' ∉ name →
      (suffix = [] ∨ ∃ rest, suffix = '/' :: rest) →
      (githubIssuesHandler app req).run w =
        (issuesHandler
          { SpecURL := "github.com/".toList ++ owner ++ "/".toList ++ name,
            BaseURL := "/issues/github.com/".toList ++ owner ++ "/".toList ++ name }
          app req).run w) ∧
    (∀ owner name suffix : GoString,
      u.Path = "/changes/github.com/".toList ++ owner ++ "/".toList ++ name ++ suffix →
      owner ≠ [] → name ≠ [] → '/' ∉ owner → '/' ∉ name →
      (suffix = [] ∨ ∃ rest, suffix = '/' :: rest) →
      (users.GetAuthenticatedSpec req.ctx w.state).1.2 = none →
      (users.GetAuthenticatedSpec req.ctx w.state).1.1 = shurcool →
      (githubChangesHandler shurcool users app req).run w =
        (changesHandler.ServeHTTP
          { SpecURL := "github.com/".toList ++ owner ++ "/".toList ++ name,
            BaseURL := "/changes/github.com/".toList ++ owner ++ "/".toList ++ name,
            changesApp := app }
          req).run (afterResolve users req.ctx w)) ∧
    (strings.HasPrefix u.Path "/issues/github.com/".toList = true →
      ¬(len (strings.SplitN (u.Path.drop (len "/issues/github.com/".toList)) '/' 3) < 2 ∨
          (strings.SplitN (u.Path.drop (len "/issues/github.com/".toList)) '/' 3)[0]? = some [] ∨
          (strings.SplitN (u.Path.drop (len "/issues/github.com/".toList)) '/' 3)[1]? =
            some []) →
      ∀ elems0 elems1 : GoString,
        (strings.SplitN (u.Path.drop (len "/issues/github.com/".toList)) '/' 3)[0]? =
          some elems0 →
        (strings.SplitN (u.Path.drop (len "/issues/github.com/".toList)) '/' 3)[1]? =
          some elems1 →
        (githubIssuesHandler app req).run w =
          (issuesHandler
            { SpecURL := "github.com/".toList ++ elems0 ++ "/".toList ++ elems1,
              BaseURL := "/issues/github.com/".toList ++ elems0 ++ "/".toList ++ elems1 }
            app req).run w) ∧
    (strings.HasPrefix u.Path "/changes/github.com/".toList = true →
      ¬(len (strings.SplitN (u.Path.drop (len "/changes/github.com/".toList)) '/' 3) < 2 ∨
          (strings.SplitN (u.Path.drop (len "/changes/github.com/".toList)) '/' 3)[0]? =
            some [] ∨
          (strings.SplitN (u.Path.drop (len "/changes/github.com/".toList)) '/' 3)[1]? =
            some []) →
      ∀ elems0 elems1 : GoString,
        (strings.SplitN (u.Path.drop (len "/changes/github.com/".toList)) '/' 3)[0]? =
          some elems0 →
        (strings.SplitN (u.Path.drop (len "/changes/github.com/".toList)) '/' 3)[1]? =
          some elems1 →
        (users.GetAuthenticatedSpec req.ctx w.state).1.2 = none →
        (users.GetAuthenticatedSpec req.ctx w.state).1.1 = shurcool →
        (githubChangesHandler shurcool users app req).run w =
          (changesHandler.ServeHTTP
            { SpecURL := "github.com/".toList ++ elems0 ++ "/".toList ++ elems1,
              BaseURL := "/changes/github.com/".toList ++ elems0 ++ "/".toList ++ elems1,
              changesApp := app }
            req).run (afterResolve users req.ctx w)) := by
  have hissues : ∀ owner name suffix : GoString,
      u.Path = "/issues/github.com/".toList ++ owner ++ "/".toList ++ name ++ suffix →
      owner ≠ [] → name ≠ [] → '/' ∉ owner → '/' ∉ name →
      (suffix = [] ∨ ∃ rest, suffix = '/' :: rest) →
      (githubIssuesHandler app req).run w =
        (issuesHandler
          { SpecURL := "github.com/".toList ++ owner ++ "/".toList ++ name,
            BaseURL := "/issues/github.com/".toList ++ owner ++ "/".toList ++ name }
          app req).run w := by
    intro owner name suffix hp ho hn hos hns hsuf
    rw [githubIssuesHandler_eq app req w u owner name suffix hu (by rw [hp, path_assoc]) ho hn
      hos hns hsuf, issuesBase_eq]
  have hchanges : ∀ owner name suffix : GoString,
      u.Path = "/changes/github.com/".toList ++ owner ++ "/".toList ++ name ++ suffix →
      owner ≠ [] → name ≠ [] → '/' ∉ owner → '/' ∉ name →
      (suffix = [] ∨ ∃ rest, suffix = '/' :: rest) →
      (users.GetAuthenticatedSpec req.ctx w.state).1.2 = none →
      (users.GetAuthenticatedSpec req.ctx w.state).1.1 = shurcool →
      (githubChangesHandler shurcool users app req).run w =
        (changesHandler.ServeHTTP
          { SpecURL := "github.com/".toList ++ owner ++ "/".toList ++ name,
            BaseURL := "/changes/github.com/".toList ++ owner ++ "/".toList ++ name,
            changesApp := app }
          req).run (afterResolve users req.ctx w) := by
    intro owner name suffix hp ho hn hos hns hsuf he hc
    rw [githubChangesHandler_resolved shurcool users app req w u owner name suffix hu
      (by rw [hp, path_assoc]) ho hn hos hns hsuf, if_neg (not_not.mpr he),
      if_neg (not_not.mpr hc), changesBase_eq]
  refine ⟨hissues, hchanges, ?_, ?_⟩
  · intro hp hwf elems0 elems1 h0 h1
    obtain ⟨t, ht⟩ := (HasPrefix_iff _ _).mp hp
    have hdrop : u.Path.drop (len "/issues/github.com/".toList) = t := by
      rw [ht]; exact List.drop_left _ _
    rw [hdrop] at hwf h0 h1
    obtain ⟨owner, name, suffix, hr, ho, hn, hos, hns, hsuf, g0, g1⟩ := wellformed_elems t hwf
    have e0 : elems0 = owner := Option.some.inj (h0.symm.trans g0)
    have e1 : elems1 = name := Option.some.inj (h1.symm.trans g1)
    subst e0 e1
    exact hissues elems0 elems1 suffix (by rw [ht, hr, path_assoc]) ho hn hos hns hsuf
  · intro hp hwf elems0 elems1 h0 h1 he hc
    obtain ⟨t, ht⟩ := (HasPrefix_iff _ _).mp hp
    have hdrop : u.Path.drop (len "/changes/github.com/".toList) = t := by
      rw [ht]; exact List.drop_left _ _
    rw [hdrop] at hwf h0 h1
    obtain ⟨owner, name, suffix, hr, ho, hn, hos, hns, hsuf, g0, g1⟩ := wellformed_elems t hwf
    have e0 : elems0 = owner := Option.some.inj (h0.symm.trans g0)
    have e1 : elems1 = name := Option.some.inj (h1.symm.trans g1)
    subst e0 e1
    exact hchanges elems0 elems1 suffix (by rw [ht, hr, path_assoc]) ho hn hos hns hsuf he hc

/-- An instance of C18: a request for `/issues/github.com/foo/bar/3` and, from
`shurcool`, for `/changes/github.com/foo/bar/3`. -/
theorem C18_wildcard_mounts_agree_with_static_witness :
    (githubIssuesHandler (sampleApp 200 "ok".toList)
        (sampleRequest "/issues/github.com/foo/bar/3".toList noSession)).run
        (sampleWorld "/issues/github.com/foo/bar/3".toList []) =
      (issuesHandler
        { SpecURL := "github.com/".toList ++ "foo".toList ++ "/".toList ++ "bar".toList,
          BaseURL := "/issues/github.com/".toList ++ "foo".toList ++ "/".toList ++ "bar".toList }
        (sampleApp 200 "ok".toList)
        (sampleRequest "/issues/github.com/foo/bar/3".toList noSession)).run
        (sampleWorld "/issues/github.com/foo/bar/3".toList []) ∧
    (githubChangesHandler sampleShurcool (sampleUsers sampleShurcool none)
        (sampleApp 200 "ok".toList)
        (sampleRequest "/changes/github.com/foo/bar/3".toList noSession)).run
        (sampleWorld "/changes/github.com/foo/bar/3".toList []) =
      (changesHandler.ServeHTTP
        { SpecURL := "github.com/".toList ++ "foo".toList ++ "/".toList ++ "bar".toList,
          BaseURL := "/changes/github.com/".toList ++ "foo".toList ++ "/".toList ++ "bar".toList,
          changesApp := sampleApp 200 "ok".toList }
        (sampleRequest "/changes/github.com/foo/bar/3".toList noSession)).run
        (afterResolve (sampleUsers sampleShurcool none) noSession
          (sampleWorld "/changes/github.com/foo/bar/3".toList [])) :=
  ⟨(C18_wildcard_mounts_agree_with_static sampleShurcool (sampleUsers sampleShurcool none)
      (sampleApp 200 "ok".toList) (sampleRequest "/issues/github.com/foo/bar/3".toList noSession)
      (sampleWorld "/issues/github.com/foo/bar/3".toList [])
      { Path := "/issues/github.com/foo/bar/3".toList, RawQuery := [] } rfl).1
      "foo".toList "bar".toList "/3".toList rfl (by decide) (by decide) (by decide) (by decide)
      (Or.inr ⟨"3".toList, rfl⟩),
   (C18_wildcard_mounts_agree_with_static sampleShurcool (sampleUsers sampleShurcool none)
      (sampleApp 200 "ok".toList)
      (sampleRequest "/changes/github.com/foo/bar/3".toList noSession)
      (sampleWorld "/changes/github.com/foo/bar/3".toList [])
      { Path := "/changes/github.com/foo/bar/3".toList, RawQuery := [] } rfl).2.1
      "foo".toList "bar".toList "/3".toList rfl (by decide) (by decide) (by decide) (by decide)
      (Or.inr ⟨"3".toList, rfl⟩) rfl rfl⟩

end agreement

/-! ## The status that the client observes -/

section observed

variable {σ : Type}

/-- The statuses written by a run that extends the log by `tl`. -/
theorem writtenStatuses_append (w w1 : World σ) (tl : List Action)
    (h : w1.log = w.log ++ tl) :
    writtenStatuses w w1 = tl.filterMap Action.status := by
  unfold writtenStatuses
  rw [h]
  show List.filterMap _ (List.drop w.log.length (w.log ++ tl)) = _
  rw [List.drop_left]

/-- A list of calls without a `WriteHeader` writes no status. -/
theorem status_none (pre : List Action) (hnone : ∀ code, Action.WriteHeader code ∉ pre) :
    pre.filterMap Action.status = [] := by
  rw [List.filterMap_eq_nil_iff]
  intro a ha
  cases a <;> first | rfl | exact absurd ha (hnone _)

/-- Nothing has been written when the sub-application has just returned. -/
theorem writtenStatuses_afterServe (app : http.Handler σ) (w w0 : World σ)
    (req1 : http.Request) (u1 : url.URL) (pre : List Action) (hpre : w0.log = w.log ++ pre)
    (hnone : ∀ code, Action.WriteHeader code ∉ pre) :
    writtenStatuses w (afterServe app w0 req1 u1) = [] := by
  rw [writtenStatuses_append w _ (pre ++ [.NewRecorder, .ServeHTTP true req1 u1])
    (by simp [afterServe, hpre])]
  rw [List.filterMap_append, status_none pre hnone]
  rfl

/-- The replay writes the recorded status, once. -/
theorem writtenStatuses_afterReplay (app : http.Handler σ) (w w0 : World σ)
    (req1 : http.Request) (u1 : url.URL) (pre : List Action) (hpre : w0.log = w.log ++ pre)
    (hnone : ∀ code, Action.WriteHeader code ∉ pre) :
    writtenStatuses w (afterReplay app w0 req1 u1) = [(recordedBy app w0 req1 u1).Code] := by
  rw [writtenStatuses_append w _
    (pre ++ [.NewRecorder, .ServeHTTP true req1 u1] ++
      .WriteHeader (recordedBy app w0 req1 u1).Code ::
        (if (recordedBy app w0 req1 u1).Body ≠ [] then [.Write (recordedBy app w0 req1 u1).Body]
         else []))
    (by simp [afterReplay, afterServe, hpre])]
  rw [List.filterMap_append, List.filterMap_append, status_none pre hnone]
  split_ifs <;> rfl

/-- From the run of a mount that has served its sub-application to what the client
observes: the recorded status, once, unless it is 403 and there is no session, and
then nothing. -/
theorem replay_observed (app : http.Handler σ) (w w0 : World σ)
    (req1 : http.Request) (u1 : url.URL) (pre : List Action) (hpre : w0.log = w.log ++ pre)
    (hnone : ∀ code, Action.WriteHeader code ∉ pre) (s : Option Nat) (login : GoString)
    (run : Except Panic (Option Error × World σ))
    (hrun : run =
      if (recordedBy app w0 req1 u1).Code = http.StatusForbidden ∧ s = none then
        .ok (some (httperror.Redirect login), afterServe app w0 req1 u1)
      else .ok (replayError app w0 req1 u1, afterReplay app w0 req1 u1)) :
    ∃ r w1, run = .ok (r, w1) ∧
      writtenStatuses w w1 =
        (if (recordedBy app w0 req1 u1).Code = http.StatusForbidden ∧ s = none then []
         else [(recordedBy app w0 req1 u1).Code]) ∧
      (http.StatusForbidden ∈ writtenStatuses w w1 ↔
        ((recordedBy app w0 req1 u1).Code = http.StatusForbidden ∧ s ≠ none)) := by
  by_cases hc : (recordedBy app w0 req1 u1).Code = http.StatusForbidden ∧ s = none
  · rw [if_pos hc] at hrun
    refine ⟨_, _, hrun, ?_, ?_⟩
    · rw [if_pos hc, writtenStatuses_afterServe app w w0 req1 u1 pre hpre hnone]
    · rw [writtenStatuses_afterServe app w w0 req1 u1 pre hpre hnone]
      constructor
      · intro h
        exact absurd h (List.not_mem_nil _)
      · rintro ⟨-, h⟩
        exact absurd hc.2 h
  · rw [if_neg hc] at hrun
    refine ⟨_, _, hrun, ?_, ?_⟩
    · rw [if_neg hc, writtenStatuses_afterReplay app w w0 req1 u1 pre hpre hnone]
    · rw [writtenStatuses_afterReplay app w w0 req1 u1 pre hpre hnone, List.mem_singleton]
      constructor
      · intro h
        exact ⟨h.symm, fun hs => hc ⟨h.symm, hs⟩⟩
      · rintro ⟨h, -⟩
        exact h.symm

/-- Claim C15 as stated fails. The sub-application answers 403 to a request for
`/kebabcase/issues/3`. When the context carries a session (user 1), the handler
replays the response: the client observes 403 although a session is present. When
the context carries the nil session, the handler writes nothing and returns the
redirect to the login page: the client does not observe 403. -/
theorem C15_forbidden_is_observed_with_a_session :
    (issuesHandler
        { SpecURL := "dmitri.shuralyov.com/kebabcase".toList,
          BaseURL := "/kebabcase/issues".toList }
        (sampleApp 403 "403 Forbidden".toList)
        (sampleRequest "/kebabcase/issues/3".toList
          [(.sessionContextKey, .session (some 1))])).run
        (sampleWorld "/kebabcase/issues/3".toList []) =
      .ok (none,
        { state := 1,
          urls := [{ Path := "/kebabcase/issues/3".toList, RawQuery := [] },
            { Path := "/3".toList, RawQuery := [] }],
          header := [],
          connErr := none,
          log :=
            [.NewRecorder,
              .ServeHTTP true
                { URL := 1, RequestURI := "/kebabcase/issues/3".toList,
                  ctx :=
                    [(.issuesappBaseURIContextKey, .string "/kebabcase/issues".toList),
                      (.issuesappRepoSpecContextKey,
                        .RepoSpec { URI := "dmitri.shuralyov.com/kebabcase".toList }),
                      (.sessionContextKey, .session (some 1))] }
                { Path := "/3".toList, RawQuery := [] },
              .WriteHeader 403,
              .Write "403 Forbidden".toList] }) ∧
    (issuesHandler
        { SpecURL := "dmitri.shuralyov.com/kebabcase".toList,
          BaseURL := "/kebabcase/issues".toList }
        (sampleApp 403 "403 Forbidden".toList)
        (sampleRequest "/kebabcase/issues/3".toList noSession)).run
        (sampleWorld "/kebabcase/issues/3".toList []) =
      .ok (some (httperror.Redirect "/login?return=%2Fkebabcase%2Fissues%2F3".toList),
        { state := 1,
          urls := [{ Path := "/kebabcase/issues/3".toList, RawQuery := [] },
            { Path := "/3".toList, RawQuery := [] }],
          header := [],
          connErr := none,
          log :=
            [.NewRecorder,
              .ServeHTTP true
                { URL := 1, RequestURI := "/kebabcase/issues/3".toList,
                  ctx :=
                    [(.issuesappBaseURIContextKey, .string "/kebabcase/issues".toList),
                      (.issuesappRepoSpecContextKey,
                        .RepoSpec { URI := "dmitri.shuralyov.com/kebabcase".toList }),
                      (.sessionContextKey, .session none)] }
                { Path := "/3".toList, RawQuery := [] }] }) := by
  constructor
  · rfl
  · rfl

/-- Claim C15, as amended. For each of the four mount handlers of `issues.go` and
`changes.go` (`issuesHandler`, `githubIssuesHandler`, `changesHandler.ServeHTTP`,
and `githubChangesHandler` once the resolver has answered `shurcool`) and every
request that reaches the sub-application, in a context that carries a session
entry `s`: the handler returns, and the statuses it has written to the real
response are the recorded status, once and unchanged, in every case but one; when
the recorded status is 403 and `s` is the nil session, it has written no status
(it returns the redirect to the login page, claim C5). So the client observes 403
if and only if the recorded status is 403 and a session is present. -/
theorem C15_forbidden_is_observed_only_with_a_session (shurcool : Principal)
    (users : users.Service σ) (app : http.Handler σ) (req : http.Request) (w : World σ)
    (u : url.URL) (s : Option Nat) (hu : w.urls[req.URL]? = some u)
    (hsess : req.ctx.Value .sessionContextKey = some (.session s)) :
    (∀ (repo : Repo) (suffix : GoString), u.Path = repo.BaseURL ++ suffix →
      suffix ≠ "/".toList →
      ∃ r w1, (issuesHandler repo app req).run w = .ok (r, w1) ∧
        writtenStatuses w w1 =
          (if (recordedBy app w (issuesRequest w req repo.SpecURL repo.BaseURL)
                (derivedURL u suffix)).Code = http.StatusForbidden ∧ s = none then []
           else [(recordedBy app w (issuesRequest w req repo.SpecURL repo.BaseURL)
                (derivedURL u suffix)).Code]) ∧
        (http.StatusForbidden ∈ writtenStatuses w w1 ↔
          ((recordedBy app w (issuesRequest w req repo.SpecURL repo.BaseURL)
              (derivedURL u suffix)).Code = http.StatusForbidden ∧ s ≠ none))) ∧
    (∀ owner name suffix : GoString,
      u.Path = "/issues/github.com/".toList ++ owner ++ "/".toList ++ name ++ suffix →
      owner ≠ [] → name ≠ [] → '/' ∉ owner → '/' ∉ name →
      (suffix = [] ∨ ∃ rest, suffix = '/' :: rest) → suffix ≠ "/".toList →
      ∃ r w1, (githubIssuesHandler app req).run w = .ok (r, w1) ∧
        writtenStatuses w w1 =
          (if (recordedBy app w
                (issuesRequest w req ("github.com/".toList ++ owner ++ "/".toList ++ name)
                  ("/issues/github.com/".toList ++ owner ++ "/".toList ++ name))
                (derivedURL u suffix)).Code = http.StatusForbidden ∧ s = none then []
           else [(recordedBy app w
                (issuesRequest w req ("github.com/".toList ++ owner ++ "/".toList ++ name)
                  ("/issues/github.com/".toList ++ owner ++ "/".toList ++ name))
                (derivedURL u suffix)).Code]) ∧
        (http.StatusForbidden ∈ writtenStatuses w w1 ↔
          ((recordedBy app w
              (issuesRequest w req ("github.com/".toList ++ owner ++ "/".toList ++ name)
                ("/issues/github.com/".toList ++ owner ++ "/".toList ++ name))
              (derivedURL u suffix)).Code = http.StatusForbidden ∧ s ≠ none))) ∧
    (∀ (h : changesHandler σ) (suffix : GoString), u.Path = h.BaseURL ++ suffix →
      suffix ≠ "/".toList →
      ∃ r w1, (h.ServeHTTP req).run w = .ok (r, w1) ∧
        writtenStatuses w w1 =
          (if (recordedBy h.changesApp w (changesRequest w req h.SpecURL h.BaseURL)
                (derivedURL u suffix)).Code = http.StatusForbidden ∧ s = none then []
           else [(recordedBy h.changesApp w (changesRequest w req h.SpecURL h.BaseURL)
                (derivedURL u suffix)).Code]) ∧
        (http.StatusForbidden ∈ writtenStatuses w w1 ↔
          ((recordedBy h.changesApp w (changesRequest w req h.SpecURL h.BaseURL)
              (derivedURL u suffix)).Code = http.StatusForbidden ∧ s ≠ none))) ∧
    (∀ owner name suffix : GoString,
      u.Path = "/changes/github.com/".toList ++ owner ++ "/".toList ++ name ++ suffix →
      owner ≠ [] → name ≠ [] → '/' ∉ owner → '/' ∉ name →
      (suffix = [] ∨ ∃ rest, suffix = '/' :: rest) → suffix ≠ "/".toList →
      (users.GetAuthenticatedSpec req.ctx w.state).1.2 = none →
      (users.GetAuthenticatedSpec req.ctx w.state).1.1 = shurcool →
      ∃ r w1, (githubChangesHandler shurcool users app req).run w = .ok (r, w1) ∧
        writtenStatuses w w1 =
          (if (recordedBy app (afterResolve users req.ctx w)
                (changesRequest w req ("github.com/".toList ++ owner ++ "/".toList ++ name)
                  ("/changes/github.com/".toList ++ owner ++ "/".toList ++ name))
                (derivedURL u suffix)).Code = http.StatusForbidden ∧ s = none then []
           else [(recordedBy app (afterResolve users req.ctx w)
                (changesRequest w req ("github.com/".toList ++ owner ++ "/".toList ++ name)
                  ("/changes/github.com/".toList ++ owner ++ "/".toList ++ name))
                (derivedURL u suffix)).Code]) ∧
        (http.StatusForbidden ∈ writtenStatuses w w1 ↔
          ((recordedBy app (afterResolve users req.ctx w)
              (changesRequest w req ("github.com/".toList ++ owner ++ "/".toList ++ name)
                ("/changes/github.com/".toList ++ owner ++ "/".toList ++ name))
              (derivedURL u suffix)).Code = http.StatusForbidden ∧ s ≠ none))) := by
  refine ⟨?_, ?_, ?_, ?_⟩
  · intro repo suffix hp hs
    exact replay_observed app w w _ _ [] (List.append_nil _).symm
      (fun _ h => absurd h (List.not_mem_nil _)) s _ _
      (issuesHandler_served repo app req w u suffix s hu hp hs hsess)
  · intro owner name suffix hp ho hn hos hns hsuf hs
    exact replay_observed app w w _ _ [] (List.append_nil _).symm
      (fun _ h => absurd h (List.not_mem_nil _)) s _ _
      (githubIssuesHandler_served app req w u owner name suffix s hu hp ho hn hos hns hsuf hs
        hsess)
  · intro h suffix hp hs
    exact replay_observed h.changesApp w w _ _ [] (List.append_nil _).symm
      (fun _ h => absurd h (List.not_mem_nil _)) s _ _
      (changesHandler_served h req w u suffix s hu hp hs hsess)
  · intro owner name suffix hp ho hn hos hns hsuf hs he hc
    exact replay_observed app w (afterResolve users req.ctx w) _ _
      [.GetAuthenticatedSpec req.ctx] rfl
      (fun code h => by simp at h) s _ _
      (githubChangesHandler_served shurcool users app req w u owner name suffix s hu hp ho hn
        hos hns hsuf hs hsess he hc)

/-- An instance of C15: a signed-in caller asks for `/kebabcase/issues/3` and the
issues sub-application answers 403. -/
theorem C15_forbidden_is_observed_only_with_a_session_witness :
    ∃ r w1,
      (issuesHandler
          { SpecURL := "dmitri.shuralyov.com/kebabcase".toList,
            BaseURL := "/kebabcase/issues".toList }
          (sampleApp 403 "403 Forbidden".toList)
          (sampleRequest "/kebabcase/issues/3".toList
            [(.sessionContextKey, .session (some 1))])).run
          (sampleWorld "/kebabcase/issues/3".toList []) = .ok (r, w1) ∧
        http.StatusForbidden ∈ writtenStatuses (sampleWorld "/kebabcase/issues/3".toList []) w1 :=
  let ⟨r, w1, hrun, _, hiff⟩ :=
    (C15_forbidden_is_observed_only_with_a_session sampleShurcool
      (sampleUsers sampleShurcool none) (sampleApp 403 "403 Forbidden".toList)
      (sampleRequest "/kebabcase/issues/3".toList [(.sessionContextKey, .session (some 1))])
      (sampleWorld "/kebabcase/issues/3".toList [])
      { Path := "/kebabcase/issues/3".toList, RawQuery := [] } (some 1) rfl rfl).1
      { SpecURL := "dmitri.shuralyov.com/kebabcase".toList,
        BaseURL := "/kebabcase/issues".toList }
      "/3".toList rfl (by decide)
  ⟨r, w1, hrun, hiff.mpr ⟨rfl, by decide⟩⟩

end observed

/-! ## The root redirect of every mount -/

section rootredirect

variable {σ : Type}

/-- A mount that has served its sub-application has not left the world as it was. -/
theorem served_ne (app : http.Handler σ) (w0 : World σ) (req1 : http.Request) (u1 : url.URL)
    (c : Prop) [Decidable c] (login : GoString) (r : Option Error) :
    (if c then
        (.ok (some (httperror.Redirect login), afterServe app w0 req1 u1) :
          Except Panic (Option Error × World σ))
      else .ok (replayError app w0 req1 u1, afterReplay app w0 req1 u1)) ≠ .ok (r, w0) := by
  intro h
  split_ifs at h
  · injection h with h
    injection h with _ hw
    have hl := congrArg World.log hw
    exact log_ne_of_append w0.log _ _ hl
  · injection h with h
    injection h with _ hw
    have hl := congrArg World.log hw
    simp only [afterReplay, afterServe, List.append_assoc, List.cons_append,
      List.nil_append] at hl
    exact log_ne_of_append w0.log _ _ hl

/-- A mount that has served its sub-application has called it once, after the
creation of the recorder. -/
theorem served_log (app : http.Handler σ) (w0 : World σ) (req1 : http.Request) (u1 : url.URL)
    (c : Prop) [Decidable c] (login : GoString)
    (run : Except Panic (Option Error × World σ))
    (hrun : run =
      if c then .ok (some (httperror.Redirect login), afterServe app w0 req1 u1)
      else .ok (replayError app w0 req1 u1, afterReplay app w0 req1 u1)) :
    ∃ r w1 tl, run = .ok (r, w1) ∧
      w1.log = w0.log ++ .NewRecorder :: .ServeHTTP true req1 u1 :: tl := by
  by_cases hc : c
  · rw [if_pos hc] at hrun
    exact ⟨_, _, [], hrun, rfl⟩
  · rw [if_neg hc] at hrun
    refine ⟨_, _, .WriteHeader (recordedBy app w0 req1 u1).Code ::
      (if (recordedBy app w0 req1 u1).Body ≠ [] then [.Write (recordedBy app w0 req1 u1).Body]
       else []), hrun, ?_⟩
    simp only [afterReplay, afterServe, List.append_assoc, List.cons_append, List.nil_append]

/-- Handler `issuesHandler` returns the root redirect, and does nothing else, exactly
on `BaseURL/`. -/
theorem issuesHandler_root_iff (repo : Repo) (app : http.Handler σ) (req : http.Request)
    (w : World σ) (u : url.URL) (suffix : GoString)
    (hu : w.urls[req.URL]? = some u) (hp : u.Path = repo.BaseURL ++ suffix) :
    (issuesHandler repo app req).run w =
        .ok (some (httperror.Redirect (rootTarget repo.BaseURL u)), w) ↔
      suffix = "/".toList := by
  constructor
  · intro h
    by_contra hs
    rcases session_cases req.ctx with ⟨s, hsess⟩ | hsess
    · rw [issuesHandler_served repo app req w u suffix s hu hp hs hsess] at h
      exact served_ne app w _ _ _ _ _ h
    · rw [issuesHandler_noSession repo app req w u suffix hu hp hs hsess] at h
      exact Except.noConfusion h
  · intro hs
    subst hs
    exact issuesHandler_root repo app req w u hu hp

/-- Handler `changesHandler.ServeHTTP` returns the root redirect, and does nothing
else, exactly on `BaseURL/`. -/
theorem changesHandler_root_iff (h : changesHandler σ) (req : http.Request)
    (w : World σ) (u : url.URL) (suffix : GoString)
    (hu : w.urls[req.URL]? = some u) (hp : u.Path = h.BaseURL ++ suffix) :
    (h.ServeHTTP req).run w = .ok (some (httperror.Redirect (rootTarget h.BaseURL u)), w) ↔
      suffix = "/".toList := by
  constructor
  · intro hr
    by_contra hs
    rcases session_cases req.ctx with ⟨s, hsess⟩ | hsess
    · rw [changesHandler_served h req w u suffix s hu hp hs hsess] at hr
      exact served_ne h.changesApp w _ _ _ _ _ hr
    · rw [changesHandler_noSession h req w u suffix hu hp hs hsess] at hr
      exact Except.noConfusion hr
  · intro hs
    subst hs
    exact changesHandler_root h req w u hu hp

/-- The redirects sent by a run that extends the log by `tl`. -/
theorem writtenRedirects_append (w w1 : World σ) (tl : List Action)
    (h : w1.log = w.log ++ tl) :
    writtenRedirects w w1 = tl.filterMap Action.redirect := by
  unfold writtenRedirects
  rw [h]
  show List.filterMap _ (List.drop w.log.length (w.log ++ tl)) = _
  rw [List.drop_left]

/-- Handler `blogHandler` sends the root redirect exactly on `/blog/`, and no other
redirect. -/
theorem blogHandler_redirects (getUser : http.Request → σ → (Option Nat × Option Error) × σ)
    (app : http.Handler σ) (req : http.Request) (w : World σ) (u : url.URL)
    (suffix : GoString)
    (hu : w.urls[req.URL]? = some u) (hp : u.Path = "/blog".toList ++ suffix) :
    ∃ w1, (blogHandler getUser app req).run w = .ok ((), w1) ∧
      writtenRedirects w w1 =
        (if suffix = "/".toList then
          [(rootTarget "/blog".toList u, http.StatusMovedPermanently)]
         else []) ∧
      (suffix ≠ "/".toList → w1 = blogServed getUser app req w u suffix) := by
  by_cases hs : suffix = "/".toList
  · subst hs
    refine ⟨_, blogHandler_root getUser app req w u hu hp, ?_, fun h => absurd rfl h⟩
    rw [if_pos rfl, writtenRedirects_append w _ _ rfl]
    unfold rootTarget
    split_ifs <;> rfl
  · refine ⟨_, blogHandler_served getUser app req w u suffix hu hp hs, ?_, fun _ => rfl⟩
    rw [if_neg hs, writtenRedirects_append w _ _ rfl]
    split_ifs <;> rfl

/-- The URL of the request that a mount derives from a request for its bare base URL. -/
theorem derivedURL_nil (u : url.URL) :
    derivedURL u [] = { Path := "/".toList, RawQuery := u.RawQuery } := by
  simp [derivedURL]

/-- The login URL is not the root target of a mount whose base URL does not start
with `/login`. -/
theorem login_ne_rootTarget (base : GoString) (u : url.URL) (uri : GoString)
    (hbase : strings.HasPrefix base "/login".toList = false) :
    "/login?return=".toList ++ url.QueryEscape uri ≠ rootTarget base u := by
  intro h
  have hnot : ¬(strings.HasPrefix base "/login".toList = true) := by
    rw [hbase]; exact Bool.noConfusion
  have hsplit : "/login?return=".toList ++ url.QueryEscape uri =
      "/login".toList ++ ("?return=".toList ++ url.QueryEscape uri) := by simp
  have hq : ∀ x : GoString, (x = [] ∨ ∃ q, x = '?' :: q) → rootTarget base u = base ++ x →
      False := by
    intro x hx hr
    rw [hsplit, hr] at h
    rcases List.append_eq_append_iff.mp h with ⟨a, hb, -⟩ | ⟨c, hl, hx2⟩
    · exact hnot ((HasPrefix_iff _ _).mpr ⟨a, hb⟩)
    · cases c with
      | nil =>
        rw [List.append_nil] at hl
        exact hnot ((HasPrefix_iff _ _).mpr ⟨[], by rw [List.append_nil, hl]⟩)
      | cons c0 c1 =>
        rcases hx with hx | ⟨q, hx⟩
        · rw [hx] at hx2
          exact List.noConfusion hx2
        · rw [hx] at hx2
          injection hx2 with h0 _
          have hmem : '?' ∈ "/login".toList := by
            rw [hl, h0]
            simp
          revert hmem
          decide
  unfold rootTarget at hq
  by_cases hraw : u.RawQuery ≠ []
  · exact hq ('?' :: u.RawQuery) (Or.inr ⟨_, rfl⟩) (by rw [if_pos hraw]; simp)
  · exact hq [] (Or.inl rfl) (by rw [if_neg hraw, List.append_nil])

/-- A mount that has served its sub-application returns the login redirect, nothing,
or the error of the connection: never a redirect to another target. -/
theorem served_value (app : http.Handler σ) (w0 : World σ) (req1 : http.Request) (u1 : url.URL)
    (c : Prop) [Decidable c] (login target : GoString) (hne : login ≠ target) (w1 : World σ) :
    (if c then
        (.ok (some (httperror.Redirect login), afterServe app w0 req1 u1) :
          Except Panic (Option Error × World σ))
      else .ok (replayError app w0 req1 u1, afterReplay app w0 req1 u1)) ≠
      .ok (some (httperror.Redirect target), w1) := by
  intro h
  split_ifs at h
  · injection h with h
    injection h with hr _
    injection hr with hr
    injection hr with hr
    exact hne hr
  · injection h with h
    injection h with hr _
    unfold replayError at hr
    split_ifs at hr
    · cases hc : w0.connErr with
      | none => rw [hc] at hr; exact Option.noConfusion hr
      | some m =>
        rw [hc] at hr
        injection hr with hr
        exact Error.noConfusion hr

/-- Handler `issuesHandler`, mounted anywhere but under `/login`, returns the redirect to
its root target exactly on `BaseURL/`. -/
theorem issuesHandler_root_value (repo : Repo) (app : http.Handler σ) (req : http.Request)
    (w : World σ) (u : url.URL) (suffix : GoString)
    (hu : w.urls[req.URL]? = some u) (hp : u.Path = repo.BaseURL ++ suffix)
    (hbase : strings.HasPrefix repo.BaseURL "/login".toList = false) :
    (∃ w1, (issuesHandler repo app req).run w =
        .ok (some (httperror.Redirect (rootTarget repo.BaseURL u)), w1)) ↔
      suffix = "/".toList := by
  constructor
  · rintro ⟨w1, h⟩
    by_contra hs
    rcases session_cases req.ctx with ⟨s, hsess⟩ | hsess
    · rw [issuesHandler_served repo app req w u suffix s hu hp hs hsess] at h
      exact served_value app w _ _ _ _ _
        (login_ne_rootTarget repo.BaseURL u req.RequestURI hbase) w1 h
    · rw [issuesHandler_noSession repo app req w u suffix hu hp hs hsess] at h
      exact Except.noConfusion h
  · intro hs
    subst hs
    exact ⟨w, issuesHandler_root repo app req w u hu hp⟩

/-- Handler `changesHandler.ServeHTTP`, mounted anywhere but under `/login`, returns the
redirect to its root target exactly on `BaseURL/`. -/
theorem changesHandler_root_value (h : changesHandler σ) (req : http.Request)
    (w : World σ) (u : url.URL) (suffix : GoString)
    (hu : w.urls[req.URL]? = some u) (hp : u.Path = h.BaseURL ++ suffix)
    (hbase : strings.HasPrefix h.BaseURL "/login".toList = false) :
    (∃ w1, (h.ServeHTTP req).run w =
        .ok (some (httperror.Redirect (rootTarget h.BaseURL u)), w1)) ↔
      suffix = "/".toList := by
  constructor
  · rintro ⟨w1, hr⟩
    by_contra hs
    rcases session_cases req.ctx with ⟨s, hsess⟩ | hsess
    · rw [changesHandler_served h req w u suffix s hu hp hs hsess] at hr
      exact served_value h.changesApp w _ _ _ _ _
        (login_ne_rootTarget h.BaseURL u req.RequestURI hbase) w1 hr
    · rw [changesHandler_noSession h req w u suffix hu hp hs hsess] at hr
      exact Except.noConfusion hr
  · intro hs
    subst hs
    exact ⟨w, changesHandler_root h req w u hu hp⟩

/-- The base URL of a repository under a wildcard mount does not start with `/login`. -/
theorem githubBase_not_login (owner name : GoString) :
    strings.HasPrefix ("/issues/github.com/".toList ++ owner ++ "/".toList ++ name)
        "/login".toList = false ∧
    strings.HasPrefix ("/changes/github.com/".toList ++ owner ++ "/".toList ++ name)
        "/login".toList = false := by
  constructor
  · rw [Bool.eq_false_iff]
    intro h
    obtain ⟨t, ht⟩ := (HasPrefix_iff _ _).mp h
    simp at ht
  · rw [Bool.eq_false_iff]
    intro h
    obtain ⟨t, ht⟩ := (HasPrefix_iff _ _).mp h
    simp at ht

/-- Claim C17 as stated fails. An anonymous caller (nil session) asks for the bare
base URL `/issues/github.com/golang/go?state=closed` of a repository under the
wildcard issues mount, and the sub-application answers 403: the request is passed
to the sub-application with the path `/`, and it is redirected all the same, to
the login page. -/
theorem C17_bare_base_url_goes_to_login :
    (githubIssuesHandler (sampleApp 403 "403 Forbidden".toList)
        (sampleRequest "/issues/github.com/golang/go?state=closed".toList noSession)).run
        (sampleWorld "/issues/github.com/golang/go".toList "state=closed".toList) =
      .ok (some (httperror.Redirect
          "/login?return=%2Fissues%2Fgithub.com%2Fgolang%2Fgo%3Fstate%3Dclosed".toList),
        { state := 1,
          urls := [{ Path := "/issues/github.com/golang/go".toList,
                     RawQuery := "state=closed".toList },
            { Path := "/".toList, RawQuery := "state=closed".toList }],
          header := [],
          connErr := none,
          log :=
            [.NewRecorder,
              .ServeHTTP true
                { URL := 1, RequestURI := "/issues/github.com/golang/go?state=closed".toList,
                  ctx :=
                    [(.issuesappBaseURIContextKey, .string "/issues/github.com/golang/go".toList),
                      (.issuesappRepoSpecContextKey,
                        .RepoSpec { URI := "github.com/golang/go".toList }),
                      (.sessionContextKey, .session none)] }
                { Path := "/".toList, RawQuery := "state=closed".toList }] }) := by
  rfl

/-- Claim C17, as amended. For every mount handler and every request whose path is
the base URL of the mount followed by `suffix` (for the wildcard mounts the base
URL is `/issues/github.com/<owner>/<name>`, resp. `/changes/...`, with `<owner>` and
`<name>` the first two segments that the handler parses; `githubChangesHandler` is
taken once the resolver has answered `shurcool`; a static `issuesHandler` or
`changesHandler` is taken with a base URL that does not start with `/login`, which
holds for the four mounts of the issues table): the handler returns a redirect to
the root target if and only if `suffix` is `/`, whatever the world it leaves; and,
for any base URL, it returns that redirect having done nothing else if and only if
`suffix` is `/`. The root target `rootTarget` is the base
URL, followed by `?` and the raw query exactly when the raw query is not empty. A
request for the bare base URL (`suffix` empty), the target of the redirect, is
not redirected to the root target again: the sub-application is called with the
path `/` and the same query, and the handler returns what it returns for any
served request (the login redirect when the recorded status is 403 and there is no
session, the outcome of the replay otherwise). The blog mount, which sends its
redirects itself, sends the one redirect to the root target, with status 301,
when `suffix` is `/` and no redirect otherwise; on the bare `/blog` it leaves the
world `blogServed`, in which the sub-application was called with the path `/`. -/
theorem C17_root_redirect_exactly_on_slash (shurcool : Principal) (users : users.Service σ)
    (getUser : http.Request → σ → (Option Nat × Option Error) × σ) (app : http.Handler σ)
    (req : http.Request) (w : World σ) (u : url.URL) (hu : w.urls[req.URL]? = some u) :
    (∀ base : GoString, rootTarget base u =
      if u.RawQuery ≠ [] then base ++ "?".toList ++ u.RawQuery else base) ∧
    derivedURL u [] = { Path := "/".toList, RawQuery := u.RawQuery } ∧
    (∀ repo ∈ issuesMounts, strings.HasPrefix repo.BaseURL "/login".toList = false) ∧
    (∀ (repo : Repo) (suffix : GoString), u.Path = repo.BaseURL ++ suffix →
      (strings.HasPrefix repo.BaseURL "/login".toList = false →
        ((∃ w1, (issuesHandler repo app req).run w =
            .ok (some (httperror.Redirect (rootTarget repo.BaseURL u)), w1)) ↔
          suffix = "/".toList)) ∧
      ((issuesHandler repo app req).run w =
          .ok (some (httperror.Redirect (rootTarget repo.BaseURL u)), w) ↔
        suffix = "/".toList) ∧
      (suffix = [] → ∀ s, req.ctx.Value .sessionContextKey = some (.session s) →
        (issuesHandler repo app req).run w =
          if (recordedBy app w (issuesRequest w req repo.SpecURL repo.BaseURL)
              (derivedURL u [])).Code = http.StatusForbidden ∧ s = none then
            .ok (some (httperror.Redirect
                ("/login?return=".toList ++ url.QueryEscape req.RequestURI)),
              afterServe app w (issuesRequest w req repo.SpecURL repo.BaseURL)
                (derivedURL u []))
          else
            .ok (replayError app w (issuesRequest w req repo.SpecURL repo.BaseURL)
                (derivedURL u []),
              afterReplay app w (issuesRequest w req repo.SpecURL repo.BaseURL)
                (derivedURL u [])))) ∧
    (∀ owner name suffix : GoString,
      u.Path = "/issues/github.com/".toList ++ owner ++ "/".toList ++ name ++ suffix →
      owner ≠ [] → name ≠ [] → '/' ∉ owner → '/' ∉ name →
      (suffix = [] ∨ ∃ rest, suffix = '/' :: rest) →
      ((∃ w1, (githubIssuesHandler app req).run w =
          .ok (some (httperror.Redirect
            (rootTarget ("/issues/github.com/".toList ++ owner ++ "/".toList ++ name) u)),
            w1)) ↔
        suffix = "/".toList) ∧
      ((githubIssuesHandler app req).run w =
          .ok (some (httperror.Redirect
            (rootTarget ("/issues/github.com/".toList ++ owner ++ "/".toList ++ name) u)), w) ↔
        suffix = "/".toList) ∧
      (suffix = [] → ∀ s, req.ctx.Value .sessionContextKey = some (.session s) →
        (githubIssuesHandler app req).run w =
          if (recordedBy app w
              (issuesRequest w req ("github.com/".toList ++ owner ++ "/".toList ++ name)
                ("/issues/github.com/".toList ++ owner ++ "/".toList ++ name))
              (derivedURL u [])).Code = http.StatusForbidden ∧ s = none then
            .ok (some (httperror.Redirect
                ("/login?return=".toList ++ url.QueryEscape req.RequestURI)),
              afterServe app w
                (issuesRequest w req ("github.com/".toList ++ owner ++ "/".toList ++ name)
                  ("/issues/github.com/".toList ++ owner ++ "/".toList ++ name))
                (derivedURL u []))
          else
            .ok (replayError app w
                (issuesRequest w req ("github.com/".toList ++ owner ++ "/".toList ++ name)
                  ("/issues/github.com/".toList ++ owner ++ "/".toList ++ name))
                (derivedURL u []),
              afterReplay app w
                (issuesRequest w req ("github.com/".toList ++ owner ++ "/".toList ++ name)
                  ("/issues/github.com/".toList ++ owner ++ "/".toList ++ name))
                (derivedURL u [])))) ∧
    (∀ (h : changesHandler σ) (suffix : GoString), u.Path = h.BaseURL ++ suffix →
      (strings.HasPrefix h.BaseURL "/login".toList = false →
        ((∃ w1, (h.ServeHTTP req).run w =
            .ok (some (httperror.Redirect (rootTarget h.BaseURL u)), w1)) ↔
          suffix = "/".toList)) ∧
      ((h.ServeHTTP req).run w =
          .ok (some (httperror.Redirect (rootTarget h.BaseURL u)), w) ↔
        suffix = "/".toList) ∧
      (suffix = [] → ∀ s, req.ctx.Value .sessionContextKey = some (.session s) →
        (h.ServeHTTP req).run w =
          if (recordedBy h.changesApp w (changesRequest w req h.SpecURL h.BaseURL)
              (derivedURL u [])).Code = http.StatusForbidden ∧ s = none then
            .ok (some (httperror.Redirect
                ("/login?return=".toList ++ url.QueryEscape req.RequestURI)),
              afterServe h.changesApp w (changesRequest w req h.SpecURL h.BaseURL)
                (derivedURL u []))
          else
            .ok (replayError h.changesApp w (changesRequest w req h.SpecURL h.BaseURL)
                (derivedURL u []),
              afterReplay h.changesApp w (changesRequest w req h.SpecURL h.BaseURL)
                (derivedURL u [])))) ∧
    (∀ owner name suffix : GoString,
      u.Path = "/changes/github.com/".toList ++ owner ++ "/".toList ++ name ++ suffix →
      owner ≠ [] → name ≠ [] → '/' ∉ owner → '/' ∉ name →
      (suffix = [] ∨ ∃ rest, suffix = '/' :: rest) →
      (users.GetAuthenticatedSpec req.ctx w.state).1.2 = none →
      (users.GetAuthenticatedSpec req.ctx w.state).1.1 = shurcool →
      ((∃ w1, (githubChangesHandler shurcool users app req).run w =
          .ok (some (httperror.Redirect
            (rootTarget ("/changes/github.com/".toList ++ owner ++ "/".toList ++ name) u)),
            w1)) ↔
        suffix = "/".toList) ∧
      ((githubChangesHandler shurcool users app req).run w =
          .ok (some (httperror.Redirect
            (rootTarget ("/changes/github.com/".toList ++ owner ++ "/".toList ++ name) u)),
            afterResolve users req.ctx w) ↔
        suffix = "/".toList) ∧
      (suffix = [] → ∀ s, req.ctx.Value .sessionContextKey = some (.session s) →
        (githubChangesHandler shurcool users app req).run w =
          if (recordedBy app (afterResolve users req.ctx w)
              (changesRequest w req ("github.com/".toList ++ owner ++ "/".toList ++ name)
                ("/changes/github.com/".toList ++ owner ++ "/".toList ++ name))
              (derivedURL u [])).Code = http.StatusForbidden ∧ s = none then
            .ok (some (httperror.Redirect
                ("/login?return=".toList ++ url.QueryEscape req.RequestURI)),
              afterServe app (afterResolve users req.ctx w)
                (changesRequest w req ("github.com/".toList ++ owner ++ "/".toList ++ name)
                  ("/changes/github.com/".toList ++ owner ++ "/".toList ++ name))
                (derivedURL u []))
          else
            .ok (replayError app (afterResolve users req.ctx w)
                (changesRequest w req ("github.com/".toList ++ owner ++ "/".toList ++ name)
                  ("/changes/github.com/".toList ++ owner ++ "/".toList ++ name))
                (derivedURL u []),
              afterReplay app (afterResolve users req.ctx w)
                (changesRequest w req ("github.com/".toList ++ owner ++ "/".toList ++ name)
                  ("/changes/github.com/".toList ++ owner ++ "/".toList ++ name))
                (derivedURL u [])))) ∧
    (∀ suffix : GoString, u.Path = "/blog".toList ++ suffix →
      ∃ w1, (blogHandler getUser app req).run w = .ok ((), w1) ∧
        writtenRedirects w w1 =
          (if suffix = "/".toList then
            [(rootTarget "/blog".toList u, http.StatusMovedPermanently)]
           else []) ∧
        (suffix = [] → w1 = blogServed getUser app req w u [])) := by
  have hnil : ([] : GoString) ≠ "/".toList := by decide
  refine ⟨fun _ => rfl, derivedURL_nil u, by decide, ?_, ?_, ?_, ?_, ?_⟩
  · intro repo suffix hp
    refine ⟨issuesHandler_root_value repo app req w u suffix hu hp,
      issuesHandler_root_iff repo app req w u suffix hu hp, ?_⟩
    · intro h0 s hsess
      subst h0
      exact issuesHandler_served repo app req w u [] s hu hp hnil hsess
  · intro owner name suffix hp ho hn hos hns hsuf
    have heq := githubIssuesHandler_eq app req w u owner name suffix hu
      (by rw [hp, path_assoc]) ho hn hos hns hsuf
    rw [issuesBase_eq] at heq
    refine ⟨?_, ?_, ?_⟩
    · rw [heq]
      exact issuesHandler_root_value _ app req w u suffix hu hp
        (githubBase_not_login owner name).1
    · rw [heq]
      exact issuesHandler_root_iff _ app req w u suffix hu hp
    · intro h0 s hsess
      subst h0
      exact githubIssuesHandler_served app req w u owner name [] s hu hp ho hn hos hns hsuf
        hnil hsess
  · intro h suffix hp
    refine ⟨changesHandler_root_value h req w u suffix hu hp,
      changesHandler_root_iff h req w u suffix hu hp, ?_⟩
    · intro h0 s hsess
      subst h0
      exact changesHandler_served h req w u [] s hu hp hnil hsess
  · intro owner name suffix hp ho hn hos hns hsuf he hc
    have heq := githubChangesHandler_resolved shurcool users app req w u owner name suffix hu
      (by rw [hp, path_assoc]) ho hn hos hns hsuf
    rw [if_neg (not_not.mpr he), if_neg (not_not.mpr hc), changesBase_eq] at heq
    refine ⟨?_, ?_, ?_⟩
    · rw [heq]
      exact changesHandler_root_value
        { SpecURL := "github.com/".toList ++ owner ++ "/".toList ++ name,
          BaseURL := "/changes/github.com/".toList ++ owner ++ "/".toList ++ name,
          changesApp := app }
        req (afterResolve users req.ctx w) u suffix hu hp (githubBase_not_login owner name).2
    · rw [heq]
      exact changesHandler_root_iff
        { SpecURL := "github.com/".toList ++ owner ++ "/".toList ++ name,
          BaseURL := "/changes/github.com/".toList ++ owner ++ "/".toList ++ name,
          changesApp := app }
        req (afterResolve users req.ctx w) u suffix hu hp
    · intro h0 s hsess
      subst h0
      exact githubChangesHandler_served shurcool users app req w u owner name [] s hu hp ho
        hn hos hns hsuf hnil hsess he hc
  · intro suffix hp
    obtain ⟨w1, hrun, hred, hserved⟩ := blogHandler_redirects getUser app req w u suffix hu hp
    refine ⟨w1, hrun, hred, ?_⟩
    intro h0
    subst h0
    exact hserved hnil

/-- An instance of C17: a request for `/kebabcase/issues/?a=b` is redirected to the
root target `/kebabcase/issues?a=b`. -/
theorem C17_root_redirect_exactly_on_slash_witness :
    ∃ w1,
      (issuesHandler
          { SpecURL := "dmitri.shuralyov.com/kebabcase".toList,
            BaseURL := "/kebabcase/issues".toList }
          (sampleApp 200 "ok".toList)
          (sampleRequest "/kebabcase/issues/?a=b".toList noSession)).run
          (sampleWorld "/kebabcase/issues/".toList "a=b".toList) =
        .ok (some (httperror.Redirect
            (rootTarget "/kebabcase/issues".toList
              { Path := "/kebabcase/issues/".toList, RawQuery := "a=b".toList })), w1) :=
  (((C17_root_redirect_exactly_on_slash sampleShurcool (sampleUsers sampleShurcool none)
      sampleGetUser
      (sampleApp 200 "ok".toList) (sampleRequest "/kebabcase/issues/?a=b".toList noSession)
      (sampleWorld "/kebabcase/issues/".toList "a=b".toList)
      { Path := "/kebabcase/issues/".toList, RawQuery := "a=b".toList } rfl).2.2.2.1
      { SpecURL := "dmitri.shuralyov.com/kebabcase".toList,
        BaseURL := "/kebabcase/issues".toList }
      "/".toList rfl).1 (by decide)).mpr rfl

end rootredirect

/-! ## The trailing slash of a GitHub change path -/

section trailingslash

variable {σ : Type}

/-- When the rest of a path splits into three pieces, the pieces are the owner, the
name and, verbatim, everything that follows the second slash. -/
theorem SplitN_three_inv (rest elems0 elems1 elems2 : GoString)
    (h : strings.SplitN rest '/' 3 = [elems0, elems1, elems2]) :
    rest = elems0 ++ '/' :: (elems1 ++ '/' :: elems2) ∧ '/' ∉ elems0 ∧ '/' ∉ elems1 := by
  rcases SplitN_cases rest with ⟨-, hsp⟩ | ⟨owner, name, -, -, -, hsp⟩ |
      ⟨owner, name, tail, hr, ho, hn, hsp⟩
  · rw [hsp] at h
    have hl := congrArg List.length h
    simp at hl
  · rw [hsp] at h
    have hl := congrArg List.length h
    simp at hl
  · rw [hsp] at h
    injection h with h0 h
    injection h with h1 h
    injection h with h2 _
    subst h0 h1 h2
    exact ⟨hr, ho, hn⟩

/-- Claim C21. In `githubChangesHandler`, for a caller the resolver names and who is
not `shurcool`: a path `/changes/github.com/<owner>/<name>/`, with a trailing slash
after the repository name, is split into the three pieces owner, name and the empty
string, and the handler returns the redirect to
`https://github.com/<owner>/<name>/pull/`, which is not the listing
`https://github.com/<owner>/<name>/pulls`. More generally, whenever the rest of the
path splits into three pieces with a non-empty owner and name, the third piece is
everything that follows the second slash of the rest, further slashes included, and
the handler returns the redirect to `https://github.com/` + owner + `/` + name +
`/pull/` + third piece; only the resolver has been asked. -/
theorem C21_trailing_slash_goes_to_pull (shurcool : Principal) (users : users.Service σ)
    (app : http.Handler σ) (req : http.Request) (w : World σ) (u : url.URL)
    (hu : w.urls[req.URL]? = some u)
    (he : (users.GetAuthenticatedSpec req.ctx w.state).1.2 = none)
    (hc : (users.GetAuthenticatedSpec req.ctx w.state).1.1 ≠ shurcool) :
    (∀ owner name : GoString, owner ≠ [] → name ≠ [] → '/' ∉ owner → '/' ∉ name →
      u.Path = "/changes/github.com/".toList ++ owner ++ "/".toList ++ name ++ "/".toList →
      strings.SplitN (u.Path.drop (len "/changes/github.com/".toList)) '/' 3 =
          [owner, name, []] ∧
        (githubChangesHandler shurcool users app req).run w =
          .ok (some (httperror.Redirect
              ("https://github.com/".toList ++ owner ++ "/".toList ++ name ++ "/pull/".toList)),
            afterResolve users req.ctx w) ∧
        "https://github.com/".toList ++ owner ++ "/".toList ++ name ++ "/pull/".toList ≠
          "https://github.com/".toList ++ owner ++ "/".toList ++ name ++ "/pulls".toList) ∧
    (strings.HasPrefix u.Path "/changes/github.com/".toList = true →
      ∀ elems0 elems1 elems2 : GoString,
        strings.SplitN (u.Path.drop (len "/changes/github.com/".toList)) '/' 3 =
          [elems0, elems1, elems2] →
        elems0 ≠ [] → elems1 ≠ [] →
        u.Path = "/changes/github.com/".toList ++ elems0 ++ "/".toList ++ elems1 ++
            "/".toList ++ elems2 ∧
          (githubChangesHandler shurcool users app req).run w =
            .ok (some (httperror.Redirect
                ("https://github.com/".toList ++ elems0 ++ "/".toList ++ elems1 ++
                  "/pull/".toList ++ elems2)),
              afterResolve users req.ctx w)) := by
  have he1 : ¬((users.GetAuthenticatedSpec req.ctx w.state).1.2 ≠ none) := fun h => h he
  have hrun : ∀ owner name rest : GoString, owner ≠ [] → name ≠ [] → '/' ∉ owner →
      '/' ∉ name →
      u.Path = "/changes/github.com/".toList ++ (owner ++ '/' :: (name ++ '/' :: rest)) →
      (githubChangesHandler shurcool users app req).run w =
        .ok (some (httperror.Redirect
            ("https://github.com/".toList ++ owner ++ "/".toList ++ name ++ "/pull/".toList ++
              rest)),
          afterResolve users req.ctx w) := by
    intro owner name rest ho hn hos hns hp
    rw [githubChangesHandler_resolved shurcool users app req w u owner name ('/' :: rest) hu hp
      ho hn hos hns (Or.inr ⟨rest, rfl⟩), if_neg he1, if_pos hc]
    simp
  constructor
  · intro owner name ho hn hos hns hp
    have hp1 : u.Path =
        "/changes/github.com/".toList ++ (owner ++ '/' :: (name ++ '/' :: [])) := by
      rw [hp]; simp
    refine ⟨?_, ?_, ?_⟩
    · rw [hp1, List.drop_left, SplitN_three owner name [] hos hns]
    · have h := hrun owner name [] ho hn hos hns hp1
      rw [List.append_nil] at h
      exact h
    · intro h
      have h1 := List.append_cancel_left h
      revert h1
      decide
  · intro hp elems0 elems1 elems2 hsplit h0 h1
    obtain ⟨t, ht⟩ := (HasPrefix_iff _ _).mp hp
    have hdrop : u.Path.drop (len "/changes/github.com/".toList) = t := by
      rw [ht]; exact List.drop_left _ _
    rw [hdrop] at hsplit
    obtain ⟨hr, hos, hns⟩ := SplitN_three_inv t elems0 elems1 elems2 hsplit
    have hp1 : u.Path =
        "/changes/github.com/".toList ++ (elems0 ++ '/' :: (elems1 ++ '/' :: elems2)) := by
      rw [ht, hr]
    refine ⟨?_, hrun elems0 elems1 elems2 h0 h1 hos hns hp1⟩
    rw [hp1]
    simp

/-- An instance of C21: a visitor asks for `/changes/github.com/foo/bar/`, and for
`/changes/github.com/foo/bar/12/files`. -/
theorem C21_trailing_slash_goes_to_pull_witness :
    (githubChangesHandler sampleShurcool (sampleUsers sampleVisitor none)
        (sampleApp 200 "ok".toList)
        (sampleRequest "/changes/github.com/foo/bar/".toList noSession)).run
        (sampleWorld "/changes/github.com/foo/bar/".toList []) =
      .ok (some (httperror.Redirect
          ("https://github.com/".toList ++ "foo".toList ++ "/".toList ++ "bar".toList ++
            "/pull/".toList)),
        afterResolve (sampleUsers sampleVisitor none)
          (sampleRequest "/changes/github.com/foo/bar/".toList noSession).ctx
          (sampleWorld "/changes/github.com/foo/bar/".toList [])) ∧
    (githubChangesHandler sampleShurcool (sampleUsers sampleVisitor none)
        (sampleApp 200 "ok".toList)
        (sampleRequest "/changes/github.com/foo/bar/12/files".toList noSession)).run
        (sampleWorld "/changes/github.com/foo/bar/12/files".toList []) =
      .ok (some (httperror.Redirect
          ("https://github.com/".toList ++ "foo".toList ++ "/".toList ++ "bar".toList ++
            "/pull/".toList ++ "12/files".toList)),
        afterResolve (sampleUsers sampleVisitor none)
          (sampleRequest "/changes/github.com/foo/bar/12/files".toList noSession).ctx
          (sampleWorld "/changes/github.com/foo/bar/12/files".toList [])) :=
  ⟨((C21_trailing_slash_goes_to_pull sampleShurcool (sampleUsers sampleVisitor none)
      (sampleApp 200 "ok".toList)
      (sampleRequest "/changes/github.com/foo/bar/".toList noSession)
      (sampleWorld "/changes/github.com/foo/bar/".toList [])
      { Path := "/changes/github.com/foo/bar/".toList, RawQuery := [] }
      rfl rfl (by decide)).1 "foo".toList "bar".toList (by decide) (by decide) (by decide)
      (by decide) rfl).2.1,
   ((C21_trailing_slash_goes_to_pull sampleShurcool (sampleUsers sampleVisitor none)
      (sampleApp 200 "ok".toList)
      (sampleRequest "/changes/github.com/foo/bar/12/files".toList noSession)
      (sampleWorld "/changes/github.com/foo/bar/12/files".toList [])
      { Path := "/changes/github.com/foo/bar/12/files".toList, RawQuery := [] }
      rfl rfl (by decide)).2 (by decide) "foo".toList "bar".toList "12/files".toList
      (by decide) (by decide) (by decide)).2⟩

end trailingslash

end Home
